import Mathlib

/-!
# GnuCash SQL backend: persistence engine and DBI connection

A shallow embedding of `src/backend/sql/gnc-sql-backend.cpp` (the engine,
`GncSqlBackend`) and `src/backend/dbi/gnc-dbisqlconnection.cpp` (the libdbi
connection, `GncDbiSqlConnection`).

The engine talks to three collaborators whose code is elsewhere: the
connection (through the abstract `GncSqlConnection` interface), the object
backends held in the registry, and the QOF domain model.  Every call the
engine makes to one of them is appended to a trace, and the answer of the
collaborator is read from a `World`, a record of oracles that see the trace
so far.  A null pointer that the source dereferences is modelled by the
`none` result of the enclosing function.
-/

namespace GncSql

/-! ## Constants of the source -/

def VERSION_TABLE_NAME : String := "versions"
def MAX_TABLE_NAME_LEN : Nat := 50
def TABLE_COL_NAME : String := "table_name"
def VERSION_COL_NAME : String := "table_version"

/-- Modelled from the spec: the type-tag macros `GNC_ID_*` are defined in
engine headers that are not part of the sources at hand; the spec names the
types (book, commodity, account, lot, bill-term, tax-table, invoice,
transaction, split, scheduled transaction).  The strings are the tags of the
engine; the statements below that name a tag write the string out. -/
def GNC_ID_BOOK : String := "Book"
/-- Modelled from the spec: see `GNC_ID_BOOK`. -/
def GNC_ID_COMMODITY : String := "Commodity"
/-- Modelled from the spec: see `GNC_ID_BOOK`. -/
def GNC_ID_ACCOUNT : String := "Account"
/-- Modelled from the spec: see `GNC_ID_BOOK`. -/
def GNC_ID_LOT : String := "Lot"
/-- Modelled from the spec: see `GNC_ID_BOOK`. -/
def GNC_ID_BILLTERM : String := "gncBillTerm"
/-- Modelled from the spec: see `GNC_ID_BOOK`. -/
def GNC_ID_TAXTABLE : String := "gncTaxTable"
/-- Modelled from the spec: see `GNC_ID_BOOK`. -/
def GNC_ID_INVOICE : String := "gncInvoice"
/-- Modelled from the spec: see `GNC_ID_BOOK`. -/
def GNC_ID_TRANS : String := "Trans"
/-- Modelled from the spec: see `GNC_ID_BOOK`. -/
def GNC_ID_SPLIT : String := "Split"
/-- Modelled from the spec: see `GNC_ID_BOOK`. -/
def GNC_ID_SCHEDXACTION : String := "SchedXaction"

/-- Main object load order (`fixed_load_order`). -/
def fixed_load_order : List String :=
  [GNC_ID_BOOK, GNC_ID_COMMODITY, GNC_ID_ACCOUNT, GNC_ID_LOT]

/-- Order in which business objects need to be loaded
(`business_fixed_load_order`). -/
def business_fixed_load_order : List String :=
  [GNC_ID_BILLTERM, GNC_ID_TAXTABLE, GNC_ID_INVOICE]

/-! ## Data model -/

/-- Error kinds passed to `qof_backend_set_error` by the two source files. -/
inductive QofBackendError where
  | ERR_BACKEND_SERVER_ERR
  | ERR_BACKEND_READONLY
deriving DecidableEq, Repr

/-- The attributes of a `QofInstance` that the engine reads or writes. -/
structure QofInstance where
  id : Nat
  e_type : String
  dirty : Bool
  destroying : Bool
  infant : Bool
deriving DecidableEq, Repr

/-- A transaction of the book with its split list (`xaccTransGetSplitList`). -/
structure Transaction where
  inst : QofInstance
  splits : List QofInstance
deriving DecidableEq, Repr

/-- The parts of a `QofBook` that `sync_all` walks: the two account trees
(root and descendants), the transactions reached from each tree in the order
`xaccAccountTreeForEachTransaction` visits them, and the scheduled
transactions. -/
structure QofBook where
  id : Nat
  inst : QofInstance
  root_account : Option QofInstance
  root_descendants : List QofInstance
  root_transactions : List Transaction
  template_root : Option QofInstance
  template_descendants : List QofInstance
  template_transactions : List Transaction
  sx_list : List QofInstance
deriving DecidableEq, Repr

/-- An object backend as the engine sees it: its identity and the answer of
`is_version (GNC_SQL_BACKEND_VERSION)`. -/
structure GncSqlObjectBackend where
  id : Nat
  is_version : Bool
deriving DecidableEq, Repr

/-- A registry entry (`OBEEntry`): type tag and backend. -/
abbrev OBEEntry := String × GncSqlObjectBackend

/-- A ledger entry (`VersionPair`): table name and version. -/
abbrev VersionPair := String × Nat

/-- A column description (`GncSqlColumnTableEntry`): name, size, flags. -/
structure ColumnEntry where
  name : String
  size : Nat
  flags : Nat
deriving DecidableEq, Repr

abbrev EntryVec := List ColumnEntry

/-- The columns of the ledger table; the flag sets `COL_PKEY | COL_NNUL` and
`COL_NNUL` are kept as plain numbers. -/
def version_table : EntryVec :=
  [⟨TABLE_COL_NAME, MAX_TABLE_NAME_LEN, 3⟩, ⟨VERSION_COL_NAME, 0, 2⟩]

/-- Every call the engine makes to a collaborator. -/
inductive Event where
  | begin_transaction
  | commit_transaction
  | rollback_transaction
  | execute_nonselect_statement (sql : String)
  | does_table_exist (table_name : String)
  | create_table (table_name : String) (info_vec : EntryVec)
  | obe_create_tables (type : String) (obe : Nat)
  | obe_load_all (type : String) (obe : Nat)
  | obe_commit (type : String) (obe : Nat) (inst : QofInstance)
  | obe_write (type : String) (obe : Nat)
  | qof_backend_set_error (err : QofBackendError)
  | qof_instance_mark_clean (inst : Nat)
  | qof_book_mark_session_saved (book : Option Nat)
  | gnc_sql_commit_commodity (commodity : Nat) (loading : Bool)
  | foreach_descendant_begin_edit (book : Nat)
  | foreach_descendant_commit_edit (book : Nat)
  | update_progress
  | finish_progress
deriving DecidableEq, Repr

/-- The collaborators.  Each oracle receives the trace of the calls made so
far, so an answer may depend on everything that happened before. -/
structure World where
  /-- Answer of `qof_book_is_readonly (m_book)`; the book pointer may be null. -/
  qof_book_is_readonly : Option QofBook → Bool
  /-- Value of `gnc_prefs_get_long_version ()`. -/
  gnc_prefs_get_long_version : Nat
  /-- Value of the macro `GNUCASH_RESAVE_VERSION`. -/
  GNUCASH_RESAVE_VERSION : Nat
  /-- Whether the progress callback `qof_be.percentage` is set. -/
  has_percentage : Bool
  conn_begin_transaction : List Event → Bool
  conn_commit_transaction : List Event → Bool
  conn_rollback_transaction : List Event → Bool
  conn_execute_nonselect_statement : List Event → String → Int
  conn_does_table_exist : List Event → String → Bool
  conn_create_table : List Event → String → EntryVec → Bool
  obe_commit : List Event → OBEEntry → QofInstance → Bool
  /-- The commodities a backend hands to `commodity_for_postload_processing`
  while it runs `load_all`. -/
  obe_load_all : List Event → OBEEntry → List Nat

/-- The state of a `GncSqlBackend`.  `qof_be_errors` stands for the error
slot of the embedded `QofBackend`. -/
structure GncSqlBackend where
  qof_be_errors : List QofBackendError
  m_book : Option QofBook
  m_loading : Bool
  m_is_pristine_db : Bool
  m_versions : List VersionPair
  m_backend_registry : List OBEEntry
  m_postload_commodities : List Nat
  trace : List Event
deriving DecidableEq, Repr

/-- Append one collaborator call to the trace. -/
def GncSqlBackend.emit (be : GncSqlBackend) (e : Event) : GncSqlBackend :=
  { be with trace := be.trace ++ [e] }

/-- Modelled from the spec: `qof_backend_set_error` belongs to the QOF
library, whose code is not part of the sources at hand.  The spec describes
one clearable error slot read by the embedding application.  The model keeps
every error kind handed to the setter since the slot was last cleared, in
order; the slot is empty exactly when this list is empty, and nothing is
assumed on which of several recorded kinds the slot shows. -/
def qof_backend_set_error (be : GncSqlBackend) (err : QofBackendError) :
    GncSqlBackend :=
  { be with qof_be_errors := be.qof_be_errors ++ [err],
            trace := be.trace ++ [Event.qof_backend_set_error err] }

/-- Modelled from the spec: `qof_backend_check_error` (QOF library) tells
whether the error slot is non-empty, without clearing it. -/
def qof_backend_check_error (be : GncSqlBackend) : Bool :=
  !be.qof_be_errors.isEmpty

/-! ## Statement execution through the connection -/

/-- Source function `GncSqlBackend::execute_nonselect_statement`; the statement is given by
its SQL text (`GncDbiSqlConnection::create_statement_from_sql` always
returns a statement holding the text). -/
def execute_nonselect_statement (w : World) (be : GncSqlBackend)
    (sql : String) : GncSqlBackend × Int :=
  let result := w.conn_execute_nonselect_statement be.trace sql
  let be1 := be.emit (Event.execute_nonselect_statement sql)
  if result = -1 then
    (qof_backend_set_error be1 QofBackendError.ERR_BACKEND_SERVER_ERR, result)
  else
    (be1, result)

/-! ## Version ledger -/

/-- The `std::find_if` of both ledger functions: the first entry named
`table_name`. -/
def find_version (versions : List VersionPair) (table_name : String) :
    Option VersionPair :=
  versions.find? (fun ver => ver.1 == table_name)

/-- The write `ver_entry->second = version` through the iterator returned by
`find_version`: the first entry named `table_name` gets the version. -/
def assign_version : List VersionPair → String → Nat → List VersionPair
  | [], _, _ => []
  | ver :: rest, table_name, version =>
    if ver.1 == table_name then (ver.1, version) :: rest
    else ver :: assign_version rest table_name version

/-- Source function `GncSqlBackend::get_table_version`. -/
def get_table_version (be : GncSqlBackend) (table_name : String) : Nat :=
  if be.m_is_pristine_db then 0
  else
    match find_version be.m_versions table_name with
    | some version => version.2
    | none => 0

/-- The text of the INSERT built by `set_table_version`. -/
def insert_version_sql (table_name : String) (version : Nat) : String :=
  "INSERT INTO " ++ VERSION_TABLE_NAME ++ " VALUES('" ++ table_name ++ "'," ++
    toString version ++ ")"

/-- The text of the UPDATE built by `set_table_version`. -/
def update_version_sql (table_name : String) (version : Nat) : String :=
  "UPDATE " ++ VERSION_TABLE_NAME ++ " SET " ++ VERSION_COL_NAME ++ "=" ++
    toString version ++ " WHERE " ++ TABLE_COL_NAME ++ "='" ++ table_name ++ "'"

/-- Source function `GncSqlBackend::set_table_version`. -/
def set_table_version (w : World) (be : GncSqlBackend) (table_name : String)
    (version : Nat) : GncSqlBackend × Bool :=
  if ¬ (version > 0) then (be, false)
  else
    let ver_entry := find_version be.m_versions table_name
    let cur_version : Nat :=
      match ver_entry with
      | some ver => ver.2
      | none => 0
    if cur_version ≠ version then
      let sql :=
        if cur_version = 0 then insert_version_sql table_name version
        else update_version_sql table_name version
      let be1 : GncSqlBackend :=
        if cur_version = 0 then
          { be with m_versions := be.m_versions ++ [(table_name, version)] }
        else
          { be with m_versions := assign_version be.m_versions table_name version }
      let (be2, status) := execute_nonselect_statement w be1 sql
      if status = -1 then
        (qof_backend_set_error be2 QofBackendError.ERR_BACKEND_SERVER_ERR, false)
      else
        (be2, true)
    else
      (be, true)

/-- The engine after the calls `set_table_version (table_name, v)` for the
`v` of the list, in order. -/
def set_table_versions (w : World) (be : GncSqlBackend) (table_name : String)
    (versions : List Nat) : GncSqlBackend :=
  versions.foldl (fun s v => (set_table_version w s table_name v).1) be

/-! ## Tables -/

/-- Source function `GncSqlBackend::update_progress`. -/
def update_progress (w : World) (be : GncSqlBackend) : GncSqlBackend :=
  if w.has_percentage then be.emit Event.update_progress else be

/-- Source function `GncSqlBackend::finish_progress`. -/
def finish_progress (w : World) (be : GncSqlBackend) : GncSqlBackend :=
  if w.has_percentage then be.emit Event.finish_progress else be

/-- Modelled from the spec: `add_to_table` of a column-table entry is defined
in a header that is not part of the sources at hand; the entry appends its
own column description to `info_vec`. -/
def add_to_table (info_vec : EntryVec) (table_row : ColumnEntry) : EntryVec :=
  info_vec ++ [table_row]

/-- Source function `GncSqlBackend::create_table (table_name, col_table)`. -/
def create_table (w : World) (be : GncSqlBackend) (table_name : String)
    (col_table : EntryVec) : GncSqlBackend × Bool :=
  let info_vec : EntryVec := col_table.foldl add_to_table []
  let ok := w.conn_create_table be.trace table_name info_vec
  (be.emit (Event.create_table table_name info_vec), ok)

/-- Source function `GncSqlBackend::reset_version_info`. -/
def reset_version_info (w : World) (be : GncSqlBackend) : GncSqlBackend × Bool :=
  let exists_ := w.conn_does_table_exist be.trace VERSION_TABLE_NAME
  let be0 := be.emit (Event.does_table_exist VERSION_TABLE_NAME)
  let (be1, ok) :=
    if !exists_ then create_table w be0 VERSION_TABLE_NAME version_table
    else (be0, true)
  let be2 : GncSqlBackend := { be1 with m_versions := [] }
  let be3 := (set_table_version w be2 "Gnucash" w.gnc_prefs_get_long_version).1
  let be4 := (set_table_version w be3 "Gnucash-Resave" w.GNUCASH_RESAVE_VERSION).1
  (be4, ok)

/-- Source function `GncSqlBackend::finalize_version_info`. -/
def finalize_version_info (be : GncSqlBackend) : GncSqlBackend :=
  { be with m_versions := [] }

/-- Source function `GncSqlBackend::create_tables`. -/
def create_tables (w : World) (be : GncSqlBackend) : GncSqlBackend :=
  be.m_backend_registry.foldl
    (fun s entry => (update_progress w s).emit (Event.obe_create_tables entry.1 entry.2.id))
    be

/-! ## Registry -/

/-- Source function `ObjectBackendRegistry::get_object_backend`: the first registration
whose tag is `type`, or none (a null pointer). -/
def get_object_backend (m_registry : List OBEEntry) (type : String) :
    Option OBEEntry :=
  m_registry.find? (fun entry => type == entry.1)

/-- Source function `GncSqlBackend::commodity_for_postload_processing`. -/
def commodity_for_postload_processing (be : GncSqlBackend) (commodity : Nat) :
    GncSqlBackend :=
  { be with m_postload_commodities := be.m_postload_commodities ++ [commodity] }

/-- The call `obe->load_all (this)`: the backend runs and queues the
commodities the world says it queues. -/
def obe_load_all (w : World) (be : GncSqlBackend) (entry : OBEEntry) : GncSqlBackend :=
  let queued := w.obe_load_all be.trace entry
  let be1 := be.emit (Event.obe_load_all entry.1 entry.2.id)
  queued.foldl commodity_for_postload_processing be1

/-- The call `obe->commit (this, inst)`. -/
def obe_commit (w : World) (be : GncSqlBackend) (entry : OBEEntry)
    (inst : QofInstance) : GncSqlBackend × Bool :=
  let ok := w.obe_commit be.trace entry inst
  (be.emit (Event.obe_commit entry.1 entry.2.id inst), ok)

/-- The body of the loop of `load_remaining`, with its three `continue`. -/
def load_remaining_body (w : World) (be : GncSqlBackend) (entry : OBEEntry) :
    GncSqlBackend :=
  if !entry.2.is_version then be
  else if fixed_load_order.contains entry.1 then be
  else if business_fixed_load_order.contains entry.1 then be
  else obe_load_all w be entry

/-- Source function `ObjectBackendRegistry::load_remaining`. -/
def load_remaining (w : World) (be : GncSqlBackend) : GncSqlBackend :=
  be.m_backend_registry.foldl (load_remaining_body w) be

/-- The body of the two fixed-order loops of `load`. -/
def load_fixed (w : World) (be : GncSqlBackend) (type : String) : GncSqlBackend :=
  match get_object_backend be.m_backend_registry type with
  | some obe => obe_load_all w (update_progress w be) obe
  | none => be

/-- The call `gnc_sql_commit_commodity (comm)` made by `load` for a queued
commodity; the event records the loading flag at the time of the call. -/
def gnc_sql_commit_commodity (be : GncSqlBackend) (comm : Nat) : GncSqlBackend :=
  be.emit (Event.gnc_sql_commit_commodity comm be.m_loading)

inductive QofBackendLoadType where
  | LOAD_TYPE_INITIAL_LOAD
  | LOAD_TYPE_LOAD_ALL
deriving DecidableEq, Repr

/-- The tail of `load` after the two load types: the loading flag is
cleared, the queued commodities are committed, `m_postload_commodities.empty ()`
is evaluated (a query, its result dropped), the session is marked saved. -/
def load_finish (w : World) (be : GncSqlBackend) (book : QofBook) : GncSqlBackend :=
  let be1 : GncSqlBackend := { be with m_loading := false }
  let be2 := be1.m_postload_commodities.foldl gnc_sql_commit_commodity be1
  let _unused := be2.m_postload_commodities.isEmpty
  let be3 := be2.emit (Event.qof_book_mark_session_saved (some book.id))
  finish_progress w be3

/-- Source function `GncSqlBackend::load`.  A null `book` returns at once; a failed
`assert (m_book == nullptr)` and the call through a null transaction backend
give `none`. -/
def load (w : World) (be : GncSqlBackend) (book : Option QofBook)
    (loadType : QofBackendLoadType) : Option GncSqlBackend :=
  match book with
  | none => some be
  | some book =>
    let be0 : GncSqlBackend := { be with m_loading := true }
    match loadType with
    | QofBackendLoadType.LOAD_TYPE_INITIAL_LOAD =>
      if be0.m_book ≠ none then none
      else
        let be1 : GncSqlBackend := { be0 with m_book := some book }
        let be2 := fixed_load_order.foldl (load_fixed w) be1
        let be3 := business_fixed_load_order.foldl (load_fixed w) be2
        let be4 := be3.emit (Event.foreach_descendant_begin_edit book.id)
        let be5 := load_remaining w be4
        let be6 := be5.emit (Event.foreach_descendant_commit_edit book.id)
        some (load_finish w be6 book)
    | QofBackendLoadType.LOAD_TYPE_LOAD_ALL =>
      match get_object_backend be0.m_backend_registry GNC_ID_TRANS with
      | none => none
      | some obe => some (load_finish w (obe_load_all w be0 obe) book)

/-! ## Calls on the connection -/

/-- The call `m_conn->begin_transaction ()`. -/
def conn_begin_transaction (w : World) (be : GncSqlBackend) : GncSqlBackend × Bool :=
  (be.emit Event.begin_transaction, w.conn_begin_transaction be.trace)

/-- The call `m_conn->commit_transaction ()`. -/
def conn_commit_transaction (w : World) (be : GncSqlBackend) : GncSqlBackend × Bool :=
  (be.emit Event.commit_transaction, w.conn_commit_transaction be.trace)

/-- The call `m_conn->rollback_transaction ()`. -/
def conn_rollback_transaction (w : World) (be : GncSqlBackend) : GncSqlBackend × Bool :=
  (be.emit Event.rollback_transaction, w.conn_rollback_transaction be.trace)

/-- Modelled from the spec: `qof_instance_mark_clean` (QOF library) clears
the dirty flag of the instance. -/
def qof_instance_mark_clean (be : GncSqlBackend) (inst : QofInstance) :
    GncSqlBackend × QofInstance :=
  (be.emit (Event.qof_instance_mark_clean inst.id), { inst with dirty := false })

/-- The call `qof_book_mark_session_saved (book)` (QOF library). -/
def qof_book_mark_session_saved (be : GncSqlBackend) (book : Option QofBook) :
    GncSqlBackend :=
  be.emit (Event.qof_book_mark_session_saved (book.map (fun b => b.id)))

/-! ## Full save -/

/-- The loops `for (...; node != NULL && is_ok; ...) is_ok = obe->commit (...)`
of `write_account_tree` and `write_schedXactions`, entered with `is_ok` true:
the instances are committed in order until one commit fails. -/
def commit_while_ok (w : World) (obe : OBEEntry) :
    List QofInstance → GncSqlBackend → GncSqlBackend × Bool
  | [], be => (be, true)
  | inst :: rest, be =>
    let (be1, is_ok) := obe_commit w be obe inst
    if is_ok then commit_while_ok w obe rest be1 else (be1, false)

/-- Source function `GncSqlBackend::write_account_tree`; `descendants` is the result of
`gnc_account_get_descendants (root)`. -/
def write_account_tree (w : World) (be : GncSqlBackend) (root : Option QofInstance)
    (descendants : List QofInstance) : Option (GncSqlBackend × Bool) :=
  match root with
  | none => some (be, false)
  | some root =>
    match get_object_backend be.m_backend_registry GNC_ID_ACCOUNT with
    | none => none
    | some obe =>
      let (be1, is_ok) := obe_commit w be obe root
      let (be2, is_ok2) :=
        if is_ok then commit_while_ok w obe descendants be1 else (be1, is_ok)
      some (update_progress w be2, is_ok2)

/-- Source function `GncSqlBackend::write_accounts`. -/
def write_accounts (w : World) (be : GncSqlBackend) : Option (GncSqlBackend × Bool) :=
  match be.m_book with
  | none => none
  | some book =>
    let be0 := update_progress w be
    match write_account_tree w be0 book.root_account book.root_descendants with
    | none => none
    | some (be1, is_ok) =>
      if is_ok then
        write_account_tree w (update_progress w be1) book.template_root
          book.template_descendants
      else some (be1, is_ok)

/-- The callback data `write_objects_t` without its engine pointer. -/
structure write_objects_t where
  is_ok : Bool
  obe : Option OBEEntry
deriving DecidableEq, Repr

/-- Modelled from the spec: `write_objects_t::commit` is declared in a
header that is not part of the sources at hand; it commits the instance
through the stored backend when `is_ok` still holds and stores the result. -/
def write_objects_t.commit (w : World) (be : GncSqlBackend) (s : write_objects_t)
    (inst : QofInstance) : Option (GncSqlBackend × write_objects_t) :=
  if s.is_ok then
    match s.obe with
    | none => none
    | some obe =>
      let (be1, ok) := obe_commit w be obe inst
      some (be1, { s with is_ok := ok })
  else some (be, s)

/-- The split loop of `write_tx`. -/
def write_splits (w : World) (splitbe : Option OBEEntry) :
    List QofInstance → GncSqlBackend → write_objects_t →
      Option (GncSqlBackend × write_objects_t)
  | [], be, s => some (be, s)
  | split :: rest, be, s =>
    if s.is_ok then
      match splitbe with
      | none => none
      | some obe =>
        let (be1, ok) := obe_commit w be obe split
        write_splits w splitbe rest be1 { s with is_ok := ok }
    else some (be, s)

/-- The callback `write_tx`; the last component is its return value. -/
def write_tx (w : World) (be : GncSqlBackend) (s : write_objects_t)
    (tx : Transaction) : Option (GncSqlBackend × write_objects_t × Int) :=
  match write_objects_t.commit w be s tx.inst with
  | none => none
  | some (be1, s1) =>
    let splitbe := get_object_backend be1.m_backend_registry GNC_ID_SPLIT
    match write_splits w splitbe tx.splits be1 s1 with
    | none => none
    | some (be2, s2) =>
      some (update_progress w be2, s2, if s2.is_ok then 0 else 1)

/-- Modelled from the spec: `xaccAccountTreeForEachTransaction` (engine
code that is not part of the sources at hand) calls the callback on each
transaction of the tree in turn and stops at the first non-zero return. -/
def xaccAccountTreeForEachTransaction (w : World) :
    List Transaction → GncSqlBackend → write_objects_t →
      Option (GncSqlBackend × write_objects_t)
  | [], be, s => some (be, s)
  | tx :: rest, be, s =>
    match write_tx w be s tx with
    | none => none
    | some (be1, s1, rc) =>
      if rc ≠ 0 then some (be1, s1)
      else xaccAccountTreeForEachTransaction w rest be1 s1

/-- Source function `GncSqlBackend::write_transactions`. -/
def write_transactions (w : World) (be : GncSqlBackend) :
    Option (GncSqlBackend × Bool) :=
  match be.m_book with
  | none => none
  | some book =>
    let obe := get_object_backend be.m_backend_registry GNC_ID_TRANS
    let data : write_objects_t := ⟨true, obe⟩
    match xaccAccountTreeForEachTransaction w book.root_transactions be data with
    | none => none
    | some (be1, data1) => some (update_progress w be1, data1.is_ok)

/-- Source function `GncSqlBackend::write_template_transactions`;
`gnc_account_n_descendants (ra)` is the length of the descendant list. -/
def write_template_transactions (w : World) (be : GncSqlBackend) :
    Option (GncSqlBackend × Bool) :=
  match be.m_book with
  | none => none
  | some book =>
    let obe := get_object_backend be.m_backend_registry GNC_ID_TRANS
    let data : write_objects_t := ⟨true, obe⟩
    if book.template_descendants.length > 0 then
      match xaccAccountTreeForEachTransaction w book.template_transactions be data with
      | none => none
      | some (be1, data1) => some (update_progress w be1, data1.is_ok)
    else some (be, data.is_ok)

/-- Source function `GncSqlBackend::write_schedXactions`. -/
def write_schedXactions (w : World) (be : GncSqlBackend) :
    Option (GncSqlBackend × Bool) :=
  match be.m_book with
  | none => none
  | some book =>
    match book.sx_list, get_object_backend be.m_backend_registry GNC_ID_SCHEDXACTION with
    | [], _ => some (update_progress w be, true)
    | _ :: _, none => none
    | sx :: rest, some obe =>
      let (be1, is_ok) := commit_while_ok w obe (sx :: rest) be
      some (update_progress w be1, is_ok)

/-- A step of `sync_all`: the new engine state and the new value of `is_ok`,
or `none` when the step calls through a null pointer. -/
abbrev Step := GncSqlBackend → Option (GncSqlBackend × Bool)

/-- The pattern `if (is_ok) { is_ok = step (); }` of `sync_all`. -/
def if_is_ok (step : Step) (r : GncSqlBackend × Bool) : Option (GncSqlBackend × Bool) :=
  if r.2 then step r.1 else some r

/-- Step `is_ok = m_conn->begin_transaction ()`. -/
def step_begin (w : World) : Step :=
  fun be => some (conn_begin_transaction w be)

/-- Step `obe->commit (this, QOF_INSTANCE (book))` with the book backend. -/
def step_commit_book (w : World) (book : QofBook) : Step :=
  fun be =>
    match get_object_backend be.m_backend_registry GNC_ID_BOOK with
    | none => none
    | some obe => some (obe_commit w be obe book.inst)

/-- Step `for (auto entry : m_backend_registry) std::get<1>(entry)->write (this)`;
it leaves `is_ok` as it is (true). -/
def step_write (_w : World) : Step :=
  fun be =>
    some (be.m_backend_registry.foldl
      (fun s entry => s.emit (Event.obe_write entry.1 entry.2.id)) be, true)

/-- Step `is_ok = m_conn->commit_transaction ()`. -/
def step_commit (w : World) : Step :=
  fun be => some (conn_commit_transaction w be)

/-- The part of `sync_all` before `begin_transaction`. -/
def sync_all_prepare (w : World) (be : GncSqlBackend) (book : QofBook) : GncSqlBackend :=
  let be1 := (reset_version_info w be).1
  let be2 := update_progress w be1
  let be3 : GncSqlBackend := { be2 with m_is_pristine_db := true }
  let be4 := create_tables w be3
  { be4 with m_book := some book }

/-- The part of `sync_all` after the steps: the final `if (is_ok) ... else ...`
and `finish_progress`. -/
def sync_all_finish (w : World) (book : QofBook) (r : GncSqlBackend × Bool) :
    GncSqlBackend :=
  let be := r.1
  let be1 :=
    if r.2 then
      qof_book_mark_session_saved { be with m_is_pristine_db := false } (some book)
    else
      let be0 :=
        if !qof_backend_check_error be then
          qof_backend_set_error be QofBackendError.ERR_BACKEND_SERVER_ERR
        else be
      (conn_rollback_transaction w be0).1
  finish_progress w be1

/-- Source function `GncSqlBackend::sync_all`. -/
def sync_all (w : World) (be : GncSqlBackend) (book : Option QofBook) :
    Option GncSqlBackend :=
  match book with
  | none => some be
  | some book =>
    let be0 := sync_all_prepare w be book
    (((((((step_begin w be0).bind
      (if_is_ok (step_commit_book w book))).bind
      (if_is_ok (write_accounts w))).bind
      (if_is_ok (write_transactions w))).bind
      (if_is_ok (write_template_transactions w))).bind
      (if_is_ok (write_schedXactions w))).bind
      (if_is_ok (step_write w))).bind
      (if_is_ok (step_commit w)) |>.map (sync_all_finish w book)

/-! ## Single-instance commit -/

/-- Source function `GncSqlBackend::commit_edit`; returns the engine and the instance. -/
def commit_edit (w : World) (be : GncSqlBackend) (inst : QofInstance) :
    GncSqlBackend × QofInstance :=
  if w.qof_book_is_readonly be.m_book then
    let be1 := qof_backend_set_error be QofBackendError.ERR_BACKEND_READONLY
    ((conn_rollback_transaction w be1).1, inst)
  else if be.m_loading then
    qof_instance_mark_clean be inst
  else if inst.e_type == "PriceDB" then
    let (be1, inst1) := qof_instance_mark_clean be inst
    (qof_book_mark_session_saved be1 be1.m_book, inst1)
  else
    let is_dirty := inst.dirty
    let is_destroying := inst.destroying
    if !is_dirty && !is_destroying then (be, inst)
    else
      let (be1, begun) := conn_begin_transaction w be
      if !begun then (be1, inst)
      else
        match get_object_backend be1.m_backend_registry inst.e_type with
        | some obe =>
          let (be2, is_ok) := obe_commit w be1 obe inst
          if !is_ok then
            ((conn_rollback_transaction w be2).1, inst)
          else
            let be3 := (conn_commit_transaction w be2).1
            let be4 := qof_book_mark_session_saved be3 be3.m_book
            qof_instance_mark_clean be4 inst
        | none =>
          let be2 := (conn_rollback_transaction w be1).1
          let be3 := qof_book_mark_session_saved be2 be2.m_book
          qof_instance_mark_clean be3 inst

/-! ## Reading the trace -/

/-- The eight steps of `sync_all` in the order of the source. -/
def sync_all_steps (w : World) (book : QofBook) : List Step :=
  [step_begin w, step_commit_book w book, write_accounts w, write_transactions w,
   write_template_transactions w, write_schedXactions w, step_write w, step_commit w]

/-- The reading of the spec ("any step returning failure aborts the
remaining steps"): the steps run in the order of the list, and the first one
that fails ends the run. -/
def run_steps : List Step → GncSqlBackend → Option (GncSqlBackend × Bool)
  | [], be => some (be, true)
  | step :: rest, be =>
    match step be with
    | none => none
    | some (be1, is_ok) => if is_ok then run_steps rest be1 else some (be1, false)

/-- Transaction control, error reports and session marks: the events by which
the outcome of a save is seen from outside. -/
def Event.is_control : Event → Bool
  | Event.begin_transaction => true
  | Event.commit_transaction => true
  | Event.rollback_transaction => true
  | Event.qof_backend_set_error _ => true
  | Event.qof_book_mark_session_saved _ => true
  | _ => false

/-- The control events of a trace, in order. -/
def control_events (trace : List Event) : List Event :=
  trace.filter Event.is_control

/-- The engine fields on which the outcome of a save depends are the same in
both states, and the trace of the second extends the trace of the first. -/
def same_engine (s s' : GncSqlBackend) : Prop :=
  s'.qof_be_errors = s.qof_be_errors ∧ s'.m_book = s.m_book ∧
  s'.m_is_pristine_db = s.m_is_pristine_db ∧
  s'.m_backend_registry = s.m_backend_registry ∧
  s'.m_versions = s.m_versions ∧ s.trace <+: s'.trace

/-- From the first state to the second no control event was added. -/
def quiet (s s' : GncSqlBackend) : Prop :=
  same_engine s s' ∧ control_events s'.trace = control_events s.trace

/-- A step that adds no control event whenever it returns. -/
def Step.quiet (step : Step) : Prop :=
  ∀ s s' ok, step s = some (s', ok) → GncSql.quiet s s'

/-- The backends `sync_all` calls through without a null check are
registered: book, account, transaction, split, scheduled transaction. -/
def sync_backends_registered (m_registry : List OBEEntry) : Prop :=
  (get_object_backend m_registry GNC_ID_BOOK).isSome ∧
  (get_object_backend m_registry GNC_ID_ACCOUNT).isSome ∧
  (get_object_backend m_registry GNC_ID_TRANS).isSome ∧
  (get_object_backend m_registry GNC_ID_SPLIT).isSome ∧
  (get_object_backend m_registry GNC_ID_SCHEDXACTION).isSome

/-- The `load_all` invocations of a trace, in order: type tag and backend. -/
def load_all_calls (trace : List Event) : List (String × Nat) :=
  trace.filterMap (fun e =>
    match e with
    | Event.obe_load_all type obe => some (type, obe)
    | _ => none)

/-- The commodities committed by `gnc_sql_commit_commodity` in a trace, in
order, each with the value of the loading flag at the time of the commit. -/
def commodity_commits (trace : List Event) : List (Nat × Bool) :=
  trace.filterMap (fun e =>
    match e with
    | Event.gnc_sql_commit_commodity comm loading => some (comm, loading)
    | _ => none)

/-- Whether a type tag is in one of the two fixed load orders. -/
def in_fixed_order (type : String) : Bool :=
  fixed_load_order.contains type || business_fixed_load_order.contains type

/-- A registry entry as it shows in a `load_all` event. -/
def OBEEntry_call (entry : OBEEntry) : String × Nat := (entry.1, entry.2.id)

/-- The `load_all` sequence of an initial load, written with the two fixed
orders of the source: the registered backends of the primary fixed order,
those of the business fixed order, then in registration order every
registration outside both orders whose version check passes. -/
def expected_load_order (be : GncSqlBackend) : List (String × Nat) :=
  (fixed_load_order.filterMap (get_object_backend be.m_backend_registry)).map OBEEntry_call ++
  (business_fixed_load_order.filterMap (get_object_backend be.m_backend_registry)).map OBEEntry_call ++
  (be.m_backend_registry.filter
    (fun entry => entry.2.is_version && !in_fixed_order entry.1)).map OBEEntry_call

/-! ## Connection replacement and table upgrade -/

/-- Source function `GncSqlBackend::connect`.  The connection itself is
represented by the world; what the engine state keeps of the call is the
reset of the ledger by `finalize_version_info`. -/
def connect (be : GncSqlBackend) : GncSqlBackend :=
  finalize_version_info be

/-- Source function `GncSqlBackend::upgrade_table`. -/
def upgrade_table (w : World) (be : GncSqlBackend) (table_name : String)
    (col_table : EntryVec) : GncSqlBackend :=
  let temp_table_name := table_name ++ "_new"
  let be1 := (create_table w be temp_table_name col_table).1
  let be2 := (execute_nonselect_statement w be1
    ("INSERT INTO " ++ temp_table_name ++ " SELECT * FROM " ++ table_name)).1
  let be3 := (execute_nonselect_statement w be2 ("DROP TABLE " ++ table_name)).1
  (execute_nonselect_statement w be3
    ("ALTER TABLE " ++ temp_table_name ++ " RENAME TO " ++ table_name)).1

/-! ## Ledger invariant, statements and a database to run them on -/

/-- The data-model invariant of the ledger: table names pairwise distinct,
every stored version at least 1. -/
def ledger_ok (versions : List VersionPair) : Prop :=
  (versions.map Prod.fst).Nodup ∧ ∀ ver ∈ versions, 1 ≤ ver.2

instance ledger_ok_decidable (versions : List VersionPair) : Decidable (ledger_ok versions) := by
  unfold ledger_ok
  infer_instance

/-- The texts of the statements executed through the connection, in order. -/
def sql_statements (trace : List Event) : List String :=
  trace.filterMap (fun e =>
    match e with
    | Event.execute_nonselect_statement sql => some sql
    | _ => none)

/-- Whether an event is a call on the connection. -/
def Event.is_connection_call : Event → Bool
  | Event.begin_transaction => true
  | Event.commit_transaction => true
  | Event.rollback_transaction => true
  | Event.execute_nonselect_statement _ => true
  | Event.does_table_exist _ => true
  | Event.create_table _ _ => true
  | _ => false

/-- The calls on the connection in a trace, in order. -/
def connection_calls (trace : List Event) : List Event :=
  trace.filter Event.is_connection_call

/-- A row of a table. -/
abbrev Row := List String

/-- A table of the database: name, column set, rows. -/
structure Table where
  name : String
  columns : EntryVec
  rows : List Row
deriving DecidableEq, Repr

/-- A database: its tables. -/
abbrev Database := List Table

/-- The statements a table upgrade is made of. -/
inductive Statement where
  | create_table (name : String) (columns : EntryVec)
  | insert_select (target source : String)
  | drop_table (name : String)
  | rename_table (name new_name : String)
deriving DecidableEq, Repr

/-- The call on the connection that carries a statement: table creation goes
through `create_table`, the others are sent as SQL text. -/
def Statement.event : Statement → Event
  | Statement.create_table name columns => Event.create_table name columns
  | Statement.insert_select target source =>
    Event.execute_nonselect_statement ("INSERT INTO " ++ target ++ " SELECT * FROM " ++ source)
  | Statement.drop_table name =>
    Event.execute_nonselect_statement ("DROP TABLE " ++ name)
  | Statement.rename_table name new_name =>
    Event.execute_nonselect_statement ("ALTER TABLE " ++ name ++ " RENAME TO " ++ new_name)

/-- The table of a given name, if the database has one. -/
def Database.table (db : Database) (name : String) : Option Table :=
  db.find? (fun t => t.name == name)

/-- The rows selected by `SELECT * FROM name`. -/
def Database.rows_of (db : Database) (name : String) : List Row :=
  match db.table name with
  | some t => t.rows
  | none => []

/-- Modelled from the spec: the database is behind the driver and no code of
it is part of the sources at hand.  In this model every statement succeeds:
creation adds an empty table, `INSERT ... SELECT *` appends the rows of the
source to the target, `DROP` removes the table, `RENAME` renames it. -/
def Database.exec (db : Database) : Statement → Database
  | Statement.create_table name columns => db ++ [⟨name, columns, []⟩]
  | Statement.insert_select target source =>
    db.map (fun t =>
      if t.name == target then { t with rows := t.rows ++ db.rows_of source } else t)
  | Statement.drop_table name => db.filter (fun t => !(t.name == name))
  | Statement.rename_table name new_name =>
    db.map (fun t => if t.name == name then { t with name := new_name } else t)

/-- Run statements in order. -/
def Database.run (db : Database) (stmts : List Statement) : Database :=
  stmts.foldl Database.exec db

/-- The statements of `upgrade_table (table_name, col_table)`, in order. -/
def upgrade_statements (table_name : String) (col_table : EntryVec) : List Statement :=
  [Statement.create_table (table_name ++ "_new") col_table,
   Statement.insert_select (table_name ++ "_new") table_name,
   Statement.drop_table table_name,
   Statement.rename_table (table_name ++ "_new") table_name]

/-! ## Transactions in a trace -/

/-- Whether an event is one of BEGIN, COMMIT, ROLLBACK. -/
def Event.is_transaction : Event → Bool
  | Event.begin_transaction => true
  | Event.commit_transaction => true
  | Event.rollback_transaction => true
  | _ => false

/-- The transaction events of a trace, in order. -/
def transaction_events (trace : List Event) : List Event :=
  trace.filter Event.is_transaction

/-- The reading of "transactions are one deep" on the transaction events of
one operation: at most one BEGIN, and, when the BEGIN succeeded, the
transaction event right after it is COMMIT or ROLLBACK (so the transaction is
closed before anything else happens to it, a second BEGIN included). -/
def one_deep (begin_ok : Bool) (tx : List Event) : Bool :=
  decide (tx.count Event.begin_transaction ≤ 1) &&
  (!begin_ok ||
    match tx.dropWhile (fun e => e != Event.begin_transaction) with
    | [] => true
    | [_] => false
    | _ :: next :: _ =>
      next == Event.commit_transaction || next == Event.rollback_transaction)

/-- From the first state to the second the trace was extended and no
transaction event was added. -/
def adds_no_transaction (s s' : GncSqlBackend) : Prop :=
  s.trace <+: s'.trace ∧ transaction_events s'.trace = transaction_events s.trace

/-! ## Save calls in a trace -/

/-- Whether an event is a call that saves data through an object backend: a
commit of an instance or a write pass. -/
def Event.is_save : Event → Bool
  | Event.obe_commit _ _ _ => true
  | Event.obe_write _ _ => true
  | _ => false

/-- The calls by which the steps of a full save are seen: transaction
control, error reports, session marks and save calls, in order. -/
def step_events (trace : List Event) : List Event :=
  trace.filter (fun e => e.is_control || e.is_save)

/-- The commits of the given instances, in order, through the backend
registered for the type tag; none when no backend is registered for it. -/
def commit_calls (reg : List OBEEntry) (type : String) (insts : List QofInstance) :
    List Event :=
  match get_object_backend reg type with
  | some obe => insts.map (fun inst => Event.obe_commit type obe.2.id inst)
  | none => []

/-- The commits of a list of transactions: each transaction through the
backend of `Trans`, followed by its splits through the backend of `Split`. -/
def tx_calls (reg : List OBEEntry) : List Transaction → List Event
  | [] => []
  | tx :: rest =>
    commit_calls reg "Trans" [tx.inst] ++ commit_calls reg "Split" tx.splits ++
      tx_calls reg rest

/-- The save calls the spec lists for a full save, in its order: the book;
the accounts of the main root, then those of the template root (each root
before its descendants); the transactions of the main tree, each followed by
its splits; the template transactions (when the template root has
descendants); the scheduled transactions; the write pass of every registered
backend in registration order. -/
def save_plan (reg : List OBEEntry) (book : QofBook) : List Event :=
  commit_calls reg "Book" [book.inst] ++
  commit_calls reg "Account" (book.root_account.toList ++ book.root_descendants) ++
  commit_calls reg "Account" (book.template_root.toList ++ book.template_descendants) ++
  tx_calls reg book.root_transactions ++
  (if book.template_descendants = [] then [] else tx_calls reg book.template_transactions) ++
  commit_calls reg "SchedXaction" book.sx_list ++
  reg.map (fun entry => Event.obe_write entry.1 entry.2.id)

/-- The answer the world gave to the backend commit recorded by an event,
`before` being the trace up to that call; none for any other event. -/
def commit_answer (w : World) (reg : List OBEEntry) (before : List Event) :
    Event → Option Bool
  | Event.obe_commit type _ inst =>
    (get_object_backend reg type).map (fun obe => w.obe_commit before obe inst)
  | _ => none

end GncSql

namespace GncDbi

/-! ## The libdbi connection (`gnc-dbisqlconnection.cpp`) -/

def DBI_MAX_CONN_ATTEMPTS : Nat := 5

/-- Calls of the connection to the driver, to the operating system and to
the QOF backend it reports to (`qof_backend_set_error (m_qbe,
ERR_BACKEND_SERVER_ERR)`, the only error kind this file reports). -/
inductive DbiEvent where
  | dbi_conn_connect
  | dbi_conn_query (sql : String)
  | sleep (delay : Nat)
  | qof_backend_set_error
  | gnc_push_locale
  | gnc_pop_locale
deriving DecidableEq, Repr

/-- The fields of the connection that the error handler writes (through
`set_error` and `retry_connection`) when the driver calls it. -/
structure ErrorState where
  m_conn_ok : Bool
  m_last_error : Nat
  m_error_repeat : Nat
  m_retry : Bool
deriving DecidableEq, Repr

/-- The driver behind `dbi_conn_connect`, an oracle on the calls made so far:
the return code of the call, what the error handler left in the connection if
the driver called it during the call (the handler is code outside the sources
at hand; the comment in `verify` says it acts during the connect), and the
platform (`G_OS_WIN32`). -/
structure Driver where
  dbi_conn_connect : List DbiEvent → Int
  connect_handler : List DbiEvent → Option ErrorState
  G_OS_WIN32 : Bool

/-- The state of a `GncDbiSqlConnection`; `m_last_error` is 0 when no error
is set, `m_error_repeat` is an `unsigned int`. -/
structure GncDbiSqlConnection where
  m_conn_ok : Bool
  m_last_error : Nat
  m_error_repeat : Nat
  m_retry : Bool
  trace : List DbiEvent
deriving DecidableEq, Repr

/-- Modelled from the spec: `init_error` is defined in a header that is not
part of the sources at hand; it clears the last error, resets the failure
counter and clears the retry flag. -/
def init_error (c : GncDbiSqlConnection) : GncDbiSqlConnection :=
  { c with m_last_error := 0, m_error_repeat := 0, m_retry := false }

/-- Append a call to the trace of the connection. -/
def GncDbiSqlConnection.emit (c : GncDbiSqlConnection) (e : DbiEvent) :
    GncDbiSqlConnection :=
  { c with trace := c.trace ++ [e] }

/-- The error handler's writes to the connection. -/
def apply_handler (c : GncDbiSqlConnection) (h : Option ErrorState) :
    GncDbiSqlConnection :=
  match h with
  | none => c
  | some e =>
    { c with m_conn_ok := e.m_conn_ok, m_last_error := e.m_last_error,
             m_error_repeat := e.m_error_repeat, m_retry := e.m_retry }

/-- The argument of `usleep` (or `Sleep` on Windows) in `retry_connection`:
`backoff * 2 << n` in 32-bit unsigned arithmetic, `n` being the failure
counter after its increment.  The loop below uses it for `n < 32` only. -/
def backoff_delay (d : Driver) (n : Nat) : Nat :=
  let backoff : Nat := if d.G_OS_WIN32 then 1 else 1000
  ((backoff * 2 % 2 ^ 32) <<< n) % 2 ^ 32

/-- The `while` loop of `retry_connection` and the code after it.  The
connect call runs the driver, which may call the error handler before it
returns.  One unit of fuel is spent per test of the loop condition; the
result is `none` when the fuel runs out, and when the shift count reaches the
width of the shifted value (32), where the source has no defined value. -/
def retry_connection_loop (d : Driver) :
    Nat → GncDbiSqlConnection → Option (GncDbiSqlConnection × Bool)
  | 0, _ => none
  | fuel + 1, c =>
    if c.m_retry && c.m_error_repeat ≤ DBI_MAX_CONN_ATTEMPTS then
      let c1 : GncDbiSqlConnection := { c with m_conn_ok := false }
      let h := d.connect_handler c1.trace
      let rc := d.dbi_conn_connect c1.trace
      let c2 := apply_handler (c1.emit DbiEvent.dbi_conn_connect) h
      if rc = 0 then
        some ({ init_error c2 with m_conn_ok := true }, true)
      else
        let n := (c2.m_error_repeat + 1) % 2 ^ 32
        if 32 ≤ n then none
        else
          let c3 : GncDbiSqlConnection :=
            { c2 with m_error_repeat := n,
                      trace := c2.trace ++ [DbiEvent.sleep (backoff_delay d n)] }
          retry_connection_loop d fuel c3
    else some ({ c with m_conn_ok := false }, false)

/-- Source function `GncDbiSqlConnection::retry_connection`. -/
def retry_connection (d : Driver) (fuel : Nat) (c : GncDbiSqlConnection) :
    Option (GncDbiSqlConnection × Bool) :=
  retry_connection_loop d fuel c

/-- The number of connect attempts in a trace. -/
def connect_attempts (trace : List DbiEvent) : Nat :=
  trace.count DbiEvent.dbi_conn_connect

/-! ## Queries, statements and DDL of the libdbi connection -/

/-- A non-null `dbi_result`: the value `dbi_result_get_numrows_affected`
gives for it (an `unsigned long long`) and the status `dbi_result_free`
returns for it. -/
structure DbiResult where
  numrows_affected : Nat
  free_status : Int
deriving DecidableEq, Repr

/-- What one driver call gives: the result (none for a null `dbi_result`),
and what the error handler left in the connection if the driver called it. -/
structure QueryOutcome where
  result : Option DbiResult
  handler : Option ErrorState
deriving DecidableEq, Repr

/-- The column descriptions handed to the DDL generators (`ColVec`). -/
abbrev ColVec := GncSql.EntryVec

/-- The libdbi driver and the SQL provider behind a connection.  The code of
both is outside the sources at hand, so each is an oracle: the connect call
of `Driver`, the outcome of a query given the calls made so far, the status
`dbi_result_free` returns for a null result, the answer of
`dbi_conn_quote_string_copy` (size and quoted text), and the two DDL
generators `create_table_ddl` and `add_columns_ddl`. -/
structure Libdbi extends Driver where
  dbi_conn_query : List DbiEvent → String → QueryOutcome
  dbi_result_free_null : Int
  dbi_conn_quote_string_copy : String → Nat × String
  create_table_ddl : String → ColVec → String
  add_columns_ddl : String → ColVec → String

/-- A `GncDbiSqlStatement`: its SQL text. -/
structure GncDbiSqlStatement where
  m_sql : String
deriving DecidableEq, Repr

/-- A list of (column, value) pairs (`PairVec`). -/
abbrev PairVec := List (String × String)

/-- An element of an `EntryVec`: a shared pointer to a column-table entry.
Two elements compare equal exactly when they hold the same pointer. -/
structure EntryPtr where
  ptr : Nat
  entry : GncSql.ColumnEntry
deriving DecidableEq, Repr

/-- The operations of `table_manage_backup` (`TableOpType`); `other` stands
for any value that reaches the `default` branch. -/
inductive TableOpType where
  | backup
  | rollback
  | drop_backup
  | other
deriving DecidableEq, Repr

/-- The report `qof_backend_set_error (m_qbe, ERR_BACKEND_SERVER_ERR)`. -/
def qof_backend_set_error (c : GncDbiSqlConnection) : GncDbiSqlConnection :=
  c.emit DbiEvent.qof_backend_set_error

/-- The call `dbi_conn_query (m_conn, sql)` (also `dbi_conn_queryf` with the
formatted text): the driver runs the query, calling the error handler if it
fails. -/
def dbi_conn_query (q : Libdbi) (c : GncDbiSqlConnection) (sql : String) :
    GncDbiSqlConnection × Option DbiResult :=
  let out := q.dbi_conn_query c.trace sql
  (apply_handler (c.emit (DbiEvent.dbi_conn_query sql)) out.handler, out.result)

/-- The lines `status = dbi_result_free (result); if (status < 0) ...` that
follow a query: a negative status is reported to the backend. -/
def dbi_result_free (q : Libdbi) (c : GncDbiSqlConnection)
    (result : Option DbiResult) : GncDbiSqlConnection :=
  let status :=
    match result with
    | some r => r.free_status
    | none => q.dbi_result_free_null
  if status < 0 then qof_backend_set_error c else c

/-- The conversion `(gint)` of an `unsigned long long` to a 32-bit signed
integer. -/
def to_gint (n : Nat) : Int :=
  if n % 2 ^ 32 < 2 ^ 31 then (n % 2 ^ 32 : Nat) else (n % 2 ^ 32 : Nat) - 2 ^ 32

/-- Source function `GncDbiSqlStatement::to_sql`. -/
def GncDbiSqlStatement.to_sql (stmt : GncDbiSqlStatement) : String :=
  stmt.m_sql

/-- Source function `GncDbiSqlConnection::quote_string`. -/
def quote_string (q : Libdbi) (unquoted_str : String) : String :=
  let (size, quoted_str) := q.dbi_conn_quote_string_copy unquoted_str
  if size ≠ 0 then quoted_str else ""

/-- The body of the loop of `add_where_cond`; `first` is
`*col_values.begin ()`, compared with the pair by value. -/
def add_where_cond_body (q : Libdbi) (first : Option (String × String))
    (m_sql : String) (colpair : String × String) : String :=
  let m_sql1 := if some colpair ≠ first then m_sql ++ " AND " else m_sql
  m_sql1 ++ (colpair.1 ++ " = " ++ quote_string q colpair.2)

/-- Source function `GncDbiSqlStatement::add_where_cond`. -/
def GncDbiSqlStatement.add_where_cond (q : Libdbi) (stmt : GncDbiSqlStatement)
    (col_values : PairVec) : GncDbiSqlStatement :=
  ⟨col_values.foldl (add_where_cond_body q col_values.head?) (stmt.m_sql ++ " WHERE ")⟩

/-- The body of the loop of `create_index_ddl`; `first` is
`*col_table.begin ()`, compared with the row as a pointer.  The statement
`ddl =+ ", "` assigns `", "` to `ddl`. -/
def create_index_ddl_body (first : Option Nat) (ddl : String) (table_row : EntryPtr) :
    String :=
  let ddl1 := if some table_row.ptr ≠ first then ", " else ddl
  ddl1 ++ table_row.entry.name

/-- Source function `create_index_ddl`. -/
def create_index_ddl (index_name table_name : String) (col_table : List EntryPtr) :
    String :=
  let ddl := "" ++ ("CREATE INDEX " ++ index_name ++ " ON " ++ table_name ++ "(")
  let ddl1 := col_table.foldl
    (create_index_ddl_body (col_table.head?.map (fun row => row.ptr))) ddl
  ddl1 ++ ")"

/-- The loop `do { init_error (); result = dbi_conn_query (...); } while
(m_retry);`.  One unit of fuel is spent per attempt; `none` means the fuel
ran out while the retry flag was still set. -/
def query_retry_loop (q : Libdbi) (sql : String) :
    Nat → GncDbiSqlConnection → Option (GncDbiSqlConnection × Option DbiResult)
  | 0, _ => none
  | fuel + 1, c =>
    let (c1, result) := dbi_conn_query q (init_error c) sql
    if c1.m_retry then query_retry_loop q sql fuel c1 else some (c1, result)

/-- Source function `GncDbiSqlConnection::execute_select_statement`; the
returned `GncDbiSqlResult` is given by the `dbi_result` it wraps. -/
def execute_select_statement (q : Libdbi) (fuel : Nat) (c : GncDbiSqlConnection)
    (stmt : GncDbiSqlStatement) : Option (GncDbiSqlConnection × Option DbiResult) :=
  let c0 := c.emit DbiEvent.gnc_push_locale
  match query_retry_loop q stmt.to_sql fuel c0 with
  | none => none
  | some (c1, result) => some (c1.emit DbiEvent.gnc_pop_locale, result)

/-- Source function `GncDbiSqlConnection::execute_nonselect_statement`. -/
def execute_nonselect_statement (q : Libdbi) (fuel : Nat) (c : GncDbiSqlConnection)
    (stmt : GncDbiSqlStatement) : Option (GncDbiSqlConnection × Int) :=
  match query_retry_loop q stmt.to_sql fuel c with
  | none => none
  | some (c1, result) =>
    if result = none ∧ c1.m_last_error ≠ 0 then some (c1, -1)
    else
      match result with
      | none => some (c1, 0)
      | some r =>
        let num_rows := to_gint r.numrows_affected
        some (dbi_result_free q c1 (some r), num_rows)

/-- Source function `GncDbiSqlConnection::verify`. -/
def verify (q : Libdbi) (c : GncDbiSqlConnection) : GncDbiSqlConnection × Bool :=
  if c.m_conn_ok then (c, true)
  else
    let c1 : GncDbiSqlConnection := { init_error c with m_conn_ok := true }
    let h := q.connect_handler c1.trace
    let c2 := apply_handler (c1.emit DbiEvent.dbi_conn_connect) h
    (c2, c2.m_conn_ok)

/-- Source function `GncDbiSqlConnection::begin_transaction`. -/
def begin_transaction (q : Libdbi) (fuel : Nat) (c : GncDbiSqlConnection) :
    Option (GncDbiSqlConnection × Bool) :=
  let (c0, ok) := verify q c
  if !ok then some (qof_backend_set_error c0, false)
  else
    match query_retry_loop q "BEGIN" fuel c0 with
    | none => none
    | some (c1, result) =>
      let success := result.isSome
      let c2 := dbi_result_free q c1 result
      let c3 := if !success then qof_backend_set_error c2 else c2
      some (c3, success)

/-- The common shape of `rollback_transaction` and `commit_transaction`: one
query, then the result is freed and a failure reported. -/
def transaction_command (q : Libdbi) (c : GncDbiSqlConnection) (command : String) :
    GncDbiSqlConnection × Bool :=
  let (c1, result) := dbi_conn_query q c command
  let success := result.isSome
  let c2 := dbi_result_free q c1 result
  let c3 := if !success then qof_backend_set_error c2 else c2
  (c3, success)

/-- Source function `GncDbiSqlConnection::rollback_transaction`. -/
def rollback_transaction (q : Libdbi) (c : GncDbiSqlConnection) :
    GncDbiSqlConnection × Bool :=
  transaction_command q c "ROLLBACK"

/-- Source function `GncDbiSqlConnection::commit_transaction`. -/
def commit_transaction (q : Libdbi) (c : GncDbiSqlConnection) :
    GncDbiSqlConnection × Bool :=
  transaction_command q c "COMMIT"

/-- The common tail of `create_table`, `create_index` and
`add_columns_to_table`: empty DDL returns false at once; otherwise the DDL is
sent, the result freed, and true returned. -/
def send_ddl (q : Libdbi) (c : GncDbiSqlConnection) (ddl : String) :
    GncDbiSqlConnection × Bool :=
  if ddl = "" then (c, false)
  else
    let (c1, result) := dbi_conn_query q c ddl
    (dbi_result_free q c1 result, true)

/-- Source function `GncDbiSqlConnection::create_table`. -/
def create_table (q : Libdbi) (c : GncDbiSqlConnection) (table_name : String)
    (info_vec : ColVec) : GncDbiSqlConnection × Bool :=
  send_ddl q c (q.create_table_ddl table_name info_vec)

/-- Source function `GncDbiSqlConnection::create_index`. -/
def create_index (q : Libdbi) (c : GncDbiSqlConnection) (index_name table_name : String)
    (col_table : List EntryPtr) : GncDbiSqlConnection × Bool :=
  send_ddl q c (create_index_ddl index_name table_name col_table)

/-- Source function `GncDbiSqlConnection::add_columns_to_table`. -/
def add_columns_to_table (q : Libdbi) (c : GncDbiSqlConnection) (table_name : String)
    (info_vec : ColVec) : GncDbiSqlConnection × Bool :=
  send_ddl q c (q.add_columns_ddl table_name info_vec)

/-- Source function `GncDbiSqlConnection::table_manage_backup`. -/
def table_manage_backup (q : Libdbi) (c : GncDbiSqlConnection) (table_name : String)
    (op : TableOpType) : GncDbiSqlConnection × Option DbiResult :=
  let new_name := table_name ++ "_back"
  match op with
  | TableOpType.backup =>
    dbi_conn_query q c ("ALTER TABLE " ++ table_name ++ " RENAME TO " ++ new_name)
  | TableOpType.rollback =>
    dbi_conn_query q c ("ALTER TABLE " ++ new_name ++ " RENAME TO " ++ table_name)
  | TableOpType.drop_backup =>
    dbi_conn_query q c ("DROP TABLE " ++ new_name)
  | TableOpType.other => (c, none)

/-! ## Reading the trace of the connection -/

/-- The texts of the queries sent to the driver, in order. -/
def queries (trace : List DbiEvent) : List String :=
  trace.filterMap (fun e =>
    match e with
    | DbiEvent.dbi_conn_query sql => some sql
    | _ => none)

/-- One pass through the body of the retry loop. -/
def attempt (q : Libdbi) (sql : String) (c : GncDbiSqlConnection) :
    GncDbiSqlConnection × Option DbiResult :=
  dbi_conn_query q (init_error c) sql

/-- The connection after `n` passes through the body of the retry loop. -/
def after_attempts (q : Libdbi) (sql : String) : Nat → GncDbiSqlConnection →
    GncDbiSqlConnection
  | 0, c => c
  | n + 1, c => after_attempts q sql n (attempt q sql c).1

/-- The reading of "routes its query through the retry loop": between the
two states the same query was sent `n + 1` times in a row, each of the first
`n` attempts ended with the retry flag set, the last one with the flag
clear, and that attempt's result is the one kept. -/
def retried (q : Libdbi) (sql : String) (c c' : GncDbiSqlConnection)
    (result : Option DbiResult) : Prop :=
  ∃ n : Nat,
    queries c'.trace = queries c.trace ++ List.replicate (n + 1) sql ∧
    (∀ k, k < n → (after_attempts q sql (k + 1) c).m_retry = true) ∧
    (after_attempts q sql (n + 1) c).m_retry = false ∧
    c'.m_retry = false ∧
    result = (attempt q sql (after_attempts q sql n c)).2

/-! ## Backoff delays in a trace -/

/-- The delays handed to `usleep` (or `Sleep`), in order. -/
def sleep_delays (trace : List DbiEvent) : List Nat :=
  trace.filterMap (fun e =>
    match e with
    | DbiEvent.sleep delay => some delay
    | _ => none)

end GncDbi

/-! ## Concrete inputs -/

namespace GncSql

/-- A world in which every collaborator succeeds and no backend queues a
commodity. -/
def world_ok : World where
  qof_book_is_readonly := fun _ => false
  gnc_prefs_get_long_version := 2060000
  GNUCASH_RESAVE_VERSION := 19920
  has_percentage := false
  conn_begin_transaction := fun _ => true
  conn_commit_transaction := fun _ => true
  conn_rollback_transaction := fun _ => true
  conn_execute_nonselect_statement := fun _ _ => 1
  conn_does_table_exist := fun _ _ => true
  conn_create_table := fun _ _ _ => true
  obe_commit := fun _ _ _ => true
  obe_load_all := fun _ _ => []

/-- A freshly constructed engine: no book, empty ledger, empty registry. -/
def engine_empty : GncSqlBackend where
  qof_be_errors := []
  m_book := none
  m_loading := false
  m_is_pristine_db := false
  m_versions := []
  m_backend_registry := []
  m_postload_commodities := []
  trace := []

/-- A world like `world_ok` whose book is read-only. -/
def world_readonly : World :=
  { world_ok with qof_book_is_readonly := fun _ => true }

/-- A world like `world_ok` whose object backends fail every commit. -/
def world_commit_fails : World :=
  { world_ok with obe_commit := fun _ _ _ => false }

/-- An engine in the middle of a load. -/
def engine_loading : GncSqlBackend :=
  { engine_empty with m_loading := true }

/-- An engine with an account backend registered. -/
def engine_account : GncSqlBackend :=
  { engine_empty with m_backend_registry := [(GNC_ID_ACCOUNT, ⟨1, true⟩)] }

/-- An engine in which a backend of the non-fixed type `A` was registered
before the account backend. -/
def engine_A_account : GncSqlBackend :=
  { engine_empty with m_backend_registry := [("A", ⟨1, true⟩), (GNC_ID_ACCOUNT, ⟨2, true⟩)] }

/-- A dirty account. -/
def inst_dirty : QofInstance := ⟨7, GNC_ID_ACCOUNT, true, false, false⟩

/-- A clean account that is not being destroyed. -/
def inst_clean : QofInstance := ⟨8, GNC_ID_ACCOUNT, false, false, false⟩

/-- A book with a root account, one child account holding one transaction of
two splits, an empty template tree and one scheduled transaction. -/
def book_small : QofBook where
  id := 1
  inst := ⟨1, GNC_ID_BOOK, true, false, false⟩
  root_account := some ⟨2, GNC_ID_ACCOUNT, true, false, false⟩
  root_descendants := [⟨3, GNC_ID_ACCOUNT, true, false, false⟩]
  root_transactions :=
    [⟨⟨4, GNC_ID_TRANS, true, false, false⟩,
      [⟨5, GNC_ID_SPLIT, true, false, false⟩, ⟨6, GNC_ID_SPLIT, true, false, false⟩]⟩]
  template_root := some ⟨9, GNC_ID_ACCOUNT, true, false, false⟩
  template_descendants := []
  template_transactions := []
  sx_list := [⟨10, GNC_ID_SCHEDXACTION, true, false, false⟩]

/-- An engine with the backends `sync_all` calls through registered. -/
def engine_full : GncSqlBackend :=
  { engine_empty with m_backend_registry :=
      [(GNC_ID_BOOK, ⟨1, true⟩), (GNC_ID_ACCOUNT, ⟨2, true⟩), (GNC_ID_TRANS, ⟨3, true⟩),
       (GNC_ID_SPLIT, ⟨4, true⟩), (GNC_ID_SCHEDXACTION, ⟨5, true⟩)] }

/-- A world like `world_ok` in which the account backend fails every commit. -/
def world_account_fails : World :=
  { world_ok with obe_commit := fun _ entry _ => !(entry.1 == GNC_ID_ACCOUNT) }

/-- A world like `world_ok` in which the commodity backend queues commodity 7
for post-load processing whenever it loads. -/
def world_queue : World :=
  { world_ok with
      obe_load_all := fun _ entry => if entry.1 == GNC_ID_COMMODITY then [7] else [] }

/-- An engine with a commodity backend and a transaction backend. -/
def engine_commodity : GncSqlBackend :=
  { engine_empty with m_backend_registry :=
      [(GNC_ID_COMMODITY, ⟨1, true⟩), (GNC_ID_TRANS, ⟨2, true⟩)] }

/-- An engine whose ledger holds two tables. -/
def engine_ledger : GncSqlBackend :=
  { engine_empty with m_versions := [("accounts", 2), ("splits", 3)] }

/-- An engine whose ledger holds an entry with version 0, as
`init_version_info` leaves it after reading such a row. -/
def engine_zero_version : GncSqlBackend :=
  { engine_empty with m_versions := [("accounts", 0)] }

/-- A database with a table `accts` of three rows and another table. -/
def db_accts : Database :=
  [⟨"accts", [⟨"guid", 32, 3⟩], [["a1"], ["a2"], ["a3"]]⟩,
   ⟨"versions", version_table, [["accts", "1"]]⟩]

/-- A new column set for `accts`. -/
def accts_columns : EntryVec := [⟨"guid", 32, 3⟩, ⟨"name", 2048, 2⟩]

/-- A world like `world_ok` in which every statement fails. -/
def world_sql_fails : World :=
  { world_ok with conn_execute_nonselect_statement := fun _ _ => -1 }

/-- A world like `world_ok` in which COMMIT fails. -/
def world_commit_transaction_fails : World :=
  { world_ok with conn_commit_transaction := fun _ => false }

/-- A book like `book_small` whose template root has a descendant and a
template transaction with one split. -/
def book_templates : QofBook :=
  { book_small with
      template_descendants := [⟨11, GNC_ID_ACCOUNT, true, false, false⟩]
      template_transactions :=
        [⟨⟨12, GNC_ID_TRANS, true, false, false⟩,
          [⟨13, GNC_ID_SPLIT, true, false, false⟩]⟩] }

/-- A world like `world_ok` in which the commit of the instance 6 (the second
split of `book_small`) fails. -/
def world_split_fails : World :=
  { world_ok with obe_commit := fun _ _ inst => inst.id != 6 }

end GncSql

namespace GncDbi

/-- A driver whose every connect attempt fails. -/
def driver_down : Driver := ⟨fun _ => -1, fun _ => none, false⟩

/-- A connection with the retry flag set and the failure counter at 0. -/
def conn_fresh_retry : GncDbiSqlConnection := ⟨true, 0, 0, true, []⟩

/-- A connection with the retry flag set and the failure counter at 1. -/
def conn_counted_retry : GncDbiSqlConnection := ⟨true, 0, 1, true, []⟩

/-- A driver on which every query succeeds with one affected row; quoting
puts the text between single quotes. -/
def libdbi_ok : Libdbi where
  dbi_conn_connect := fun _ => 0
  G_OS_WIN32 := false
  dbi_conn_query := fun _ _ => ⟨some ⟨1, 0⟩, none⟩
  dbi_result_free_null := -1
  dbi_conn_quote_string_copy := fun s => (s.length + 2, "'" ++ s ++ "'")
  connect_handler := fun _ => none
  create_table_ddl := fun table_name _ => "CREATE TABLE " ++ table_name ++ " ()"
  add_columns_ddl := fun _ _ => ""

/-- A driver on which every query fails and the error handler asks for a
retry each time. -/
def libdbi_retry_always : Libdbi :=
  { libdbi_ok with
      dbi_conn_query := fun _ _ => ⟨none, some ⟨false, 1, 1, true⟩⟩ }

/-- A driver on which the first query fails with a retry request and every
later query succeeds. -/
def libdbi_retry_once : Libdbi :=
  { libdbi_ok with
      dbi_conn_query := fun trace _ =>
        if trace = [] then ⟨none, some ⟨true, 1, 1, true⟩⟩ else ⟨some ⟨1, 0⟩, none⟩ }

/-- A driver that reports 4294967295 affected rows for every query. -/
def libdbi_big_count : Libdbi :=
  { libdbi_ok with dbi_conn_query := fun _ _ => ⟨some ⟨4294967295, 0⟩, none⟩ }

/-- A healthy connection that has made no call yet. -/
def conn_ok : GncDbiSqlConnection := ⟨true, 0, 0, false, []⟩

/-- Two distinct column entries. -/
def entry_guid : EntryPtr := ⟨1, ⟨"guid", 32, 3⟩⟩

/-- The second of two distinct column entries. -/
def entry_name : EntryPtr := ⟨2, ⟨"name", 2048, 2⟩⟩

/-- A driver like `driver_down` on Windows. -/
def driver_down_win32 : Driver := ⟨fun _ => -1, fun _ => none, true⟩

/-- A driver whose first two connect attempts fail and whose third
succeeds; the error handler makes no write. -/
def driver_third_attempt : Driver :=
  ⟨fun trace => if trace.count DbiEvent.dbi_conn_connect < 2 then -1 else 0,
   fun _ => none, false⟩

end GncDbi

/-! # Theorems -/

namespace GncSql

/-! ## Version ledger -/

theorem find_version_append_fresh (l : List VersionPair) (t : String) (v : Nat)
    (h : find_version l t = none) :
    find_version (l ++ [(t, v)]) t = some (t, v) := by
  unfold find_version at *
  rw [List.find?_append, h]
  simp

theorem assign_version_append_fresh (l : List VersionPair) (t : String) (u v : Nat)
    (h : find_version l t = none) :
    assign_version (l ++ [(t, u)]) t v = l ++ [(t, v)] := by
  induction l with
  | nil => simp [assign_version]
  | cons p ps ih =>
    unfold find_version at h ih
    rw [List.find?_cons] at h
    by_cases hp : (p.1 == t) = true
    · simp [hp] at h
    · simp only [hp] at h
      simp only [List.cons_append, assign_version, hp]
      simp [ih h]

/-- The first call for a name the ledger does not hold: one INSERT, one new
entry. -/
theorem set_table_version_fresh (w : World) (be : GncSqlBackend) (t : String) (v : Nat)
    (hfresh : find_version be.m_versions t = none)
    (hsql : ∀ tr sql, w.conn_execute_nonselect_statement tr sql ≠ -1)
    (hv : 0 < v) :
    set_table_version w be t v =
      ({ be with m_versions := be.m_versions ++ [(t, v)],
                 trace := be.trace ++ [Event.execute_nonselect_statement (insert_version_sql t v)] },
        true) := by
  have hv' : v ≠ 0 := Nat.pos_iff_ne_zero.mp hv
  simp [set_table_version, hfresh, hv, execute_nonselect_statement, hsql, GncSqlBackend.emit, Ne.symm hv']

/-- A call with a larger version for a stored name: one UPDATE, the entry is
overwritten. -/
theorem set_table_version_stored (w : World) (be : GncSqlBackend) (t : String) (u v : Nat)
    (base : List VersionPair)
    (hbase : find_version base t = none)
    (hver : be.m_versions = base ++ [(t, u)])
    (hsql : ∀ tr sql, w.conn_execute_nonselect_statement tr sql ≠ -1)
    (hu : 0 < u) (huv : u < v) :
    set_table_version w be t v =
      ({ be with m_versions := base ++ [(t, v)],
                 trace := be.trace ++ [Event.execute_nonselect_statement (update_version_sql t v)] },
        true) := by
  have hv : 0 < v := lt_trans hu huv
  have hu' : u ≠ 0 := Nat.pos_iff_ne_zero.mp hu
  have hne : u ≠ v := Nat.ne_of_lt huv
  simp [set_table_version, hver, find_version_append_fresh base t u hbase, hv, hu', hne,
    execute_nonselect_statement, hsql, GncSqlBackend.emit,
    assign_version_append_fresh base t u v hbase]

theorem set_table_versions_snoc (w : World) (be : GncSqlBackend) (t : String)
    (vs : List Nat) (v : Nat) :
    set_table_versions w be t (vs ++ [v]) =
      (set_table_version w (set_table_versions w be t vs) t v).1 := by
  simp [set_table_versions, List.foldl_append]

theorem set_table_versions_take_succ (w : World) (be : GncSqlBackend) (t : String)
    (vs : List Nat) (k : Nat) (hk : k < vs.length) :
    set_table_versions w be t (vs.take (k + 1)) =
      (set_table_version w (set_table_versions w be t (vs.take k)) t vs[k]).1 := by
  have h : vs.take (k + 1) = vs.take k ++ [vs[k]] := by
    rw [List.take_succ, List.getElem?_eq_getElem hk]; rfl
  rw [h]
  exact set_table_versions_snoc w be t (vs.take k) vs[k]

/-- After the first `k + 1` calls of an increasing sequence the ledger is the
initial one followed by the entry of the latest version. -/
theorem set_table_versions_ledger (w : World) (be : GncSqlBackend) (t : String)
    (vs : List Nat)
    (hfresh : find_version be.m_versions t = none)
    (hsql : ∀ tr sql, w.conn_execute_nonselect_statement tr sql ≠ -1)
    (hpos : ∀ v ∈ vs, 0 < v)
    (hinc : vs.Sorted (· < ·)) (k : Nat) (hk : k < vs.length) :
    (set_table_versions w be t (vs.take (k + 1))).m_versions =
        be.m_versions ++ [(t, vs[k])] ∧
      (set_table_versions w be t (vs.take (k + 1))).m_is_pristine_db =
        be.m_is_pristine_db := by
  induction k with
  | zero =>
    rw [set_table_versions_take_succ w be t vs 0 hk]
    simp only [List.take_zero, set_table_versions, List.foldl_nil]
    rw [set_table_version_fresh w be t vs[0] hfresh hsql (hpos _ (List.getElem_mem _))]
    simp
  | succ n ih =>
    have hn : n < vs.length := Nat.lt_of_succ_lt hk
    obtain ⟨h1, h2⟩ := ih hn
    rw [set_table_versions_take_succ w be t vs (n + 1) hk]
    have hlt : vs[n] < vs[n + 1] :=
      List.pairwise_iff_getElem.mp hinc n (n + 1) hn hk (Nat.lt_succ_self n)
    rw [set_table_version_stored w _ t vs[n] vs[n + 1] be.m_versions hfresh h1 hsql
      (hpos _ (List.getElem_mem _)) hlt]
    simp [h2]

/-- The texts of the two statements, as `set_table_version` streams them. -/
theorem insert_version_sql_text (t : String) (v : Nat) :
    insert_version_sql t v =
      "INSERT INTO versions VALUES('" ++ t ++ "'," ++ toString v ++ ")" := by
  rfl

theorem update_version_sql_text (t : String) (v : Nat) :
    update_version_sql t v =
      "UPDATE versions SET table_version=" ++ toString v ++ " WHERE table_name='" ++ t ++
        "'" := by
  have h : ∀ x : String, x ++ " WHERE " ++ "table_name" ++ "='" = x ++ " WHERE table_name='" := by
    intro x
    rw [String.append_assoc, String.append_assoc]
    rfl
  unfold update_version_sql VERSION_COL_NAME TABLE_COL_NAME
  rw [h]
  rfl

/-- The `k`-th call of an increasing sequence (counted from 0): it returns
true, the lookup then gives the version just set, and one statement is added
to the trace. -/
theorem set_table_version_sequence_step (w : World) (be : GncSqlBackend) (t : String)
    (vs : List Nat)
    (hfresh : find_version be.m_versions t = none)
    (hpristine : be.m_is_pristine_db = false)
    (hsql : ∀ tr sql, w.conn_execute_nonselect_statement tr sql ≠ -1)
    (hpos : ∀ v ∈ vs, 0 < v)
    (hinc : vs.Sorted (· < ·)) (k : Nat) (hk : k < vs.length) :
    (set_table_version w (set_table_versions w be t (vs.take k)) t vs[k]).2 = true ∧
    get_table_version (set_table_versions w be t (vs.take (k + 1))) t = vs[k] ∧
    (set_table_versions w be t (vs.take (k + 1))).trace =
      (set_table_versions w be t (vs.take k)).trace ++
        [Event.execute_nonselect_statement
          (if k = 0 then insert_version_sql t vs[k] else update_version_sql t vs[k])] := by
  obtain ⟨hl, hp⟩ := set_table_versions_ledger w be t vs hfresh hsql hpos hinc k hk
  refine ⟨?_, ?_, ?_⟩
  · cases k with
    | zero =>
      simp only [List.take_zero, set_table_versions, List.foldl_nil]
      rw [set_table_version_fresh w be t vs[0] hfresh hsql (hpos _ (List.getElem_mem _))]
    | succ n =>
      have hn : n < vs.length := Nat.lt_of_succ_lt hk
      obtain ⟨h1, _⟩ := set_table_versions_ledger w be t vs hfresh hsql hpos hinc n hn
      have hlt : vs[n] < vs[n + 1] :=
        List.pairwise_iff_getElem.mp hinc n (n + 1) hn hk (Nat.lt_succ_self n)
      rw [set_table_version_stored w _ t vs[n] vs[n + 1] be.m_versions hfresh h1 hsql
        (hpos _ (List.getElem_mem _)) hlt]
  · simp [get_table_version, hp, hpristine, hl, find_version_append_fresh _ t _ hfresh]
  · rw [set_table_versions_take_succ w be t vs k hk]
    cases k with
    | zero =>
      simp only [List.take_zero, set_table_versions, List.foldl_nil]
      rw [set_table_version_fresh w be t vs[0] hfresh hsql (hpos _ (List.getElem_mem _))]
      simp
    | succ n =>
      have hn : n < vs.length := Nat.lt_of_succ_lt hk
      obtain ⟨h1, _⟩ := set_table_versions_ledger w be t vs hfresh hsql hpos hinc n hn
      have hlt : vs[n] < vs[n + 1] :=
        List.pairwise_iff_getElem.mp hinc n (n + 1) hn hk (Nat.lt_succ_self n)
      rw [set_table_version_stored w _ t vs[n] vs[n + 1] be.m_versions hfresh h1 hsql
        (hpos _ (List.getElem_mem _)) hlt]
      simp

/-- C1: for a table name without ledger entry, outside the pristine state and
with every statement succeeding, a sequence of `set_table_version` calls with
strictly increasing positive versions behaves as follows at its `k`-th call
(counted from 0): the call returns true, `get_table_version` then returns the
version just set, and the call adds exactly one call to the trace, the
execution of one statement: `INSERT INTO versions VALUES('t',v)` for `k = 0`
and `UPDATE versions SET table_version=v WHERE table_name='t'` otherwise. -/
theorem set_table_version_increasing_sequence (w : World) (be : GncSqlBackend) (t : String)
    (vs : List Nat)
    (hfresh : find_version be.m_versions t = none)
    (hpristine : be.m_is_pristine_db = false)
    (hsql : ∀ tr sql, w.conn_execute_nonselect_statement tr sql ≠ -1)
    (hpos : ∀ v ∈ vs, 0 < v)
    (hinc : vs.Sorted (· < ·)) (k : Nat) (hk : k < vs.length) :
    (set_table_version w (set_table_versions w be t (vs.take k)) t vs[k]).2 = true ∧
    get_table_version (set_table_versions w be t (vs.take (k + 1))) t = vs[k] ∧
    (set_table_versions w be t (vs.take (k + 1))).trace =
      (set_table_versions w be t (vs.take k)).trace ++
        [Event.execute_nonselect_statement
          (if k = 0 then
            "INSERT INTO versions VALUES('" ++ t ++ "'," ++ toString vs[k] ++ ")"
           else
            "UPDATE versions SET table_version=" ++ toString vs[k] ++
              " WHERE table_name='" ++ t ++ "'")] := by
  have h := set_table_version_sequence_step w be t vs hfresh hpristine hsql hpos hinc k hk
  rw [insert_version_sql_text, update_version_sql_text] at h
  exact h

theorem set_table_version_increasing_sequence_witness :
    (set_table_version world_ok
        (set_table_versions world_ok engine_empty "accounts" (([1, 3, 4] : List Nat).take 2))
        "accounts" 4).2 = true ∧
    get_table_version
        (set_table_versions world_ok engine_empty "accounts" (([1, 3, 4] : List Nat).take (2 + 1)))
        "accounts" = 4 ∧
    (set_table_versions world_ok engine_empty "accounts" (([1, 3, 4] : List Nat).take (2 + 1))).trace =
      (set_table_versions world_ok engine_empty "accounts" (([1, 3, 4] : List Nat).take 2)).trace ++
        [Event.execute_nonselect_statement
          (if 2 = 0 then
            "INSERT INTO versions VALUES('" ++ "accounts" ++ "'," ++ toString 4 ++ ")"
           else
            "UPDATE versions SET table_version=" ++ toString 4 ++
              " WHERE table_name='" ++ "accounts" ++ "'")] :=
  set_table_version_increasing_sequence world_ok engine_empty "accounts" [1, 3, 4]
    rfl rfl (fun _ _ => by simp [world_ok]) (by decide) (by decide) 2 (by decide)

/-- The statements of the three calls with versions 1, 3, 4 for `accounts`. -/
theorem set_table_version_sequence_scenario :
    sql_statements (set_table_versions world_ok engine_empty "accounts" [1, 3, 4]).trace =
      ["INSERT INTO versions VALUES('accounts',1)",
       "UPDATE versions SET table_version=3 WHERE table_name='accounts'",
       "UPDATE versions SET table_version=4 WHERE table_name='accounts'"] ∧
    get_table_version (set_table_versions world_ok engine_empty "accounts" [1, 3, 4])
      "accounts" = 4 := by
  decide

/-! ## Single-instance commit -/

/-- C2: for a dirty or being-destroyed instance whose type tag has no
registered backend and is not "PriceDB", with the engine not loading, the book
writable and BEGIN succeeding, `commit_edit` calls, in this order and nothing
else, BEGIN, ROLLBACK, mark-session-saved and mark-clean: no backend commit
and no COMMIT; the engine is otherwise unchanged (so is the version ledger)
and the instance comes out clean. -/
theorem commit_edit_unregistered_type (w : World) (be : GncSqlBackend) (inst : QofInstance)
    (hdirty : inst.dirty = true ∨ inst.destroying = true)
    (hreg : get_object_backend be.m_backend_registry inst.e_type = none)
    (hprice : inst.e_type ≠ "PriceDB")
    (hload : be.m_loading = false)
    (hro : w.qof_book_is_readonly be.m_book = false)
    (hbegin : w.conn_begin_transaction be.trace = true) :
    commit_edit w be inst =
      ({ be with trace := be.trace ++
          [Event.begin_transaction, Event.rollback_transaction,
           Event.qof_book_mark_session_saved (be.m_book.map (fun b => b.id)),
           Event.qof_instance_mark_clean inst.id] },
       { inst with dirty := false }) ∧
    (commit_edit w be inst).1.m_versions = be.m_versions ∧
    (commit_edit w be inst).2.dirty = false := by
  have hd : (!inst.dirty && !inst.destroying) = false := by
    rcases hdirty with h | h <;> simp [h]
  have heq : commit_edit w be inst =
      ({ be with trace := be.trace ++
          [Event.begin_transaction, Event.rollback_transaction,
           Event.qof_book_mark_session_saved (be.m_book.map (fun b => b.id)),
           Event.qof_instance_mark_clean inst.id] },
       { inst with dirty := false }) := by
    simp [commit_edit, hro, hload, hprice, hd, conn_begin_transaction, hbegin, hreg,
      conn_rollback_transaction, qof_book_mark_session_saved, qof_instance_mark_clean,
      GncSqlBackend.emit]
  refine ⟨heq, ?_, ?_⟩ <;> simp [heq]

theorem commit_edit_unregistered_type_witness :
    commit_edit world_ok engine_empty inst_dirty =
      ({ engine_empty with trace := engine_empty.trace ++
          [Event.begin_transaction, Event.rollback_transaction,
           Event.qof_book_mark_session_saved (engine_empty.m_book.map (fun b => b.id)),
           Event.qof_instance_mark_clean inst_dirty.id] },
       { inst_dirty with dirty := false }) ∧
    (commit_edit world_ok engine_empty inst_dirty).1.m_versions = engine_empty.m_versions ∧
    (commit_edit world_ok engine_empty inst_dirty).2.dirty = false :=
  commit_edit_unregistered_type world_ok engine_empty inst_dirty
    (Or.inl rfl) rfl (by decide) rfl rfl rfl

/-- C3: when the registered backend's commit returns false (engine not
loading, book writable, BEGIN succeeded), `commit_edit` calls BEGIN, the
backend commit and ROLLBACK and nothing else: no COMMIT, no mark-clean, no
mark-session-saved; the instance is returned as it was, dirty flag included. -/
theorem commit_edit_backend_failure (w : World) (be : GncSqlBackend) (inst : QofInstance) (obe : OBEEntry)
    (hdirty : inst.dirty = true ∨ inst.destroying = true)
    (hreg : get_object_backend be.m_backend_registry inst.e_type = some obe)
    (hprice : inst.e_type ≠ "PriceDB")
    (hload : be.m_loading = false)
    (hro : w.qof_book_is_readonly be.m_book = false)
    (hbegin : w.conn_begin_transaction be.trace = true)
    (hfail : w.obe_commit (be.trace ++ [Event.begin_transaction]) obe inst = false) :
    commit_edit w be inst =
      ({ be with trace := be.trace ++
          [Event.begin_transaction, Event.obe_commit obe.1 obe.2.id inst,
           Event.rollback_transaction] },
       inst) := by
  have hd : (!inst.dirty && !inst.destroying) = false := by
    rcases hdirty with h | h <;> simp [h]
  simp [commit_edit, hro, hload, hprice, hd, conn_begin_transaction, hbegin, hreg,
      conn_rollback_transaction, obe_commit, hfail, GncSqlBackend.emit]

theorem commit_edit_backend_failure_witness :
    commit_edit world_commit_fails engine_account inst_dirty =
      ({ engine_account with trace := engine_account.trace ++
          [Event.begin_transaction, Event.obe_commit GNC_ID_ACCOUNT 1 inst_dirty,
           Event.rollback_transaction] },
       inst_dirty) :=
  commit_edit_backend_failure world_commit_fails engine_account inst_dirty
    (GNC_ID_ACCOUNT, ⟨1, true⟩) (Or.inl rfl) (by decide) (by decide) rfl rfl rfl rfl

/-- C4, as refuted: with the loading flag set and the book read-only,
`commit_edit` on a dirty instance reports the read-only error and sends
ROLLBACK, and the instance is not marked clean. -/
theorem commit_edit_loading_readonly_counterexample :
    engine_loading.m_loading = true ∧
    (commit_edit world_readonly engine_loading inst_dirty).1.trace =
      [Event.qof_backend_set_error QofBackendError.ERR_BACKEND_READONLY,
       Event.rollback_transaction] ∧
    (commit_edit world_readonly engine_loading inst_dirty).1.qof_be_errors =
      [QofBackendError.ERR_BACKEND_READONLY] ∧
    (commit_edit world_readonly engine_loading inst_dirty).2.dirty = true := by
  decide

/-- C4, amended: when the loading flag is set and the book is not read-only,
`commit_edit` on any instance marks the instance clean and does nothing else:
the only call is mark-clean, so no statement reaches the connection, no
backend commit is invoked and no error is set. -/
theorem commit_edit_while_loading (w : World) (be : GncSqlBackend) (inst : QofInstance)
    (hload : be.m_loading = true)
    (hro : w.qof_book_is_readonly be.m_book = false) :
    commit_edit w be inst =
      ({ be with trace := be.trace ++ [Event.qof_instance_mark_clean inst.id] },
       { inst with dirty := false }) := by
  simp [commit_edit, hro, hload, qof_instance_mark_clean, GncSqlBackend.emit]

theorem commit_edit_while_loading_witness :
    commit_edit world_ok engine_loading inst_dirty =
      ({ engine_loading with
          trace := engine_loading.trace ++ [Event.qof_instance_mark_clean inst_dirty.id] },
       { inst_dirty with dirty := false }) :=
  commit_edit_while_loading world_ok engine_loading inst_dirty rfl rfl

/-- C6: when the book is read-only, `commit_edit` on any instance hands the
read-only error kind to the error slot, sends ROLLBACK and does nothing else:
no BEGIN, no COMMIT, no backend commit, no mark-clean, no mark-session-saved;
the instance is returned unchanged. -/
theorem commit_edit_readonly (w : World) (be : GncSqlBackend) (inst : QofInstance)
    (hro : w.qof_book_is_readonly be.m_book = true) :
    commit_edit w be inst =
      ({ be with
          qof_be_errors := be.qof_be_errors ++ [QofBackendError.ERR_BACKEND_READONLY],
          trace := be.trace ++
            [Event.qof_backend_set_error QofBackendError.ERR_BACKEND_READONLY,
             Event.rollback_transaction] },
       inst) := by
  simp [commit_edit, hro, qof_backend_set_error, conn_rollback_transaction, GncSqlBackend.emit]

theorem commit_edit_readonly_witness :
    commit_edit world_readonly engine_account inst_dirty =
      ({ engine_account with
          qof_be_errors := engine_account.qof_be_errors ++
            [QofBackendError.ERR_BACKEND_READONLY],
          trace := engine_account.trace ++
            [Event.qof_backend_set_error QofBackendError.ERR_BACKEND_READONLY,
             Event.rollback_transaction] },
       inst_dirty) :=
  commit_edit_readonly world_readonly engine_account inst_dirty rfl

/-- C5: for an instance that is neither dirty nor being destroyed, the calls
`commit_edit` adds to the trace contain no BEGIN and no backend commit (nor a
COMMIT); unless the book is read-only they contain no ROLLBACK either. -/
theorem commit_edit_clean_instance (w : World) (be : GncSqlBackend) (inst : QofInstance)
    (hdirty : inst.dirty = false) (hdestroying : inst.destroying = false) :
    ∃ added : List Event,
      (commit_edit w be inst).1.trace = be.trace ++ added ∧
      Event.begin_transaction ∉ added ∧
      (∀ type obe i, Event.obe_commit type obe i ∉ added) ∧
      Event.commit_transaction ∉ added ∧
      (w.qof_book_is_readonly be.m_book = false → Event.rollback_transaction ∉ added) := by
  by_cases hro : w.qof_book_is_readonly be.m_book = true
  · refine ⟨[Event.qof_backend_set_error QofBackendError.ERR_BACKEND_READONLY,
             Event.rollback_transaction], ?_, ?_, ?_, ?_, ?_⟩ <;>
      simp [commit_edit, hro, qof_backend_set_error, conn_rollback_transaction,
        GncSqlBackend.emit]
  · have hro' : w.qof_book_is_readonly be.m_book = false := by simpa using hro
    by_cases hload : be.m_loading = true
    · refine ⟨[Event.qof_instance_mark_clean inst.id], ?_, ?_, ?_, ?_, ?_⟩ <;>
        simp [commit_edit, hro', hload, qof_instance_mark_clean, GncSqlBackend.emit]
    · have hload' : be.m_loading = false := by simpa using hload
      by_cases hprice : inst.e_type = "PriceDB"
      · refine ⟨[Event.qof_instance_mark_clean inst.id,
                 Event.qof_book_mark_session_saved (be.m_book.map (fun b => b.id))],
                 ?_, ?_, ?_, ?_, ?_⟩ <;>
          simp [commit_edit, hro', hload', hprice, qof_instance_mark_clean,
            qof_book_mark_session_saved, GncSqlBackend.emit]
      · refine ⟨[], ?_, ?_, ?_, ?_, ?_⟩ <;>
          simp [commit_edit, hro', hload', hprice, hdirty, hdestroying]

theorem commit_edit_clean_instance_witness :
    ∃ added : List Event,
      (commit_edit world_ok engine_account inst_clean).1.trace =
        engine_account.trace ++ added ∧
      Event.begin_transaction ∉ added ∧
      (∀ type obe i, Event.obe_commit type obe i ∉ added) ∧
      Event.commit_transaction ∉ added ∧
      (world_ok.qof_book_is_readonly engine_account.m_book = false →
        Event.rollback_transaction ∉ added) :=
  commit_edit_clean_instance world_ok engine_account inst_clean rfl rfl

/-! ## Load order -/

theorem postload_foldl (l : List Nat) (s : GncSqlBackend) :
    l.foldl commodity_for_postload_processing s =
      { s with m_postload_commodities := s.m_postload_commodities ++ l } := by
  induction l generalizing s with
  | nil => simp
  | cons c cs ih => simp [List.foldl_cons, ih, commodity_for_postload_processing]

theorem obe_load_all_eq (w : World) (s : GncSqlBackend) (entry : OBEEntry) :
    obe_load_all w s entry =
      { s with
          trace := s.trace ++ [Event.obe_load_all entry.1 entry.2.id],
          m_postload_commodities := s.m_postload_commodities ++ w.obe_load_all s.trace entry } := by
  simp [obe_load_all, postload_foldl, GncSqlBackend.emit]

theorem load_all_calls_append (a b : List Event) :
    load_all_calls (a ++ b) = load_all_calls a ++ load_all_calls b := by
  simp [load_all_calls, List.filterMap_append]

theorem update_progress_registry (w : World) (s : GncSqlBackend) :
    (update_progress w s).m_backend_registry = s.m_backend_registry := by
  unfold update_progress; split <;> simp [GncSqlBackend.emit]

theorem update_progress_calls (w : World) (s : GncSqlBackend) :
    load_all_calls (update_progress w s).trace = load_all_calls s.trace := by
  unfold update_progress; split <;> simp [GncSqlBackend.emit, load_all_calls_append, load_all_calls]

theorem load_fixed_registry (w : World) (s : GncSqlBackend) (type : String) :
    (load_fixed w s type).m_backend_registry = s.m_backend_registry := by
  unfold load_fixed
  cases h : get_object_backend s.m_backend_registry type with
  | none => simp
  | some e => simp [obe_load_all_eq, update_progress_registry]

theorem load_fixed_calls (w : World) (s : GncSqlBackend) (type : String) :
    load_all_calls (load_fixed w s type).trace =
      load_all_calls s.trace ++
        ((get_object_backend s.m_backend_registry type).map OBEEntry_call).toList := by
  unfold load_fixed
  cases h : get_object_backend s.m_backend_registry type with
  | none => simp
  | some e =>
    simp [obe_load_all_eq, load_all_calls_append, update_progress_calls, OBEEntry_call]
    simp [load_all_calls]

theorem load_fixed_foldl (w : World) (types : List String) (s : GncSqlBackend) :
    (types.foldl (load_fixed w) s).m_backend_registry = s.m_backend_registry ∧
    load_all_calls (types.foldl (load_fixed w) s).trace =
      load_all_calls s.trace ++
        (types.filterMap (get_object_backend s.m_backend_registry)).map OBEEntry_call := by
  induction types generalizing s with
  | nil => simp
  | cons t ts ih =>
    obtain ⟨h1, h2⟩ := ih (load_fixed w s t)
    rw [List.foldl_cons]
    refine ⟨by rw [h1, load_fixed_registry], ?_⟩
    rw [h2, load_fixed_calls, load_fixed_registry, List.filterMap_cons]
    cases h : get_object_backend s.m_backend_registry t <;> simp

theorem load_remaining_foldl (w : World) (l : List OBEEntry) (s : GncSqlBackend) :
    (l.foldl (load_remaining_body w) s).m_backend_registry = s.m_backend_registry ∧
    load_all_calls (l.foldl (load_remaining_body w) s).trace =
      load_all_calls s.trace ++
        (l.filter (fun entry => entry.2.is_version && !in_fixed_order entry.1)).map
          OBEEntry_call := by
  induction l generalizing s with
  | nil => simp
  | cons e es ih =>
    obtain ⟨h1, h2⟩ := ih (load_remaining_body w s e)
    rw [List.foldl_cons, h1, h2]
    by_cases hv : e.2.is_version = true
    · by_cases hf : e.1 ∈ fixed_load_order
      · simp [load_remaining_body, hv, hf, in_fixed_order]
      · by_cases hb : e.1 ∈ business_fixed_load_order
        · simp [load_remaining_body, hv, hb, in_fixed_order]
        · simp [load_remaining_body, hv, hf, hb, in_fixed_order, obe_load_all_eq,
            load_all_calls_append, OBEEntry_call]
          simp [load_all_calls]
    · simp only [Bool.not_eq_true] at hv
      simp [load_remaining_body, hv]

theorem load_remaining_eq (w : World) (s : GncSqlBackend) :
    load_remaining w s = s.m_backend_registry.foldl (load_remaining_body w) s := rfl


theorem commit_commodities_foldl (l : List Nat) (s : GncSqlBackend) :
    l.foldl gnc_sql_commit_commodity s =
      { s with trace := s.trace ++
          l.map (fun comm => Event.gnc_sql_commit_commodity comm s.m_loading) } := by
  induction l generalizing s with
  | nil => simp
  | cons c cs ih =>
    rw [List.foldl_cons, ih]
    simp [gnc_sql_commit_commodity, GncSqlBackend.emit]

theorem load_all_calls_commits (l : List Nat) (b : Bool) :
    load_all_calls (l.map (fun comm => Event.gnc_sql_commit_commodity comm b)) = [] := by
  induction l with
  | nil => rfl
  | cons c cs ih => simp [load_all_calls]

theorem finish_progress_calls (w : World) (s : GncSqlBackend) :
    load_all_calls (finish_progress w s).trace = load_all_calls s.trace := by
  unfold finish_progress; split <;> simp [GncSqlBackend.emit, load_all_calls_append, load_all_calls]

theorem load_finish_calls (w : World) (s : GncSqlBackend) (book : QofBook) :
    load_all_calls (load_finish w s book).trace = load_all_calls s.trace := by
  unfold load_finish
  simp only [finish_progress_calls, commit_commodities_foldl, GncSqlBackend.emit,
    load_all_calls_append, load_all_calls_commits]
  simp [load_all_calls]

theorem get_object_backend_tag (reg : List OBEEntry) (type : String) (e : OBEEntry)
    (h : get_object_backend reg type = some e) : e.1 = type := by
  unfold get_object_backend at h
  have := List.find?_some h
  simp only [beq_iff_eq] at this
  exact this.symm

theorem get_object_backend_mem (reg : List OBEEntry) (type : String) (e : OBEEntry)
    (h : get_object_backend reg type = some e) : e ∈ reg := by
  unfold get_object_backend at h
  exact List.mem_of_find?_eq_some h

theorem get_object_backend_of_mem (reg : List OBEEntry) (e : OBEEntry)
    (hnodup : (reg.map Prod.fst).Nodup) (h : e ∈ reg) :
    get_object_backend reg e.1 = some e := by
  induction reg with
  | nil => simp at h
  | cons x xs ih =>
    simp only [List.map_cons, List.nodup_cons] at hnodup
    unfold get_object_backend
    rw [List.find?_cons]
    rcases List.mem_cons.mp h with rfl | hmem
    · simp
    · have hne : e.1 ≠ x.1 := by
        intro heq
        apply hnodup.1
        rw [← heq]
        exact List.mem_map_of_mem Prod.fst hmem
      have : (e.1 == x.1) = false := by simpa using hne
      rw [this]
      exact ih hnodup.2 hmem

theorem fixed_tags (reg : List OBEEntry) (types : List String) :
    ((types.filterMap (get_object_backend reg)).map OBEEntry_call).map Prod.fst =
      types.filter (fun t => (get_object_backend reg t).isSome) := by
  induction types with
  | nil => rfl
  | cons t ts ih =>
    rw [List.filterMap_cons]
    cases h : get_object_backend reg t with
    | none => simp [h, ih]
    | some e =>
      simp only [List.map_cons, ih, List.filter_cons, h, Option.isSome_some, if_true]
      simp [OBEEntry_call, get_object_backend_tag reg t e h]


theorem call_mem_fixed (reg : List OBEEntry) (types : List String) (a : OBEEntry)
    (hnodup : (reg.map Prod.fst).Nodup) (ha : a ∈ reg) (ht : a.1 ∈ types) :
    OBEEntry_call a ∈ (types.filterMap (get_object_backend reg)).map OBEEntry_call := by
  apply List.mem_map_of_mem
  rw [List.mem_filterMap]
  exact ⟨a.1, ht, get_object_backend_of_mem reg a hnodup ha⟩

theorem remaining_tags_nodup (reg : List OBEEntry) (p : OBEEntry → Bool)
    (hnodup : (reg.map Prod.fst).Nodup) :
    (((reg.filter p).map OBEEntry_call).map Prod.fst).Nodup := by
  have h : ((reg.filter p).map OBEEntry_call).map Prod.fst = (reg.filter p).map Prod.fst := by
    simp [OBEEntry_call, Function.comp_def]
  rw [h]
  exact List.Nodup.sublist (List.Sublist.map _ (List.filter_sublist _)) hnodup

theorem fixed_orders_nodup :
    (fixed_load_order ++ business_fixed_load_order).Nodup := by decide

theorem expected_load_order_nodup (be : GncSqlBackend)
    (hnodup : (be.m_backend_registry.map Prod.fst).Nodup) :
    (expected_load_order be).Nodup := by
  apply List.Nodup.of_map Prod.fst
  unfold expected_load_order
  rw [List.map_append, List.map_append, fixed_tags, fixed_tags]
  have hfix := fixed_orders_nodup
  rw [List.nodup_append] at hfix
  obtain ⟨hf, hb, hdis⟩ := hfix
  rw [List.nodup_append]
  refine ⟨?_, remaining_tags_nodup _ _ hnodup, ?_⟩
  · rw [List.nodup_append]
    refine ⟨hf.filter _, hb.filter _, ?_⟩
    intro x hx hy
    exact hdis (List.mem_of_mem_filter hx) (List.mem_of_mem_filter hy)
  · intro x hx hy
    simp only [List.mem_map, List.mem_filter, Bool.and_eq_true, Bool.not_eq_true'] at hy
    obtain ⟨c, ⟨e, ⟨_, _, he⟩, rfl⟩, rfl⟩ := hy
    have hx' : e.1 ∈ fixed_load_order ∨ e.1 ∈ business_fixed_load_order := by
      rcases List.mem_append.mp hx with h | h
      · exact Or.inl (List.mem_of_mem_filter h)
      · exact Or.inr (List.mem_of_mem_filter h)
    simp only [in_fixed_order, Bool.or_eq_false_iff, List.contains_eq_any_beq,
      List.any_eq_false, beq_iff_eq] at he
    rcases hx' with h | h
    · exact he.1 _ h rfl
    · exact he.2 _ h rfl

/-- An initial load on an engine without book and with pairwise distinct
registered type tags returns, and the `load_all` invocations it adds are
those of `expected_load_order`, without repetition, the fixed-order types
before the others. -/
theorem load_initial_order_calls (w : World) (be : GncSqlBackend) (book : QofBook)
    (hbook : be.m_book = none)
    (hnodup : (be.m_backend_registry.map Prod.fst).Nodup) :
    ∃ be' : GncSqlBackend,
      load w be (some book) QofBackendLoadType.LOAD_TYPE_INITIAL_LOAD = some be' ∧
      load_all_calls be'.trace = load_all_calls be.trace ++ expected_load_order be ∧
      (expected_load_order be).Nodup ∧
      (∀ a ∈ be.m_backend_registry, ∀ b ∈ be.m_backend_registry,
        in_fixed_order a.1 = true → in_fixed_order b.1 = false → b.2.is_version = true →
        ∃ pre mid post, expected_load_order be =
          pre ++ OBEEntry_call a :: mid ++ OBEEntry_call b :: post) := by
  refine ⟨load_finish w
      ((load_remaining w
        ((business_fixed_load_order.foldl (load_fixed w)
          (fixed_load_order.foldl (load_fixed w)
            { be with m_loading := true, m_book := some book })).emit
          (Event.foreach_descendant_begin_edit book.id))).emit
        (Event.foreach_descendant_commit_edit book.id)) book,
    ?_, ?_, expected_load_order_nodup be hnodup, ?_⟩
  · simp [load, hbook]
  · rw [load_finish_calls]
    simp only [GncSqlBackend.emit, load_all_calls_append, load_remaining_eq]
    obtain ⟨r1, c1⟩ := load_fixed_foldl w fixed_load_order
      { be with m_loading := true, m_book := some book }
    obtain ⟨r2, c2⟩ := load_fixed_foldl w business_fixed_load_order
      (fixed_load_order.foldl (load_fixed w) { be with m_loading := true, m_book := some book })
    obtain ⟨_, c3⟩ := load_remaining_foldl w be.m_backend_registry
      { (business_fixed_load_order.foldl (load_fixed w)
          (fixed_load_order.foldl (load_fixed w)
            { be with m_loading := true, m_book := some book })) with
        trace := (business_fixed_load_order.foldl (load_fixed w)
          (fixed_load_order.foldl (load_fixed w)
            { be with m_loading := true, m_book := some book })).trace ++
              [Event.foreach_descendant_begin_edit book.id] }
    simp only [r2, r1] at c3 c2 ⊢
    rw [c3]
    simp only [load_all_calls_append, c2, c1]
    simp [load_all_calls, expected_load_order]
  · intro a ha b hb hfa hfb hvb
    have hpre : OBEEntry_call a ∈
        (fixed_load_order.filterMap (get_object_backend be.m_backend_registry)).map OBEEntry_call ++
        (business_fixed_load_order.filterMap (get_object_backend be.m_backend_registry)).map
          OBEEntry_call := by
      simp only [in_fixed_order, Bool.or_eq_true, List.contains_eq_any_beq, List.any_eq_true,
        beq_iff_eq] at hfa
      rcases hfa with ⟨x, hx, rfl⟩ | ⟨x, hx, rfl⟩
      · exact List.mem_append_left _ (call_mem_fixed _ _ a hnodup ha hx)
      · exact List.mem_append_right _ (call_mem_fixed _ _ a hnodup ha hx)
    have hpost : OBEEntry_call b ∈
        (be.m_backend_registry.filter
          (fun entry => entry.2.is_version && !in_fixed_order entry.1)).map OBEEntry_call := by
      apply List.mem_map_of_mem
      simp [List.mem_filter, hb, hvb, hfb]
    obtain ⟨s, t, hst⟩ := List.append_of_mem hpre
    obtain ⟨u, v, huv⟩ := List.append_of_mem hpost
    refine ⟨s, t ++ u, v, ?_⟩
    unfold expected_load_order
    rw [hst, huv]
    simp

/-- The two fixed orders of the source, tag by tag. -/
theorem expected_load_order_tags (be : GncSqlBackend) :
    expected_load_order be =
      (["Book", "Commodity", "Account", "Lot"].filterMap
          (get_object_backend be.m_backend_registry)).map OBEEntry_call ++
      (["gncBillTerm", "gncTaxTable", "gncInvoice"].filterMap
          (get_object_backend be.m_backend_registry)).map OBEEntry_call ++
      (be.m_backend_registry.filter (fun entry =>
          entry.2.is_version &&
          !(["Book", "Commodity", "Account", "Lot",
             "gncBillTerm", "gncTaxTable", "gncInvoice"].contains entry.1))).map
        OBEEntry_call := by
  have h : ∀ t : String, in_fixed_order t =
      ["Book", "Commodity", "Account", "Lot",
       "gncBillTerm", "gncTaxTable", "gncInvoice"].contains t := by
    intro t
    simp only [in_fixed_order, fixed_load_order, business_fixed_load_order, GNC_ID_BOOK,
      GNC_ID_COMMODITY, GNC_ID_ACCOUNT, GNC_ID_LOT, GNC_ID_BILLTERM, GNC_ID_TAXTABLE,
      GNC_ID_INVOICE, List.contains_eq_any_beq, List.any_cons, List.any_nil, Bool.or_false,
      Bool.or_assoc]
  unfold expected_load_order
  simp only [h]
  rfl

theorem in_fixed_order_tags (t : String) :
    in_fixed_order t = true ↔
      t ∈ ["Book", "Commodity", "Account", "Lot",
           "gncBillTerm", "gncTaxTable", "gncInvoice"] := by
  simp [in_fixed_order, fixed_load_order, business_fixed_load_order, GNC_ID_BOOK,
    GNC_ID_COMMODITY, GNC_ID_ACCOUNT, GNC_ID_LOT, GNC_ID_BILLTERM, GNC_ID_TAXTABLE,
    GNC_ID_INVOICE, or_assoc]

/-- C7: an initial load on an engine without book and with pairwise distinct
registered type tags returns, and the `load_all` invocations it adds are, in
this order: the registered backends of the tags `Book`, `Commodity`,
`Account`, `Lot`; the registered backends of the tags `gncBillTerm`,
`gncTaxTable`, `gncInvoice`; then, in registration order, every registration
whose tag is none of these seven and whose version check passes.  No
invocation occurs twice, and a registered backend of one of the seven tags is
invoked before any loaded backend of another tag, whatever the registration
order. -/
theorem load_initial_order (w : World) (be : GncSqlBackend) (book : QofBook)
    (hbook : be.m_book = none)
    (hnodup : (be.m_backend_registry.map Prod.fst).Nodup) :
    ∃ (be' : GncSqlBackend) (calls : List (String × Nat)),
      load w be (some book) QofBackendLoadType.LOAD_TYPE_INITIAL_LOAD = some be' ∧
      load_all_calls be'.trace = load_all_calls be.trace ++ calls ∧
      calls =
        (["Book", "Commodity", "Account", "Lot"].filterMap
            (get_object_backend be.m_backend_registry)).map OBEEntry_call ++
        (["gncBillTerm", "gncTaxTable", "gncInvoice"].filterMap
            (get_object_backend be.m_backend_registry)).map OBEEntry_call ++
        (be.m_backend_registry.filter (fun entry =>
            entry.2.is_version &&
            !(["Book", "Commodity", "Account", "Lot",
               "gncBillTerm", "gncTaxTable", "gncInvoice"].contains entry.1))).map
          OBEEntry_call ∧
      calls.Nodup ∧
      (∀ a ∈ be.m_backend_registry, ∀ b ∈ be.m_backend_registry,
        a.1 ∈ ["Book", "Commodity", "Account", "Lot",
               "gncBillTerm", "gncTaxTable", "gncInvoice"] →
        b.1 ∉ ["Book", "Commodity", "Account", "Lot",
               "gncBillTerm", "gncTaxTable", "gncInvoice"] →
        b.2.is_version = true →
        ∃ pre mid post, calls = pre ++ OBEEntry_call a :: mid ++ OBEEntry_call b :: post) := by
  obtain ⟨be', hload, hcalls, hnd, hord⟩ := load_initial_order_calls w be book hbook hnodup
  refine ⟨be', expected_load_order be, hload, hcalls, expected_load_order_tags be, hnd, ?_⟩
  intro a ha b hb hfa hfb hvb
  refine hord a ha b hb ((in_fixed_order_tags a.1).mpr hfa) ?_ hvb
  cases hin : in_fixed_order b.1 with
  | false => rfl
  | true => exact absurd ((in_fixed_order_tags b.1).mp hin) hfb

theorem load_initial_order_witness :
    ∃ be' : GncSqlBackend,
      load world_ok engine_A_account (some book_small)
        QofBackendLoadType.LOAD_TYPE_INITIAL_LOAD = some be' ∧
      load_all_calls be'.trace = [("Account", 2), ("A", 1)] := by
  obtain ⟨be', calls, hload, hcalls, heq, _, _⟩ :=
    load_initial_order world_ok engine_A_account book_small rfl (by decide)
  refine ⟨be', hload, ?_⟩
  rw [hcalls, heq]
  decide

/-- The scenario of the spec: `A` registered first, the account backend
second; the account backend is loaded first. -/
theorem load_initial_order_scenario :
    (load world_ok engine_A_account (some book_small)
      QofBackendLoadType.LOAD_TYPE_INITIAL_LOAD).map (fun be => load_all_calls be.trace) =
      some [("Account", 2), ("A", 1)] := by
  decide

/-! ## Full save -/

theorem same_engine_refl (s : GncSqlBackend) : same_engine s s :=
  ⟨rfl, rfl, rfl, rfl, rfl, List.prefix_refl _⟩

theorem same_engine_trans {a b c : GncSqlBackend} (h1 : same_engine a b)
    (h2 : same_engine b c) : same_engine a c := by
  obtain ⟨e1, b1, p1, r1, v1, t1⟩ := h1
  obtain ⟨e2, b2, p2, r2, v2, t2⟩ := h2
  exact ⟨e2.trans e1, b2.trans b1, p2.trans p1, r2.trans r1, v2.trans v1, t1.trans t2⟩

theorem quiet_refl (s : GncSqlBackend) : quiet s s := ⟨same_engine_refl s, rfl⟩

theorem quiet_trans {a b c : GncSqlBackend} (h1 : quiet a b) (h2 : quiet b c) :
    quiet a c :=
  ⟨same_engine_trans h1.1 h2.1, h2.2.trans h1.2⟩

theorem same_engine_emit (s : GncSqlBackend) (e : Event) : same_engine s (s.emit e) :=
  ⟨rfl, rfl, rfl, rfl, rfl, List.prefix_append _ _⟩

theorem control_events_append (a b : List Event) :
    control_events (a ++ b) = control_events a ++ control_events b := by
  simp [control_events]

theorem quiet_emit (s : GncSqlBackend) (e : Event) (h : e.is_control = false) :
    quiet s (s.emit e) := by
  refine ⟨same_engine_emit s e, ?_⟩
  simp [GncSqlBackend.emit, control_events_append, control_events, h]

theorem quiet_update_progress (w : World) (s : GncSqlBackend) :
    quiet s (update_progress w s) := by
  unfold update_progress
  split
  · exact quiet_emit s _ rfl
  · exact quiet_refl s

theorem quiet_obe_commit (w : World) (s : GncSqlBackend) (obe : OBEEntry)
    (inst : QofInstance) : quiet s (obe_commit w s obe inst).1 :=
  quiet_emit s _ rfl

theorem quiet_commit_while_ok (w : World) (obe : OBEEntry) (l : List QofInstance)
    (s : GncSqlBackend) : quiet s (commit_while_ok w obe l s).1 := by
  induction l generalizing s with
  | nil => exact quiet_refl s
  | cons i rest ih =>
    simp only [commit_while_ok]
    split
    · exact quiet_trans (quiet_obe_commit w s obe i) (ih _)
    · exact quiet_obe_commit w s obe i

theorem quiet_write_account_tree (w : World) (s : GncSqlBackend)
    (root : Option QofInstance) (desc : List QofInstance) (s' : GncSqlBackend) (ok : Bool)
    (h : write_account_tree w s root desc = some (s', ok)) : quiet s s' := by
  unfold write_account_tree at h
  cases root with
  | none => simp at h; rw [← h.1]; exact quiet_refl s
  | some r =>
    simp only at h
    cases hb : get_object_backend s.m_backend_registry GNC_ID_ACCOUNT with
    | none => simp [hb] at h
    | some obe =>
      simp only [hb, Option.some.injEq, Prod.mk.injEq] at h
      rw [← h.1]
      apply quiet_trans _ (quiet_update_progress w _)
      split
      · exact quiet_trans (quiet_obe_commit w s obe r) (quiet_commit_while_ok w obe desc _)
      · exact quiet_obe_commit w s obe r

theorem quiet_write_accounts (w : World) : Step.quiet (write_accounts w) := by
  intro s s' ok h
  unfold write_accounts at h
  cases hb : s.m_book with
  | none => simp [hb] at h
  | some book =>
    simp only [hb] at h
    cases h1 : write_account_tree w (update_progress w s) book.root_account
        book.root_descendants with
    | none => simp [h1] at h
    | some r =>
      obtain ⟨s1, ok1⟩ := r
      have q1 := quiet_trans (quiet_update_progress w s)
        (quiet_write_account_tree w _ _ _ s1 ok1 h1)
      simp only [h1] at h
      split at h
      · exact quiet_trans q1 (quiet_trans (quiet_update_progress w s1)
          (quiet_write_account_tree w _ _ _ s' ok h))
      · simp only [Option.some.injEq, Prod.mk.injEq] at h
        rw [← h.1]; exact q1


theorem quiet_write_objects_commit (w : World) (s : GncSqlBackend) (d : write_objects_t)
    (inst : QofInstance) (s' : GncSqlBackend) (d' : write_objects_t)
    (h : write_objects_t.commit w s d inst = some (s', d')) :
    quiet s s' ∧ d'.obe = d.obe := by
  unfold write_objects_t.commit at h
  split at h
  · cases ho : d.obe with
    | none => simp [ho] at h
    | some obe =>
      simp only [ho, Option.some.injEq, Prod.mk.injEq] at h
      rw [← h.1, ← h.2]
      exact ⟨quiet_obe_commit w s obe inst, rfl⟩
  · simp only [Option.some.injEq, Prod.mk.injEq] at h
    rw [← h.1, ← h.2]
    exact ⟨quiet_refl s, rfl⟩

theorem quiet_write_splits (w : World) (splitbe : Option OBEEntry) (l : List QofInstance)
    (s : GncSqlBackend) (d : write_objects_t) (s' : GncSqlBackend) (d' : write_objects_t)
    (h : write_splits w splitbe l s d = some (s', d')) :
    quiet s s' ∧ d'.obe = d.obe := by
  induction l generalizing s d with
  | nil =>
    simp only [write_splits, Option.some.injEq, Prod.mk.injEq] at h
    rw [← h.1, ← h.2]; exact ⟨quiet_refl s, rfl⟩
  | cons i rest ih =>
    simp only [write_splits] at h
    split at h
    · cases hs : splitbe with
      | none => simp [hs] at h
      | some obe =>
        simp only [hs] at h
        obtain ⟨q, e⟩ := ih _ _ (hs ▸ h)
        exact ⟨quiet_trans (quiet_obe_commit w s obe i) q, e⟩
    · simp only [Option.some.injEq, Prod.mk.injEq] at h
      rw [← h.1, ← h.2]; exact ⟨quiet_refl s, rfl⟩

theorem quiet_write_tx (w : World) (s : GncSqlBackend) (d : write_objects_t)
    (tx : Transaction) (s' : GncSqlBackend) (d' : write_objects_t) (rc : Int)
    (h : write_tx w s d tx = some (s', d', rc)) :
    quiet s s' ∧ d'.obe = d.obe ∧ (rc ≠ 0 ↔ d'.is_ok = false) := by
  unfold write_tx at h
  cases h1 : write_objects_t.commit w s d tx.inst with
  | none => simp [h1] at h
  | some r1 =>
    obtain ⟨s1, d1⟩ := r1
    simp only [h1] at h
    obtain ⟨q1, e1⟩ := quiet_write_objects_commit w s d tx.inst s1 d1 h1
    cases h2 : write_splits w (get_object_backend s1.m_backend_registry GNC_ID_SPLIT)
        tx.splits s1 d1 with
    | none => simp [h2] at h
    | some r2 =>
      obtain ⟨s2, d2⟩ := r2
      simp only [h2, Option.some.injEq, Prod.mk.injEq] at h
      obtain ⟨q2, e2⟩ := quiet_write_splits w _ tx.splits s1 d1 s2 d2 h2
      obtain ⟨hs, hd, hrc⟩ := h
      subst hs hd
      refine ⟨quiet_trans q1 (quiet_trans q2 (quiet_update_progress w s2)),
        e2.trans e1, ?_⟩
      rw [← hrc]
      cases d2.is_ok <;> simp

theorem quiet_for_each_transaction (w : World) (l : List Transaction)
    (s : GncSqlBackend) (d : write_objects_t) (s' : GncSqlBackend) (d' : write_objects_t)
    (h : xaccAccountTreeForEachTransaction w l s d = some (s', d')) : quiet s s' := by
  induction l generalizing s d with
  | nil =>
    simp only [xaccAccountTreeForEachTransaction, Option.some.injEq, Prod.mk.injEq] at h
    rw [← h.1]; exact quiet_refl s
  | cons tx rest ih =>
    simp only [xaccAccountTreeForEachTransaction] at h
    cases h1 : write_tx w s d tx with
    | none => simp [h1] at h
    | some r1 =>
      obtain ⟨s1, d1, rc⟩ := r1
      simp only [h1] at h
      obtain ⟨q1, _, _⟩ := quiet_write_tx w s d tx s1 d1 rc h1
      split at h
      · simp only [Option.some.injEq, Prod.mk.injEq] at h
        rw [← h.1]; exact q1
      · exact quiet_trans q1 (ih _ _ h)

theorem quiet_write_transactions (w : World) : Step.quiet (write_transactions w) := by
  intro s s' ok h
  unfold write_transactions at h
  cases hb : s.m_book with
  | none => simp [hb] at h
  | some book =>
    simp only [hb] at h
    cases h1 : xaccAccountTreeForEachTransaction w book.root_transactions s
        ⟨true, get_object_backend s.m_backend_registry GNC_ID_TRANS⟩ with
    | none => simp [h1] at h
    | some r1 =>
      obtain ⟨s1, d1⟩ := r1
      simp only [h1, Option.some.injEq, Prod.mk.injEq] at h
      rw [← h.1]
      exact quiet_trans (quiet_for_each_transaction w _ _ _ s1 d1 h1)
        (quiet_update_progress w s1)

theorem quiet_write_template_transactions (w : World) :
    Step.quiet (write_template_transactions w) := by
  intro s s' ok h
  unfold write_template_transactions at h
  cases hb : s.m_book with
  | none => simp [hb] at h
  | some book =>
    simp only [hb] at h
    split at h
    · cases h1 : xaccAccountTreeForEachTransaction w book.template_transactions s
          ⟨true, get_object_backend s.m_backend_registry GNC_ID_TRANS⟩ with
      | none => simp [h1] at h
      | some r1 =>
        obtain ⟨s1, d1⟩ := r1
        simp only [h1, Option.some.injEq, Prod.mk.injEq] at h
        rw [← h.1]
        exact quiet_trans (quiet_for_each_transaction w _ _ _ s1 d1 h1)
          (quiet_update_progress w s1)
    · simp only [Option.some.injEq, Prod.mk.injEq] at h
      rw [← h.1]; exact quiet_refl s

theorem quiet_write_schedXactions (w : World) : Step.quiet (write_schedXactions w) := by
  intro s s' ok h
  unfold write_schedXactions at h
  cases hb : s.m_book with
  | none => simp [hb] at h
  | some book =>
    simp only [hb] at h
    split at h
    · simp only [Option.some.injEq, Prod.mk.injEq] at h
      rw [← h.1]; exact quiet_update_progress w s
    · simp at h
    · simp only [Option.some.injEq, Prod.mk.injEq] at h
      rw [← h.1]
      exact quiet_trans (quiet_commit_while_ok w _ _ s) (quiet_update_progress w _)

theorem quiet_step_commit_book (w : World) (book : QofBook) :
    Step.quiet (step_commit_book w book) := by
  intro s s' ok h
  unfold step_commit_book at h
  cases hb : get_object_backend s.m_backend_registry GNC_ID_BOOK with
  | none => simp [hb] at h
  | some obe =>
    simp only [hb, Option.some.injEq] at h
    have q := quiet_obe_commit w s obe book.inst
    rw [h] at q
    exact q

theorem quiet_write_foldl (l : List OBEEntry) (s : GncSqlBackend) :
    quiet s (l.foldl (fun s entry => s.emit (Event.obe_write entry.1 entry.2.id)) s) := by
  induction l generalizing s with
  | nil => exact quiet_refl s
  | cons e es ih =>
    rw [List.foldl_cons]
    exact quiet_trans (quiet_emit s (Event.obe_write e.1 e.2.id) rfl) (ih _)

theorem quiet_step_write (w : World) : Step.quiet (step_write w) := by
  intro s s' ok h
  simp only [step_write, Option.some.injEq, Prod.mk.injEq] at h
  rw [← h.1]
  exact quiet_write_foldl _ s


/-! ### The steps return when the backends are registered -/

theorem total_write_account_tree (w : World) (s : GncSqlBackend)
    (root : Option QofInstance) (desc : List QofInstance)
    (hreg : (get_object_backend s.m_backend_registry GNC_ID_ACCOUNT).isSome) :
    ∃ r, write_account_tree w s root desc = some r := by
  unfold write_account_tree
  cases root with
  | none => exact ⟨_, rfl⟩
  | some r =>
    obtain ⟨obe, ho⟩ := Option.isSome_iff_exists.mp hreg
    simp only [ho]
    exact ⟨_, rfl⟩

theorem total_write_accounts (w : World) (s : GncSqlBackend) (book : QofBook)
    (hbook : s.m_book = some book)
    (hreg : (get_object_backend s.m_backend_registry GNC_ID_ACCOUNT).isSome) :
    ∃ r, write_accounts w s = some r := by
  unfold write_accounts
  simp only [hbook]
  have q0 := quiet_update_progress w s
  obtain ⟨⟨s1, ok1⟩, h1⟩ := total_write_account_tree w (update_progress w s)
    book.root_account book.root_descendants (by rw [q0.1.2.2.2.1]; exact hreg)
  simp only [h1]
  split
  · have q1 := quiet_write_account_tree w _ _ _ s1 ok1 h1
    have q2 := quiet_update_progress w s1
    exact total_write_account_tree w _ _ _
      (by rw [q2.1.2.2.2.1, q1.1.2.2.2.1, q0.1.2.2.2.1]; exact hreg)
  · exact ⟨_, rfl⟩

theorem total_write_splits (w : World) (obe : OBEEntry) (l : List QofInstance)
    (s : GncSqlBackend) (d : write_objects_t) :
    ∃ r, write_splits w (some obe) l s d = some r := by
  induction l generalizing s d with
  | nil => exact ⟨_, rfl⟩
  | cons i rest ih =>
    simp only [write_splits]
    split
    · exact ih _ _
    · exact ⟨_, rfl⟩

theorem total_write_tx (w : World) (s : GncSqlBackend) (d : write_objects_t)
    (tx : Transaction) (hobe : d.obe.isSome)
    (hreg : (get_object_backend s.m_backend_registry GNC_ID_SPLIT).isSome) :
    ∃ r, write_tx w s d tx = some r := by
  unfold write_tx
  have h1 : ∃ r, write_objects_t.commit w s d tx.inst = some r := by
    unfold write_objects_t.commit
    obtain ⟨obe, ho⟩ := Option.isSome_iff_exists.mp hobe
    split
    · simp only [ho]; exact ⟨_, rfl⟩
    · exact ⟨_, rfl⟩
  obtain ⟨⟨s1, d1⟩, h1⟩ := h1
  obtain ⟨q1, _⟩ := quiet_write_objects_commit w s d tx.inst s1 d1 h1
  simp only [h1]
  obtain ⟨sbe, hs⟩ := Option.isSome_iff_exists.mp hreg
  rw [q1.1.2.2.2.1, hs]
  obtain ⟨⟨s2, d2⟩, h2⟩ := total_write_splits w sbe tx.splits s1 d1
  simp only [h2]
  exact ⟨_, rfl⟩

theorem total_for_each_transaction (w : World) (l : List Transaction)
    (s : GncSqlBackend) (d : write_objects_t) (hobe : d.obe.isSome)
    (hreg : (get_object_backend s.m_backend_registry GNC_ID_SPLIT).isSome) :
    ∃ r, xaccAccountTreeForEachTransaction w l s d = some r := by
  induction l generalizing s d with
  | nil => exact ⟨_, rfl⟩
  | cons tx rest ih =>
    simp only [xaccAccountTreeForEachTransaction]
    obtain ⟨⟨s1, d1, rc⟩, h1⟩ := total_write_tx w s d tx hobe hreg
    obtain ⟨q1, e1, _⟩ := quiet_write_tx w s d tx s1 d1 rc h1
    simp only [h1]
    split
    · exact ⟨_, rfl⟩
    · exact ih s1 d1 (by rw [e1]; exact hobe) (by rw [q1.1.2.2.2.1]; exact hreg)

theorem total_write_transactions (w : World) (s : GncSqlBackend) (book : QofBook)
    (hbook : s.m_book = some book)
    (htrans : (get_object_backend s.m_backend_registry GNC_ID_TRANS).isSome)
    (hsplit : (get_object_backend s.m_backend_registry GNC_ID_SPLIT).isSome) :
    ∃ r, write_transactions w s = some r := by
  unfold write_transactions
  simp only [hbook]
  obtain ⟨⟨s1, d1⟩, h1⟩ := total_for_each_transaction w book.root_transactions s
    ⟨true, get_object_backend s.m_backend_registry GNC_ID_TRANS⟩ htrans hsplit
  simp only [h1]
  exact ⟨_, rfl⟩

theorem total_write_template_transactions (w : World) (s : GncSqlBackend) (book : QofBook)
    (hbook : s.m_book = some book)
    (htrans : (get_object_backend s.m_backend_registry GNC_ID_TRANS).isSome)
    (hsplit : (get_object_backend s.m_backend_registry GNC_ID_SPLIT).isSome) :
    ∃ r, write_template_transactions w s = some r := by
  unfold write_template_transactions
  simp only [hbook]
  split
  · obtain ⟨⟨s1, d1⟩, h1⟩ := total_for_each_transaction w book.template_transactions s
      ⟨true, get_object_backend s.m_backend_registry GNC_ID_TRANS⟩ htrans hsplit
    simp only [h1]
    exact ⟨_, rfl⟩
  · exact ⟨_, rfl⟩

theorem total_write_schedXactions (w : World) (s : GncSqlBackend) (book : QofBook)
    (hbook : s.m_book = some book)
    (hreg : (get_object_backend s.m_backend_registry GNC_ID_SCHEDXACTION).isSome) :
    ∃ r, write_schedXactions w s = some r := by
  unfold write_schedXactions
  simp only [hbook]
  obtain ⟨obe, ho⟩ := Option.isSome_iff_exists.mp hreg
  rw [ho]
  cases book.sx_list with
  | nil => exact ⟨_, rfl⟩
  | cons sx rest => exact ⟨_, rfl⟩


/-! ### Running the steps -/

theorem run_steps_quiet (l : List Step) (hl : ∀ st ∈ l, Step.quiet st)
    (s s' : GncSqlBackend) (ok : Bool) (h : run_steps l s = some (s', ok)) :
    quiet s s' := by
  induction l generalizing s with
  | nil =>
    simp only [run_steps, Option.some.injEq, Prod.mk.injEq] at h
    rw [← h.1]; exact quiet_refl s
  | cons st rest ih =>
    simp only [run_steps] at h
    cases h1 : st s with
    | none => simp [h1] at h
    | some r =>
      obtain ⟨s1, ok1⟩ := r
      simp only [h1] at h
      have q1 := hl st (List.mem_cons_self _ _) s s1 ok1 h1
      split at h
      · exact quiet_trans q1 (ih (fun st' hst => hl st' (List.mem_cons_of_mem _ hst)) s1 h)
      · simp only [Option.some.injEq, Prod.mk.injEq] at h
        rw [← h.1]; exact q1

theorem run_steps_append (l1 l2 : List Step) (s : GncSqlBackend) :
    run_steps (l1 ++ l2) s =
      (run_steps l1 s).bind (fun r => if r.2 then run_steps l2 r.1 else some r) := by
  induction l1 generalizing s with
  | nil => simp [run_steps]
  | cons st rest ih =>
    simp only [List.cons_append, run_steps]
    cases h1 : st s with
    | none => simp
    | some r =>
      obtain ⟨s1, ok1⟩ := r
      simp only
      cases ok1 with
      | true => simpa using ih s1
      | false => simp

theorem if_is_ok_true (st : Step) (s : GncSqlBackend) : if_is_ok st (s, true) = st s := by
  simp [if_is_ok]

theorem if_is_ok_false (st : Step) (s : GncSqlBackend) :
    if_is_ok st (s, false) = some (s, false) := by
  simp [if_is_ok]

theorem if_is_ok_chain_none (l : List Step) :
    l.foldl (fun acc st => acc.bind (if_is_ok st)) none = none := by
  induction l with
  | nil => rfl
  | cons st rest ih => rw [List.foldl_cons]; exact ih

theorem run_steps_cons (st : Step) (rest : List Step) (s : GncSqlBackend) :
    run_steps (st :: rest) s =
      match st s with
      | none => none
      | some (be1, is_ok) => if is_ok then run_steps rest be1 else some (be1, false) := rfl

/-- The `if (is_ok)` chain of `sync_all` over a list of steps. -/
theorem if_is_ok_chain (l : List Step) (r : GncSqlBackend × Bool) :
    l.foldl (fun acc st => acc.bind (if_is_ok st)) (some r) =
      if r.2 then run_steps l r.1 else some r := by
  induction l generalizing r with
  | nil => cases r with | mk s ok => cases ok <;> simp [run_steps]
  | cons st rest ih =>
    obtain ⟨s, ok⟩ := r
    rw [List.foldl_cons, Option.some_bind]
    cases ok with
    | false =>
      rw [if_is_ok_false, ih]
      simp
    | true =>
      rw [if_is_ok_true, run_steps_cons]
      cases h1 : st s with
      | none => simpa using if_is_ok_chain_none rest
      | some r1 =>
        obtain ⟨s1, ok1⟩ := r1
        rw [ih (s1, ok1)]
        cases ok1 <;> simp

/-- The six steps between BEGIN and COMMIT. -/
theorem middle_steps_quiet (w : World) (book : QofBook) :
    ∀ st ∈ [step_commit_book w book, write_accounts w, write_transactions w,
      write_template_transactions w, write_schedXactions w, step_write w],
      Step.quiet st := by
  intro st hst
  simp only [List.mem_cons, List.mem_singleton, List.not_mem_nil, or_false] at hst
  rcases hst with rfl | rfl | rfl | rfl | rfl | rfl
  · exact quiet_step_commit_book w book
  · exact quiet_write_accounts w
  · exact quiet_write_transactions w
  · exact quiet_write_template_transactions w
  · exact quiet_write_schedXactions w
  · exact quiet_step_write w

theorem sync_all_eq_run_steps (w : World) (be : GncSqlBackend) (book : QofBook) :
    sync_all w be (some book) =
      (run_steps (sync_all_steps w book) (sync_all_prepare w be book)).map
        (sync_all_finish w book) := by
  have h := if_is_ok_chain
    [step_commit_book w book, write_accounts w, write_transactions w,
      write_template_transactions w, write_schedXactions w, step_write w, step_commit w]
    (conn_begin_transaction w (sync_all_prepare w be book))
  simp only [List.foldl_cons, List.foldl_nil] at h
  rw [sync_all_steps, run_steps_cons]
  simp only [sync_all, step_begin]
  rw [h]
  cases (conn_begin_transaction w (sync_all_prepare w be book)) with
  | mk s ok => cases ok <;> simp


/-! ### The state before BEGIN -/

theorem execute_nonselect_statement_eq (w : World) (s : GncSqlBackend) (sql : String) :
    execute_nonselect_statement w s sql =
      (if w.conn_execute_nonselect_statement s.trace sql = -1 then
          qof_backend_set_error (s.emit (Event.execute_nonselect_statement sql))
            QofBackendError.ERR_BACKEND_SERVER_ERR
        else s.emit (Event.execute_nonselect_statement sql),
       w.conn_execute_nonselect_statement s.trace sql) := by
  unfold execute_nonselect_statement
  dsimp only
  split <;> rfl

theorem set_table_version_registry (w : World) (s : GncSqlBackend) (t : String) (v : Nat) :
    (set_table_version w s t v).1.m_backend_registry = s.m_backend_registry := by
  unfold set_table_version
  simp only [execute_nonselect_statement_eq]
  split_ifs <;> rfl

theorem create_table_registry (w : World) (s : GncSqlBackend) (t : String) (c : EntryVec) :
    (create_table w s t c).1.m_backend_registry = s.m_backend_registry := rfl

theorem reset_version_info_registry (w : World) (s : GncSqlBackend) :
    (reset_version_info w s).1.m_backend_registry = s.m_backend_registry := by
  unfold reset_version_info
  simp only [set_table_version_registry]
  split <;> rfl

theorem create_tables_foldl (w : World) (l : List OBEEntry) (s : GncSqlBackend) :
    (l.foldl (fun s entry =>
        (update_progress w s).emit (Event.obe_create_tables entry.1 entry.2.id)) s).m_is_pristine_db
      = s.m_is_pristine_db ∧
    (l.foldl (fun s entry =>
        (update_progress w s).emit (Event.obe_create_tables entry.1 entry.2.id)) s).m_backend_registry
      = s.m_backend_registry := by
  induction l generalizing s with
  | nil => exact ⟨rfl, rfl⟩
  | cons e es ih =>
    rw [List.foldl_cons]
    obtain ⟨h1, h2⟩ := ih ((update_progress w s).emit (Event.obe_create_tables e.1 e.2.id))
    have q := quiet_update_progress w s
    exact ⟨h1.trans q.1.2.2.1, h2.trans q.1.2.2.2.1⟩

theorem sync_all_prepare_fields (w : World) (be : GncSqlBackend) (book : QofBook) :
    (sync_all_prepare w be book).m_book = some book ∧
    (sync_all_prepare w be book).m_is_pristine_db = true ∧
    (sync_all_prepare w be book).m_backend_registry = be.m_backend_registry := by
  unfold sync_all_prepare create_tables
  refine ⟨rfl, ?_, ?_⟩
  · exact (create_tables_foldl w _ _).1
  · simp only
    rw [(create_tables_foldl w _ _).2]
    simp only
    rw [(quiet_update_progress w _).1.2.2.2.1, reset_version_info_registry]


/-! ### Outcome of the steps and of the final branch -/

theorem steps_outcome (w : World) (book : QofBook) (p s : GncSqlBackend) (ok : Bool)
    (h : run_steps (sync_all_steps w book) p = some (s, ok)) :
    same_engine p s ∧
    ∃ commit_ran : Bool,
      control_events s.trace = control_events p.trace ++ [Event.begin_transaction] ++
        (if commit_ran then [Event.commit_transaction] else []) ∧
      (ok = true → commit_ran = true) ∧
      (commit_ran = true ↔
        ∃ s7, run_steps ((sync_all_steps w book).take 7) p = some (s7, true)) := by
  have hsteps : sync_all_steps w book = step_begin w ::
      ([step_commit_book w book, write_accounts w, write_transactions w,
        write_template_transactions w, write_schedXactions w, step_write w] ++
        [step_commit w]) := rfl
  have htake : (sync_all_steps w book).take 7 = step_begin w ::
      [step_commit_book w book, write_accounts w, write_transactions w,
        write_template_transactions w, write_schedXactions w, step_write w] := rfl
  rw [htake, run_steps_cons]
  rw [hsteps, run_steps_cons] at h
  have hb : step_begin w p = some (p.emit Event.begin_transaction,
      w.conn_begin_transaction p.trace) := rfl
  rw [hb] at h ⊢
  have hc0 : control_events (p.emit Event.begin_transaction).trace =
      control_events p.trace ++ [Event.begin_transaction] := by
    simp [GncSqlBackend.emit, control_events_append, control_events, Event.is_control]
  cases hb0 : w.conn_begin_transaction p.trace with
  | false =>
    simp only [hb0, Bool.false_eq_true, if_false, Option.some.injEq, Prod.mk.injEq] at h ⊢
    obtain ⟨hs, hok⟩ := h
    subst hs hok
    refine ⟨same_engine_emit p _, false, by simpa using hc0, by simp, by simp⟩
  | true =>
    simp only [hb0, if_true] at h ⊢
    rw [run_steps_append] at h
    cases hm : run_steps [step_commit_book w book, write_accounts w, write_transactions w,
        write_template_transactions w, write_schedXactions w, step_write w]
        (p.emit Event.begin_transaction) with
    | none => simp [hm] at h
    | some r =>
      obtain ⟨s6, ok6⟩ := r
      have q := run_steps_quiet _ (middle_steps_quiet w book) _ s6 ok6 hm
      simp only [hm, Option.some_bind] at h
      cases ok6 with
      | false =>
        simp only [Bool.false_eq_true, if_false, Option.some.injEq, Prod.mk.injEq] at h
        obtain ⟨hs, hok⟩ := h
        subst hs hok
        refine ⟨same_engine_trans (same_engine_emit p _) q.1, false, ?_, by simp, by simp⟩
        rw [q.2, hc0]; simp
      | true =>
        simp only [if_true, run_steps, step_commit, conn_commit_transaction] at h
        have hs : s = s6.emit Event.commit_transaction := by
          cases hcm : w.conn_commit_transaction s6.trace <;> simp [hcm] at h <;> exact h.1.symm
        subst hs
        refine ⟨same_engine_trans (same_engine_emit p _)
          (same_engine_trans q.1 (same_engine_emit s6 _)), true, ?_, by simp, by simp⟩
        simp only [GncSqlBackend.emit, control_events_append, if_true] at hc0 ⊢
        rw [show control_events s6.trace = control_events (p.emit Event.begin_transaction).trace
          from q.2]
        simp only [GncSqlBackend.emit, control_events_append]
        simp [control_events, Event.is_control]

theorem finish_progress_same (w : World) (s : GncSqlBackend) :
    quiet s (finish_progress w s) := by
  unfold finish_progress
  split
  · exact quiet_emit s _ rfl
  · exact quiet_refl s

theorem sync_all_finish_ok (w : World) (book : QofBook) (s : GncSqlBackend) :
    s.trace <+: (sync_all_finish w book (s, true)).trace ∧
    control_events (sync_all_finish w book (s, true)).trace =
      control_events s.trace ++ [Event.qof_book_mark_session_saved (some book.id)] ∧
    (sync_all_finish w book (s, true)).m_is_pristine_db = false ∧
    (sync_all_finish w book (s, true)).qof_be_errors = s.qof_be_errors := by
  have q := finish_progress_same w
    (qof_book_mark_session_saved { s with m_is_pristine_db := false } (some book))
  have hfin : sync_all_finish w book (s, true) = finish_progress w
    (qof_book_mark_session_saved { s with m_is_pristine_db := false } (some book)) := by
    simp [sync_all_finish]
  rw [hfin]
  refine ⟨?_, ?_, ?_, ?_⟩
  · exact List.IsPrefix.trans (List.prefix_append _ _) q.1.2.2.2.2.2
  · rw [q.2]
    simp [qof_book_mark_session_saved, GncSqlBackend.emit, control_events_append,
      control_events, Event.is_control]
  · rw [q.1.2.2.1]; rfl
  · rw [q.1.1]; rfl

theorem sync_all_finish_failed (w : World) (book : QofBook) (s : GncSqlBackend) :
    s.trace <+: (sync_all_finish w book (s, false)).trace ∧
    control_events (sync_all_finish w book (s, false)).trace =
      control_events s.trace ++
        (if s.qof_be_errors = [] then
          [Event.qof_backend_set_error QofBackendError.ERR_BACKEND_SERVER_ERR] else []) ++
        [Event.rollback_transaction] ∧
    (sync_all_finish w book (s, false)).m_is_pristine_db = s.m_is_pristine_db ∧
    (sync_all_finish w book (s, false)).qof_be_errors =
      (if s.qof_be_errors = [] then [QofBackendError.ERR_BACKEND_SERVER_ERR]
        else s.qof_be_errors) := by
  cases he : s.qof_be_errors with
  | nil =>
    have hfin : sync_all_finish w book (s, false) = finish_progress w
        ((qof_backend_set_error s QofBackendError.ERR_BACKEND_SERVER_ERR).emit
          Event.rollback_transaction) := by
      simp [sync_all_finish, qof_backend_check_error, he, conn_rollback_transaction]
    have q := finish_progress_same w
        ((qof_backend_set_error s QofBackendError.ERR_BACKEND_SERVER_ERR).emit
          Event.rollback_transaction)
    rw [hfin]
    refine ⟨?_, ?_, ?_, ?_⟩
    · refine List.IsPrefix.trans ?_ q.1.2.2.2.2.2
      simp [qof_backend_set_error, GncSqlBackend.emit]
    · rw [q.2]
      simp [qof_backend_set_error, GncSqlBackend.emit, control_events_append,
        control_events, Event.is_control]
    · rw [q.1.2.2.1]; rfl
    · rw [q.1.1]; simp [qof_backend_set_error, GncSqlBackend.emit, he]
  | cons e es =>
    have hfin : sync_all_finish w book (s, false) = finish_progress w
        (s.emit Event.rollback_transaction) := by
      simp [sync_all_finish, qof_backend_check_error, he, conn_rollback_transaction]
    have q := finish_progress_same w (s.emit Event.rollback_transaction)
    rw [hfin]
    refine ⟨?_, ?_, ?_, ?_⟩
    · exact List.IsPrefix.trans (List.prefix_append _ _) q.1.2.2.2.2.2
    · rw [q.2]
      simp [GncSqlBackend.emit, control_events_append, control_events, Event.is_control]
    · rw [q.1.2.2.1]; rfl
    · rw [q.1.1]; simp [GncSqlBackend.emit, he]


theorem run_steps_total (l : List Step) (book : QofBook) (reg : List OBEEntry)
    (hl : ∀ st ∈ l, ∀ s : GncSqlBackend, s.m_book = some book → s.m_backend_registry = reg →
      ∃ s' ok, st s = some (s', ok) ∧ s'.m_book = some book ∧ s'.m_backend_registry = reg)
    (s : GncSqlBackend) (hb : s.m_book = some book) (hr : s.m_backend_registry = reg) :
    ∃ r, run_steps l s = some r := by
  induction l generalizing s with
  | nil => exact ⟨_, rfl⟩
  | cons st rest ih =>
    obtain ⟨s1, ok1, h1, hb1, hr1⟩ := hl st (List.mem_cons_self _ _) s hb hr
    rw [run_steps_cons, h1]
    cases ok1 with
    | true =>
      simpa using ih (fun st' hst => hl st' (List.mem_cons_of_mem _ hst)) s1 hb1 hr1
    | false => exact ⟨_, rfl⟩

theorem quiet_step_total (st : Step) (hq : Step.quiet st) (book : QofBook)
    (reg : List OBEEntry) (s : GncSqlBackend) (hb : s.m_book = some book)
    (hr : s.m_backend_registry = reg) (ht : ∃ r, st s = some r) :
    ∃ s' ok, st s = some (s', ok) ∧ s'.m_book = some book ∧ s'.m_backend_registry = reg := by
  obtain ⟨⟨s', ok⟩, h⟩ := ht
  have q := hq s s' ok h
  exact ⟨s', ok, h, q.1.2.1.trans hb, q.1.2.2.2.1.trans hr⟩

theorem sync_all_steps_total (w : World) (book : QofBook) (p : GncSqlBackend)
    (hb : p.m_book = some book) (hreg : sync_backends_registered p.m_backend_registry) :
    ∃ r, run_steps (sync_all_steps w book) p = some r := by
  obtain ⟨hbook, hacct, htrans, hsplit, hsx⟩ := hreg
  apply run_steps_total (sync_all_steps w book) book p.m_backend_registry _ p hb rfl
  intro st hst s hsb hsr
  simp only [sync_all_steps, List.mem_cons, List.mem_singleton, List.not_mem_nil,
    or_false] at hst
  rcases hst with rfl | rfl | rfl | rfl | rfl | rfl | rfl | rfl
  · exact ⟨_, _, rfl, hsb, hsr⟩
  · apply quiet_step_total _ (quiet_step_commit_book w book) book _ s hsb hsr
    obtain ⟨obe, ho⟩ := Option.isSome_iff_exists.mp hbook
    simp only [step_commit_book, hsr, ho]
    exact ⟨_, rfl⟩
  · exact quiet_step_total _ (quiet_write_accounts w) book _ s hsb hsr
      (total_write_accounts w s book hsb (by rw [hsr]; exact hacct))
  · exact quiet_step_total _ (quiet_write_transactions w) book _ s hsb hsr
      (total_write_transactions w s book hsb (by rw [hsr]; exact htrans)
        (by rw [hsr]; exact hsplit))
  · exact quiet_step_total _ (quiet_write_template_transactions w) book _ s hsb hsr
      (total_write_template_transactions w s book hsb (by rw [hsr]; exact htrans)
        (by rw [hsr]; exact hsplit))
  · exact quiet_step_total _ (quiet_write_schedXactions w) book _ s hsb hsr
      (total_write_schedXactions w s book hsb (by rw [hsr]; exact hsx))
  · exact quiet_step_total _ (quiet_step_write w) book _ s hsb hsr ⟨_, rfl⟩
  · exact ⟨_, _, rfl, hsb, hsr⟩

/-! ### Save calls of the steps -/

theorem commit_answer_write (w : World) (reg : List OBEEntry) (T : List Event)
    (t : String) (i : Nat) : commit_answer w reg T (Event.obe_write t i) = none := rfl

/-- The plan of a full save of a book with both account trees, and two runs:
one in which every call succeeds, one in which the commit of the second split
fails. -/
theorem sync_all_step_order_scenario :
    save_plan engine_full.m_backend_registry book_templates =
      [Event.obe_commit "Book" 1 ⟨1, "Book", true, false, false⟩,
       Event.obe_commit "Account" 2 ⟨2, "Account", true, false, false⟩,
       Event.obe_commit "Account" 2 ⟨3, "Account", true, false, false⟩,
       Event.obe_commit "Account" 2 ⟨9, "Account", true, false, false⟩,
       Event.obe_commit "Account" 2 ⟨11, "Account", true, false, false⟩,
       Event.obe_commit "Trans" 3 ⟨4, "Trans", true, false, false⟩,
       Event.obe_commit "Split" 4 ⟨5, "Split", true, false, false⟩,
       Event.obe_commit "Split" 4 ⟨6, "Split", true, false, false⟩,
       Event.obe_commit "Trans" 3 ⟨12, "Trans", true, false, false⟩,
       Event.obe_commit "Split" 4 ⟨13, "Split", true, false, false⟩,
       Event.obe_commit "SchedXaction" 5 ⟨10, "SchedXaction", true, false, false⟩,
       Event.obe_write "Book" 1, Event.obe_write "Account" 2, Event.obe_write "Trans" 3,
       Event.obe_write "Split" 4, Event.obe_write "SchedXaction" 5] ∧
    (sync_all world_ok engine_full (some book_templates)).map
        (fun be => step_events be.trace) =
      some ([Event.begin_transaction] ++
        save_plan engine_full.m_backend_registry book_templates ++
        [Event.commit_transaction, Event.qof_book_mark_session_saved (some 1)]) ∧
    (sync_all world_split_fails engine_full (some book_templates)).map
        (fun be => (step_events be.trace, be.m_is_pristine_db, be.qof_be_errors)) =
      some ([Event.begin_transaction,
             Event.obe_commit "Book" 1 ⟨1, "Book", true, false, false⟩,
             Event.obe_commit "Account" 2 ⟨2, "Account", true, false, false⟩,
             Event.obe_commit "Account" 2 ⟨3, "Account", true, false, false⟩,
             Event.obe_commit "Account" 2 ⟨9, "Account", true, false, false⟩,
             Event.obe_commit "Account" 2 ⟨11, "Account", true, false, false⟩,
             Event.obe_commit "Trans" 3 ⟨4, "Trans", true, false, false⟩,
             Event.obe_commit "Split" 4 ⟨5, "Split", true, false, false⟩,
             Event.obe_commit "Split" 4 ⟨6, "Split", true, false, false⟩,
             Event.qof_backend_set_error QofBackendError.ERR_BACKEND_SERVER_ERR,
             Event.rollback_transaction], true,
            [QofBackendError.ERR_BACKEND_SERVER_ERR]) := by
  decide

/-- A failing account commit: BEGIN, the server error, ROLLBACK; the database
stays pristine. -/
theorem sync_all_account_failure_scenario :
    (sync_all world_account_fails engine_full (some book_small)).map
        (fun be => (control_events be.trace, be.m_is_pristine_db, be.qof_be_errors)) =
      some ([Event.begin_transaction,
             Event.qof_backend_set_error QofBackendError.ERR_BACKEND_SERVER_ERR,
             Event.rollback_transaction], true,
            [QofBackendError.ERR_BACKEND_SERVER_ERR]) := by
  decide

/-! ## Post-load commodities -/

/-- Committing commodities leaves the queue of post-load commodities as it
is. -/
theorem commit_commodities_queue (l : List Nat) (be : GncSqlBackend) :
    (l.foldl gnc_sql_commit_commodity be).m_postload_commodities =
      be.m_postload_commodities := by
  induction l generalizing be with
  | nil => rfl
  | cons c cs ih =>
    rw [List.foldl_cons, ih]
    rfl

/-- The tail of `load` leaves the queue of post-load commodities as it is. -/
theorem load_finish_keeps_queue (w : World) (be : GncSqlBackend) (book : QofBook) :
    (load_finish w be book).m_postload_commodities = be.m_postload_commodities := by
  have h := commit_commodities_queue be.m_postload_commodities { be with m_loading := false }
  unfold load_finish finish_progress
  dsimp only
  split <;> exact h

/-- C8, the code at the failing input: the commodity backend queues
commodity 7 during an initial load; when `load` returns the commodity has
been committed once but is still in the queue, and a following load of all
transactions commits it a second time. -/
theorem load_keeps_postload_queue :
    (load world_queue engine_commodity (some book_small)
        QofBackendLoadType.LOAD_TYPE_INITIAL_LOAD).map
        (fun be => (commodity_commits be.trace, be.m_postload_commodities)) =
      some ([(7, false)], [7]) ∧
    ((load world_queue engine_commodity (some book_small)
        QofBackendLoadType.LOAD_TYPE_INITIAL_LOAD).bind
        (fun be => load world_queue be (some book_small)
          QofBackendLoadType.LOAD_TYPE_LOAD_ALL)).map
        (fun be => commodity_commits be.trace) =
      some [(7, false), (7, false)] := by
  decide

/-! ## Ledger lookups, updates and invariant -/

theorem find_version_eq_none_iff (l : List VersionPair) (t : String) :
    find_version l t = none ↔ ∀ ver ∈ l, ver.1 ≠ t := by
  unfold find_version
  simp [List.find?_eq_none]

theorem find_version_first (pre post : List VersionPair) (t : String) (v : Nat)
    (hpre : ∀ ver ∈ pre, ver.1 ≠ t) :
    find_version (pre ++ (t, v) :: post) t = some (t, v) := by
  unfold find_version
  rw [List.find?_append]
  have h : List.find? (fun ver => ver.1 == t) pre = none := by
    simpa [List.find?_eq_none] using hpre
  rw [h]
  simp

theorem split_at_entry (l : List VersionPair) (t : String) (v : Nat)
    (hnodup : (l.map Prod.fst).Nodup) (hmem : (t, v) ∈ l) :
    ∃ pre post, l = pre ++ (t, v) :: post ∧ (∀ ver ∈ pre, ver.1 ≠ t) ∧
      (∀ ver ∈ post, ver.1 ≠ t) := by
  obtain ⟨pre, post, rfl⟩ := List.append_of_mem hmem
  refine ⟨pre, post, rfl, ?_, ?_⟩
  · intro ver hver heq
    rw [List.map_append, List.nodup_append] at hnodup
    refine hnodup.2.2 (List.mem_map_of_mem Prod.fst hver) ?_
    rw [heq]
    simp
  · intro ver hver heq
    rw [List.map_append, List.nodup_append] at hnodup
    have h2 := hnodup.2.1
    simp only [List.map_cons, List.nodup_cons] at h2
    exact h2.1 (heq ▸ List.mem_map_of_mem Prod.fst hver)

/-- C11: `get_table_version` returns 0 whenever the pristine flag is set,
whatever the ledger holds.  With the flag clear it returns 0 when no entry of
the ledger is named `t`, and otherwise the version of the first entry named
`t`; with pairwise distinct names that is the version of the entry `(t, v)`
the ledger holds. -/
theorem get_table_version_cases (be : GncSqlBackend) (t : String) :
    (be.m_is_pristine_db = true → get_table_version be t = 0) ∧
    (be.m_is_pristine_db = false → (∀ ver ∈ be.m_versions, ver.1 ≠ t) →
      get_table_version be t = 0) ∧
    (be.m_is_pristine_db = false → ∀ pre v post,
      be.m_versions = pre ++ (t, v) :: post → (∀ ver ∈ pre, ver.1 ≠ t) →
      get_table_version be t = v) ∧
    (be.m_is_pristine_db = false → ∀ v,
      (be.m_versions.map Prod.fst).Nodup → (t, v) ∈ be.m_versions →
      get_table_version be t = v) := by
  refine ⟨?_, ?_, ?_, ?_⟩
  · intro hp
    simp [get_table_version, hp]
  · intro hp hnone
    simp [get_table_version, hp, (find_version_eq_none_iff _ _).mpr hnone]
  · intro hp pre v post hl hpre
    simp [get_table_version, hp, hl, find_version_first pre post t v hpre]
  · intro hp v hnodup hmem
    obtain ⟨pre, post, hl, hpre, _⟩ := split_at_entry _ t v hnodup hmem
    simp [get_table_version, hp, hl, find_version_first pre post t v hpre]

theorem get_table_version_cases_witness :
    get_table_version engine_ledger "splits" = 3 :=
  (get_table_version_cases engine_ledger "splits").2.2.2 rfl 3 (by decide) (by decide)

/-- C13: `set_table_version (t, 0)` returns false and the engine unchanged,
for every name and every state: nothing is added to the trace (no statement
is created or executed), the ledger is as before, and so is every result of
`get_table_version`. -/
theorem set_table_version_zero_rejected (w : World) (be : GncSqlBackend) (t : String) :
    set_table_version w be t 0 = (be, false) ∧
    (set_table_version w be t 0).1.trace = be.trace ∧
    (set_table_version w be t 0).1.m_versions = be.m_versions ∧
    ∀ name, get_table_version (set_table_version w be t 0).1 name =
      get_table_version be name := by
  have h : set_table_version w be t 0 = (be, false) := by
    simp [set_table_version]
  simp [h]


theorem find_version_eq_some (l : List VersionPair) (t : String) (ver : VersionPair)
    (h : find_version l t = some ver) :
    ver.1 = t ∧ ∃ pre post, l = pre ++ (t, ver.2) :: post ∧ ∀ x ∈ pre, x.1 ≠ t := by
  unfold find_version at h
  rw [List.find?_eq_some] at h
  obtain ⟨hp, pre, post, hl, hpre⟩ := h
  have ht : ver.1 = t := by simpa using hp
  refine ⟨ht, pre, post, ?_, ?_⟩
  · rw [hl, ← ht]
  · intro x hx
    simpa using hpre x hx

theorem assign_version_first (pre post : List VersionPair) (t : String) (u v : Nat)
    (hpre : ∀ ver ∈ pre, ver.1 ≠ t) :
    assign_version (pre ++ (t, u) :: post) t v = pre ++ (t, v) :: post := by
  induction pre with
  | nil => simp [assign_version]
  | cons p ps ih =>
    have hp : (p.1 == t) = false := by
      simpa using hpre p (List.mem_cons_self _ _)
    simp only [List.cons_append, assign_version, hp]
    simp [ih (fun ver hver => hpre ver (List.mem_cons_of_mem _ hver))]

/-- What a call of `set_table_version` with a positive version does, by the
version `cur` found for the name (0 when there is none). -/
theorem set_table_version_effect (w : World) (be : GncSqlBackend) (t : String) (v cur : Nat)
    (hv : 0 < v)
    (hcur : cur = match find_version be.m_versions t with
      | some ver => ver.2
      | none => 0) :
    (cur = v → set_table_version w be t v = (be, true)) ∧
    (cur ≠ v → cur = 0 →
      (set_table_version w be t v).1.m_versions = be.m_versions ++ [(t, v)] ∧
      connection_calls (set_table_version w be t v).1.trace =
        connection_calls be.trace ++
          [Event.execute_nonselect_statement (insert_version_sql t v)]) ∧
    (cur ≠ v → cur ≠ 0 →
      (set_table_version w be t v).1.m_versions = assign_version be.m_versions t v ∧
      connection_calls (set_table_version w be t v).1.trace =
        connection_calls be.trace ++
          [Event.execute_nonselect_statement (update_version_sql t v)]) := by
  have hv' : ¬ ¬ v > 0 := fun h => h hv
  have hv0 : ¬ (0 = v) := by omega
  unfold set_table_version
  simp only [hv', if_false, ← hcur, execute_nonselect_statement_eq]
  refine ⟨?_, ?_, ?_⟩
  · intro h
    simp [h]
  · intro h h0
    simp only [ne_eq, h, not_false_eq_true, if_true, h0]
    split_ifs <;>
      simp [connection_calls, qof_backend_set_error, GncSqlBackend.emit,
        Event.is_connection_call, hv0] at *
  · intro h h0
    simp only [ne_eq, h, not_false_eq_true, if_true, h0, if_false]
    split_ifs <;>
      simp [connection_calls, qof_backend_set_error, GncSqlBackend.emit,
        Event.is_connection_call]


theorem ledger_ok_nil : ledger_ok [] := by
  simp [ledger_ok]

theorem ledger_ok_append (l : List VersionPair) (t : String) (v : Nat)
    (hok : ledger_ok l) (hfresh : ∀ ver ∈ l, ver.1 ≠ t) (hv : 0 < v) :
    ledger_ok (l ++ [(t, v)]) := by
  obtain ⟨hnodup, hpos⟩ := hok
  refine ⟨?_, ?_⟩
  · rw [List.map_append, List.nodup_append]
    refine ⟨hnodup, by simp, ?_⟩
    intro x hx hx'
    simp only [List.map_cons, List.map_nil, List.mem_singleton] at hx'
    obtain ⟨ver, hver, rfl⟩ := List.mem_map.mp hx
    exact hfresh ver hver hx'
  · intro ver hver
    rcases List.mem_append.mp hver with h | h
    · exact hpos ver h
    · simp only [List.mem_singleton] at h
      rw [h]; exact hv

theorem ledger_ok_replace (pre post : List VersionPair) (t : String) (u v : Nat)
    (hok : ledger_ok (pre ++ (t, u) :: post)) (hv : 0 < v) :
    ledger_ok (pre ++ (t, v) :: post) := by
  obtain ⟨hnodup, hpos⟩ := hok
  refine ⟨?_, ?_⟩
  · simpa using hnodup
  · intro ver hver
    rcases List.mem_append.mp hver with h | h
    · exact hpos ver (List.mem_append_left _ h)
    · rcases List.mem_cons.mp h with h | h
      · rw [h]; exact hv
      · exact hpos ver (List.mem_append_right _ (List.mem_cons_of_mem _ h))

theorem set_table_version_keeps_ledger_ok (w : World) (be : GncSqlBackend) (t : String)
    (v : Nat) (hok : ledger_ok be.m_versions) :
    ledger_ok (set_table_version w be t v).1.m_versions := by
  rcases Nat.eq_zero_or_pos v with h0 | hv
  · subst h0
    simpa [set_table_version] using hok
  · cases hf : find_version be.m_versions t with
    | none =>
      obtain ⟨_, h2, _⟩ := set_table_version_effect w be t v 0 hv (by rw [hf])
      rw [(h2 (by omega) rfl).1]
      exact ledger_ok_append _ t v hok ((find_version_eq_none_iff _ _).mp hf) hv
    | some ver =>
      obtain ⟨_, pre, post, hl, hpre⟩ := find_version_eq_some _ t ver hf
      have hver : 1 ≤ ver.2 := hok.2 ver (by
        unfold find_version at hf
        exact List.mem_of_find?_eq_some hf)
      obtain ⟨h1, _, h3⟩ := set_table_version_effect w be t v ver.2 hv (by rw [hf])
      by_cases hc : ver.2 = v
      · rw [h1 hc]; exact hok
      · rw [(h3 hc (by omega)).1, hl, assign_version_first pre post t ver.2 v hpre]
        exact ledger_ok_replace pre post t ver.2 v (hl ▸ hok) hv

theorem reset_version_info_versions (w : World) (be : GncSqlBackend) :
    ∃ be1 : GncSqlBackend, be1.m_versions = [] ∧
      (reset_version_info w be).1 =
        (set_table_version w
          (set_table_version w be1 "Gnucash" w.gnc_prefs_get_long_version).1
          "Gnucash-Resave" w.GNUCASH_RESAVE_VERSION).1 := by
  unfold reset_version_info
  dsimp only
  split <;> exact ⟨_, rfl, rfl⟩

/-- C20: the ledger invariant (names pairwise distinct, versions at least 1)
is kept by `set_table_version` for every name and version and whatever the
statement returns, by `reset_version_info`, by `finalize_version_info` and by
`connect`. -/
theorem ledger_invariant (w : World) (be : GncSqlBackend) (hok : ledger_ok be.m_versions) :
    (∀ t v, ledger_ok (set_table_version w be t v).1.m_versions) ∧
    ledger_ok (reset_version_info w be).1.m_versions ∧
    ledger_ok (finalize_version_info be).m_versions ∧
    ledger_ok (connect be).m_versions := by
  refine ⟨fun t v => set_table_version_keeps_ledger_ok w be t v hok, ?_,
    ledger_ok_nil, ledger_ok_nil⟩
  obtain ⟨be1, hnil, heq⟩ := reset_version_info_versions w be
  rw [heq]
  apply set_table_version_keeps_ledger_ok
  apply set_table_version_keeps_ledger_ok
  rw [hnil]
  exact ledger_ok_nil

theorem ledger_invariant_witness :
    (∀ t v, ledger_ok (set_table_version world_ok engine_ledger t v).1.m_versions) ∧
    ledger_ok (reset_version_info world_ok engine_ledger).1.m_versions ∧
    ledger_ok (finalize_version_info engine_ledger).m_versions ∧
    ledger_ok (connect engine_ledger).m_versions :=
  ledger_invariant world_ok engine_ledger (by decide)

/-- C12, as refuted: the ledger holds the entry `("accounts", 0)`; the call
`set_table_version ("accounts", 1)` sends an INSERT although the ledger has
an entry for the name, and afterwards the lookup still finds version 0. -/
theorem set_table_version_zero_entry_counterexample :
    "accounts" ∈ engine_zero_version.m_versions.map Prod.fst ∧
    sql_statements (set_table_version world_ok engine_zero_version "accounts" 1).1.trace =
      ["INSERT INTO versions VALUES('accounts',1)"] ∧
    find_version (set_table_version world_ok engine_zero_version "accounts" 1).1.m_versions
      "accounts" = some ("accounts", 0) ∧
    get_table_version (set_table_version world_ok engine_zero_version "accounts" 1).1
      "accounts" = 0 := by
  decide

/-- The call on a ledger with pairwise distinct names and versions at least
1: nothing happens when the ledger holds `(t, v)`; otherwise one call on the
connection is added and the ledger maps `t` to `v`. -/
theorem set_table_version_on_ledger_calls (w : World) (be : GncSqlBackend) (t : String) (v : Nat)
    (hv : 0 < v) (hok : ledger_ok be.m_versions) :
    ((t, v) ∈ be.m_versions → set_table_version w be t v = (be, true)) ∧
    ((t, v) ∉ be.m_versions →
      connection_calls (set_table_version w be t v).1.trace =
        connection_calls be.trace ++
          [Event.execute_nonselect_statement
            (if t ∈ be.m_versions.map Prod.fst then update_version_sql t v
             else insert_version_sql t v)] ∧
      find_version (set_table_version w be t v).1.m_versions t = some (t, v)) := by
  cases hf : find_version be.m_versions t with
  | none =>
    have hnone := (find_version_eq_none_iff _ _).mp hf
    have hnot : t ∉ be.m_versions.map Prod.fst := by
      intro hmem
      obtain ⟨ver, hver, heq⟩ := List.mem_map.mp hmem
      exact hnone ver hver heq
    obtain ⟨_, h2, _⟩ := set_table_version_effect w be t v 0 hv (by rw [hf])
    refine ⟨fun hmem => absurd rfl (hnone (t, v) hmem), fun _ => ?_⟩
    obtain ⟨e1, e2⟩ := h2 (by omega) rfl
    rw [e1, e2, if_neg hnot]
    exact ⟨rfl, find_version_first _ [] t v hnone⟩
  | some ver =>
    obtain ⟨ht, pre, post, hl, hpre⟩ := find_version_eq_some _ t ver hf
    have hmemver : (t, ver.2) ∈ be.m_versions := by rw [hl]; simp
    have hver : 1 ≤ ver.2 := hok.2 (t, ver.2) hmemver
    have hin : t ∈ be.m_versions.map Prod.fst := List.mem_map_of_mem Prod.fst hmemver
    obtain ⟨h1, _, h3⟩ := set_table_version_effect w be t v ver.2 hv (by rw [hf])
    refine ⟨fun hmem => ?_, fun hnot => ?_⟩
    · apply h1
      obtain ⟨pre', post', hl', hpre', hpost'⟩ := split_at_entry _ t v hok.1 hmem
      have h := find_version_first pre' post' t v hpre'
      rw [← hl', hf] at h
      exact congrArg Prod.snd (Option.some.inj h)
    · have hc : ver.2 ≠ v := fun h => hnot (h ▸ hmemver)
      obtain ⟨e1, e2⟩ := h3 hc (by omega)
      rw [e1, e2, if_pos hin, hl, assign_version_first pre post t ver.2 v hpre]
      exact ⟨rfl, find_version_first pre post t v hpre⟩


/-- C12, amended: for a ledger with pairwise distinct names and versions at
least 1, and a version `v > 0`: when the ledger holds `(t, v)` the call
returns true and the engine unchanged (no statement); otherwise it makes
exactly one call on the connection, the execution of
`UPDATE versions SET table_version=v WHERE table_name='t'` when the ledger has
an entry named `t` and of `INSERT INTO versions VALUES('t',v)` when it has
none, and afterwards the ledger maps `t` to `v`. -/
theorem set_table_version_on_ledger (w : World) (be : GncSqlBackend) (t : String) (v : Nat)
    (hv : 0 < v) (hok : ledger_ok be.m_versions) :
    ((t, v) ∈ be.m_versions → set_table_version w be t v = (be, true)) ∧
    ((t, v) ∉ be.m_versions →
      connection_calls (set_table_version w be t v).1.trace =
        connection_calls be.trace ++
          [Event.execute_nonselect_statement
            (if t ∈ be.m_versions.map Prod.fst then
              "UPDATE versions SET table_version=" ++ toString v ++
                " WHERE table_name='" ++ t ++ "'"
             else
              "INSERT INTO versions VALUES('" ++ t ++ "'," ++ toString v ++ ")")] ∧
      find_version (set_table_version w be t v).1.m_versions t = some (t, v)) := by
  have h := set_table_version_on_ledger_calls w be t v hv hok
  rw [insert_version_sql_text, update_version_sql_text] at h
  exact h

theorem set_table_version_on_ledger_witness :
    connection_calls (set_table_version world_ok engine_ledger "splits" 4).1.trace =
        connection_calls engine_ledger.trace ++
          [Event.execute_nonselect_statement
            (if "splits" ∈ engine_ledger.m_versions.map Prod.fst then
              "UPDATE versions SET table_version=" ++ toString 4 ++
                " WHERE table_name='" ++ "splits" ++ "'"
             else
              "INSERT INTO versions VALUES('" ++ "splits" ++ "'," ++ toString 4 ++ ")")] ∧
      find_version (set_table_version world_ok engine_ledger "splits" 4).1.m_versions
        "splits" = some ("splits", 4) :=
  (set_table_version_on_ledger world_ok engine_ledger "splits" 4 (by decide)
    (by decide)).2 (by decide)

/-- The three cases on the ledger `accounts` 2, `splits` 3: a stored version
set again, a stored name with a new version, a new name. -/
theorem set_table_version_on_ledger_scenario :
    set_table_version world_ok engine_ledger "splits" 3 = (engine_ledger, true) ∧
    connection_calls (set_table_version world_ok engine_ledger "splits" 4).1.trace =
      [Event.execute_nonselect_statement
        "UPDATE versions SET table_version=4 WHERE table_name='splits'"] ∧
    connection_calls (set_table_version world_ok engine_ledger "lots" 1).1.trace =
      [Event.execute_nonselect_statement "INSERT INTO versions VALUES('lots',1)"] ∧
    (set_table_version world_ok engine_ledger "lots" 1).1.m_versions =
      [("accounts", 2), ("splits", 3), ("lots", 1)] := by
  decide

/-! ## Table upgrade -/

theorem connection_calls_append (a b : List Event) :
    connection_calls (a ++ b) = connection_calls a ++ connection_calls b := by
  simp [connection_calls]

theorem execute_nonselect_statement_calls (w : World) (be : GncSqlBackend) (sql : String) :
    connection_calls (execute_nonselect_statement w be sql).1.trace =
      connection_calls be.trace ++ [Event.execute_nonselect_statement sql] := by
  rw [execute_nonselect_statement_eq]
  dsimp only
  split <;>
    simp [connection_calls, qof_backend_set_error, GncSqlBackend.emit,
      Event.is_connection_call]

theorem temp_table_name_ne (t : String) : t ++ "_new" ≠ t := by
  intro h
  have hlen := congrArg String.length h
  rw [String.length_append] at hlen
  have h4 : "_new".length = 4 := by decide
  omega

theorem map_unchanged (db : Database) (f : Table → Table) (name : String)
    (hf : ∀ tb, tb.name ≠ name → f tb = tb) (hdb : ∀ tb ∈ db, tb.name ≠ name) :
    db.map f = db := by
  induction db with
  | nil => rfl
  | cons tb rest ih =>
    rw [List.map_cons, hf tb (hdb tb (List.mem_cons_self _ _)),
      ih (fun x hx => hdb x (List.mem_cons_of_mem _ hx))]

theorem upgrade_run (db : Database) (t : String) (cols old_cols : EntryVec)
    (rows : List Row) (ht : db.table t = some ⟨t, old_cols, rows⟩)
    (hnew : ∀ tb ∈ db, tb.name ≠ t ++ "_new") :
    db.run (upgrade_statements t cols) =
      db.filter (fun tb => !(tb.name == t)) ++ [⟨t, cols, rows⟩] := by
  have hne := temp_table_name_ne t
  have hrows : Database.rows_of (db ++ [⟨t ++ "_new", cols, []⟩]) t = rows := by
    unfold Database.rows_of Database.table
    unfold Database.table at ht
    rw [List.find?_append, ht]
    rfl
  have hfilter : ∀ tb ∈ db.filter (fun tb => !(tb.name == t)), tb.name ≠ t ++ "_new" :=
    fun tb htb => hnew tb (List.mem_of_mem_filter htb)
  simp only [Database.run, upgrade_statements, List.foldl_cons, List.foldl_nil,
    Database.exec, hrows]
  rw [List.map_append, map_unchanged db _ (t ++ "_new") _ hnew]
  · simp only [List.map_cons, List.map_nil, beq_self_eq_true, if_true, List.nil_append]
    rw [List.filter_append, List.map_append,
      map_unchanged _ _ (t ++ "_new") _ hfilter]
    · simp [hne]
    · intro tb htb
      simp [htb]
  · intro tb htb
    simp [htb]

/-- C17: `upgrade_table (t, cols)` makes four calls on the connection and no
other, in this order: creation of `t_new` with the columns `cols`, `INSERT
INTO t_new SELECT * FROM t`, `DROP TABLE t`, `ALTER TABLE t_new RENAME TO t`.
Run on a database that has a table `t` and no table `t_new`, these statements
leave a table named `t` with the new columns and the rows `t` had, no table
named `t_new`, and every other table as it was. -/
theorem upgrade_table_statements (w : World) (be : GncSqlBackend) (t : String) (cols : EntryVec)
    (db : Database) (old_cols : EntryVec) (rows : List Row)
    (ht : db.table t = some ⟨t, old_cols, rows⟩)
    (hnew : ∀ tb ∈ db, tb.name ≠ t ++ "_new") :
    connection_calls (upgrade_table w be t cols).trace =
      connection_calls be.trace ++
        [Event.create_table (t ++ "_new") cols,
         Event.execute_nonselect_statement
           ("INSERT INTO " ++ (t ++ "_new") ++ " SELECT * FROM " ++ t),
         Event.execute_nonselect_statement ("DROP TABLE " ++ t),
         Event.execute_nonselect_statement
           ("ALTER TABLE " ++ (t ++ "_new") ++ " RENAME TO " ++ t)] ∧
    connection_calls (upgrade_table w be t cols).trace =
      connection_calls be.trace ++ (upgrade_statements t cols).map Statement.event ∧
    (db.run (upgrade_statements t cols)).table t = some ⟨t, cols, rows⟩ ∧
    (db.run (upgrade_statements t cols)).table (t ++ "_new") = none ∧
    db.run (upgrade_statements t cols) =
      db.filter (fun tb => !(tb.name == t)) ++ [⟨t, cols, rows⟩] := by
  have hcalls : connection_calls (upgrade_table w be t cols).trace =
      connection_calls be.trace ++
        [Event.create_table (t ++ "_new") cols,
         Event.execute_nonselect_statement
           ("INSERT INTO " ++ (t ++ "_new") ++ " SELECT * FROM " ++ t),
         Event.execute_nonselect_statement ("DROP TABLE " ++ t),
         Event.execute_nonselect_statement
           ("ALTER TABLE " ++ (t ++ "_new") ++ " RENAME TO " ++ t)] := by
    unfold upgrade_table
    simp only [execute_nonselect_statement_calls]
    have hinfo : ∀ l : EntryVec, ∀ acc : EntryVec, l.foldl add_to_table acc = acc ++ l := by
      intro l
      induction l with
      | nil => simp
      | cons x xs ih => intro acc; simp [List.foldl_cons, ih, add_to_table]
    simp [create_table, GncSqlBackend.emit, connection_calls_append, hinfo]
    simp [connection_calls, Event.is_connection_call]
  have hrun := upgrade_run db t cols old_cols rows ht hnew
  have hne := temp_table_name_ne t
  refine ⟨hcalls, hcalls, ?_, ?_, hrun⟩
  · rw [hrun]
    unfold Database.table
    rw [List.find?_append]
    have : List.find? (fun tb => tb.name == t)
        (List.filter (fun tb => !(tb.name == t)) db) = none := by
      simp [List.find?_eq_none, List.mem_filter]
    rw [this]
    simp
  · rw [hrun]
    unfold Database.table
    rw [List.find?_append]
    have : List.find? (fun tb => tb.name == t ++ "_new")
        (List.filter (fun tb => !(tb.name == t)) db) = none := by
      rw [List.find?_eq_none]
      intro tb htb
      simpa using hnew tb (List.mem_of_mem_filter htb)
    rw [this]
    simp [Ne.symm hne]

theorem upgrade_table_statements_witness :
    (db_accts.run (upgrade_statements "accts" accts_columns)).table "accts" =
      some ⟨"accts", accts_columns, [["a1"], ["a2"], ["a3"]]⟩ ∧
    (db_accts.run (upgrade_statements "accts" accts_columns)).table ("accts" ++ "_new") =
      none :=
  ⟨(upgrade_table_statements world_ok engine_empty "accts" accts_columns db_accts
      [⟨"guid", 32, 3⟩] [["a1"], ["a2"], ["a3"]] (by decide) (by decide)).2.2.1,
   (upgrade_table_statements world_ok engine_empty "accts" accts_columns db_accts
      [⟨"guid", 32, 3⟩] [["a1"], ["a2"], ["a3"]] (by decide) (by decide)).2.2.2.1⟩

/-! ## Transactions -/

theorem transaction_events_append (a b : List Event) :
    transaction_events (a ++ b) = transaction_events a ++ transaction_events b := by
  simp [transaction_events]

theorem transaction_events_of_control (l : List Event) :
    transaction_events (control_events l) = transaction_events l := by
  induction l with
  | nil => rfl
  | cons e rest ih =>
    cases e <;>
      simp [transaction_events, control_events, Event.is_control, Event.is_transaction,
        List.filter_cons] at ih ⊢ <;> exact ih

theorem commit_edit_transactions (w : World) (be : GncSqlBackend) (inst : QofInstance) :
    ∃ added : List Event,
      (commit_edit w be inst).1.trace = be.trace ++ added ∧
      transaction_events added ∈
        [[], [Event.rollback_transaction], [Event.begin_transaction],
         [Event.begin_transaction, Event.rollback_transaction],
         [Event.begin_transaction, Event.commit_transaction]] ∧
      (transaction_events added = [Event.begin_transaction] →
        w.conn_begin_transaction be.trace = false) := by
  by_cases hro : w.qof_book_is_readonly be.m_book = true
  · refine ⟨[Event.qof_backend_set_error QofBackendError.ERR_BACKEND_READONLY,
             Event.rollback_transaction], ?_, ?_, ?_⟩ <;>
      simp [commit_edit, hro, qof_backend_set_error, conn_rollback_transaction,
        GncSqlBackend.emit, transaction_events, Event.is_transaction]
  have hro' : w.qof_book_is_readonly be.m_book = false := by simpa using hro
  by_cases hload : be.m_loading = true
  · refine ⟨[Event.qof_instance_mark_clean inst.id], ?_, ?_, ?_⟩ <;>
      simp [commit_edit, hro', hload, qof_instance_mark_clean, GncSqlBackend.emit,
        transaction_events, Event.is_transaction]
  have hload' : be.m_loading = false := by simpa using hload
  by_cases hprice : inst.e_type = "PriceDB"
  · refine ⟨[Event.qof_instance_mark_clean inst.id,
             Event.qof_book_mark_session_saved (be.m_book.map (fun b => b.id))],
             ?_, ?_, ?_⟩ <;>
      simp [commit_edit, hro', hload', hprice, qof_instance_mark_clean,
        qof_book_mark_session_saved, GncSqlBackend.emit, transaction_events,
        Event.is_transaction]
  by_cases hclean : (!inst.dirty && !inst.destroying) = true
  · refine ⟨[], ?_, ?_, ?_⟩ <;>
      simp [commit_edit, hro', hload', hprice, hclean, transaction_events]
  have hclean' : (!inst.dirty && !inst.destroying) = false := by simpa using hclean
  by_cases hbegin : w.conn_begin_transaction be.trace = true
  · cases hreg : get_object_backend be.m_backend_registry inst.e_type with
    | none =>
      refine ⟨[Event.begin_transaction, Event.rollback_transaction,
        Event.qof_book_mark_session_saved (be.m_book.map (fun b => b.id)),
        Event.qof_instance_mark_clean inst.id], ?_, ?_, ?_⟩ <;>
        simp [commit_edit, hro', hload', hprice, hclean', conn_begin_transaction, hbegin,
          hreg, conn_rollback_transaction, qof_book_mark_session_saved,
          qof_instance_mark_clean, GncSqlBackend.emit, transaction_events,
          Event.is_transaction]
    | some obe =>
      by_cases hcommit : w.obe_commit (be.trace ++ [Event.begin_transaction]) obe inst = true
      · refine ⟨[Event.begin_transaction, Event.obe_commit obe.1 obe.2.id inst,
          Event.commit_transaction,
          Event.qof_book_mark_session_saved (be.m_book.map (fun b => b.id)),
          Event.qof_instance_mark_clean inst.id], ?_, ?_, ?_⟩ <;>
          simp [commit_edit, hro', hload', hprice, hclean', conn_begin_transaction, hbegin,
            hreg, conn_commit_transaction, obe_commit, hcommit,
            qof_book_mark_session_saved, qof_instance_mark_clean, GncSqlBackend.emit,
            transaction_events, Event.is_transaction]
      · have hcommit' : w.obe_commit (be.trace ++ [Event.begin_transaction]) obe inst =
            false := by simpa using hcommit
        refine ⟨[Event.begin_transaction, Event.obe_commit obe.1 obe.2.id inst,
          Event.rollback_transaction], ?_, ?_, ?_⟩ <;>
          simp [commit_edit, hro', hload', hprice, hclean', conn_begin_transaction, hbegin,
            hreg, conn_rollback_transaction, obe_commit, hcommit', GncSqlBackend.emit,
            transaction_events, Event.is_transaction]
  · have hbegin' : w.conn_begin_transaction be.trace = false := by simpa using hbegin
    refine ⟨[Event.begin_transaction], ?_, ?_, ?_⟩ <;>
      simp [commit_edit, hro', hload', hprice, hclean', conn_begin_transaction, hbegin',
        GncSqlBackend.emit, transaction_events, Event.is_transaction]


theorem adds_no_transaction_refl (s : GncSqlBackend) : adds_no_transaction s s :=
  ⟨List.prefix_refl _, rfl⟩

theorem adds_no_transaction_trans {a b c : GncSqlBackend}
    (h1 : adds_no_transaction a b) (h2 : adds_no_transaction b c) :
    adds_no_transaction a c :=
  ⟨h1.1.trans h2.1, h2.2.trans h1.2⟩

theorem adds_no_transaction_of_trace (s s' : GncSqlBackend) (added : List Event)
    (htrace : s'.trace = s.trace ++ added) (hadded : transaction_events added = []) :
    adds_no_transaction s s' := by
  refine ⟨htrace ▸ List.prefix_append _ _, ?_⟩
  rw [htrace, transaction_events_append, hadded, List.append_nil]

theorem adds_no_transaction_of_quiet {s s' : GncSqlBackend} (h : quiet s s') :
    adds_no_transaction s s' := by
  refine ⟨h.1.2.2.2.2.2, ?_⟩
  rw [← transaction_events_of_control, h.2, transaction_events_of_control]

theorem set_table_version_no_transaction (w : World) (s : GncSqlBackend) (t : String)
    (v : Nat) : adds_no_transaction s (set_table_version w s t v).1 := by
  unfold set_table_version
  simp only [execute_nonselect_statement_eq]
  split_ifs <;>
    simp [adds_no_transaction, qof_backend_set_error, GncSqlBackend.emit,
      transaction_events, Event.is_transaction]

theorem reset_version_info_no_transaction (w : World) (s : GncSqlBackend) :
    adds_no_transaction s (reset_version_info w s).1 := by
  unfold reset_version_info
  dsimp only
  split
  · refine adds_no_transaction_trans ?_ (set_table_version_no_transaction w _ _ _)
    refine adds_no_transaction_trans ?_ (set_table_version_no_transaction w _ _ _)
    refine adds_no_transaction_of_trace _ _
      [Event.does_table_exist VERSION_TABLE_NAME,
       Event.create_table VERSION_TABLE_NAME (version_table.foldl add_to_table [])] ?_ rfl
    simp [create_table, GncSqlBackend.emit]
  · refine adds_no_transaction_trans ?_ (set_table_version_no_transaction w _ _ _)
    refine adds_no_transaction_trans ?_ (set_table_version_no_transaction w _ _ _)
    exact adds_no_transaction_of_trace _ _
      [Event.does_table_exist VERSION_TABLE_NAME] rfl rfl

theorem create_tables_no_transaction (w : World) (l : List OBEEntry) (s : GncSqlBackend) :
    adds_no_transaction s
      (l.foldl (fun s entry =>
        (update_progress w s).emit (Event.obe_create_tables entry.1 entry.2.id)) s) := by
  induction l generalizing s with
  | nil => exact adds_no_transaction_refl s
  | cons e es ih =>
    rw [List.foldl_cons]
    refine adds_no_transaction_trans ?_ (ih _)
    exact adds_no_transaction_trans
      (adds_no_transaction_of_quiet (quiet_update_progress w s))
      (adds_no_transaction_of_trace _ _ [Event.obe_create_tables e.1 e.2.id] rfl rfl)

theorem sync_all_prepare_no_transaction (w : World) (be : GncSqlBackend) (book : QofBook) :
    adds_no_transaction be (sync_all_prepare w be book) := by
  unfold sync_all_prepare create_tables
  dsimp only
  have h1 := reset_version_info_no_transaction w be
  have h2 := adds_no_transaction_of_quiet (quiet_update_progress w (reset_version_info w be).1)
  have h3 := create_tables_no_transaction w
    (update_progress w (reset_version_info w be).1).m_backend_registry
    { update_progress w (reset_version_info w be).1 with m_is_pristine_db := true }
  exact ⟨(h1.1.trans h2.1).trans h3.1, h3.2.trans (h2.2.trans h1.2)⟩


theorem transaction_events_of_prefix (a b X : List Event) (hp : a <+: b)
    (hc : transaction_events b = transaction_events a ++ X) :
    ∃ added, b = a ++ added ∧ transaction_events added = X := by
  obtain ⟨added, rfl⟩ := hp
  refine ⟨added, rfl, ?_⟩
  rw [transaction_events_append] at hc
  exact List.append_cancel_left hc

theorem sync_all_transactions (w : World) (be : GncSqlBackend) (book : QofBook)
    (final : GncSqlBackend) (h : sync_all w be (some book) = some final) :
    ∃ added, final.trace = be.trace ++ added ∧
      (transaction_events added = [Event.begin_transaction, Event.commit_transaction] ∨
       transaction_events added = [Event.begin_transaction, Event.rollback_transaction] ∨
       transaction_events added =
         [Event.begin_transaction, Event.commit_transaction, Event.rollback_transaction]) := by
  rw [sync_all_eq_run_steps] at h
  cases hr : run_steps (sync_all_steps w book) (sync_all_prepare w be book) with
  | none => simp [hr] at h
  | some r =>
    obtain ⟨s, ok⟩ := r
    simp only [hr, Option.map_some', Option.some.injEq] at h
    subst h
    obtain ⟨hsame, commit_ran, hctl, hokc, _⟩ := steps_outcome w book _ s ok hr
    have hprep := sync_all_prepare_no_transaction w be book
    have hpre : be.trace <+: s.trace := hprep.1.trans hsame.2.2.2.2.2
    have hs : transaction_events s.trace = transaction_events be.trace ++
        ([Event.begin_transaction] ++
          (if commit_ran then [Event.commit_transaction] else [])) := by
      rw [← transaction_events_of_control, hctl, List.append_assoc, transaction_events_append,
        transaction_events_of_control, hprep.2]
      cases commit_ran <;> rfl
    cases ok with
    | true =>
      obtain ⟨f1, f2, _, _⟩ := sync_all_finish_ok w book s
      have hc := hokc rfl
      subst hc
      obtain ⟨added, hadd, hca⟩ := transaction_events_of_prefix _ _
        [Event.begin_transaction, Event.commit_transaction] (hpre.trans f1)
        (by rw [← transaction_events_of_control, f2, transaction_events_append,
              transaction_events_of_control, hs]
            simp [transaction_events, Event.is_transaction])
      exact ⟨added, hadd, Or.inl hca⟩
    | false =>
      obtain ⟨f1, f2, _, _⟩ := sync_all_finish_failed w book s
      obtain ⟨added, hadd, hca⟩ := transaction_events_of_prefix _ _
        ([Event.begin_transaction] ++
          (if commit_ran then [Event.commit_transaction] else []) ++
          [Event.rollback_transaction]) (hpre.trans f1)
        (by rw [← transaction_events_of_control, f2, transaction_events_append,
              transaction_events_append, transaction_events_of_control, hs]
            cases commit_ran <;> split <;> simp [transaction_events, Event.is_transaction])
      refine ⟨added, hadd, ?_⟩
      cases commit_ran
      · exact Or.inr (Or.inl hca)
      · exact Or.inr (Or.inr hca)


/-- C21: transactions opened by the engine are one deep.  With BEGIN, COMMIT
and ROLLBACK read as the calls of the engine on its connection: every run of
`commit_edit` adds one of the transaction sequences (none), ROLLBACK, BEGIN,
BEGIN ROLLBACK, BEGIN COMMIT, and BEGIN alone only when that BEGIN failed;
`sync_all` on a book returns when the backends it calls through are
registered, and every run that returns adds one of BEGIN COMMIT,
BEGIN ROLLBACK, BEGIN COMMIT ROLLBACK; without a book it adds nothing.  So at
most one BEGIN is issued, and a BEGIN that succeeded is followed by COMMIT or
ROLLBACK before the operation returns, with no BEGIN in between. -/
theorem transactions_one_deep (w : World) (be : GncSqlBackend) :
    (∀ inst : QofInstance, ∃ added : List Event,
      (commit_edit w be inst).1.trace = be.trace ++ added ∧
      transaction_events added ∈
        [[], [Event.rollback_transaction], [Event.begin_transaction],
         [Event.begin_transaction, Event.rollback_transaction],
         [Event.begin_transaction, Event.commit_transaction]] ∧
      one_deep (w.conn_begin_transaction be.trace) (transaction_events added) = true) ∧
    sync_all w be none = some be ∧
    (∀ book : QofBook,
      (sync_backends_registered be.m_backend_registry →
        ∃ final, sync_all w be (some book) = some final) ∧
      ∀ final, sync_all w be (some book) = some final →
        ∃ added : List Event,
          final.trace = be.trace ++ added ∧
          transaction_events added ∈
            [[Event.begin_transaction, Event.commit_transaction],
             [Event.begin_transaction, Event.rollback_transaction],
             [Event.begin_transaction, Event.commit_transaction,
              Event.rollback_transaction]] ∧
          one_deep true (transaction_events added) = true) := by
  refine ⟨?_, rfl, ?_⟩
  · intro inst
    obtain ⟨added, htrace, hmem, hbegin⟩ := commit_edit_transactions w be inst
    refine ⟨added, htrace, hmem, ?_⟩
    simp only [List.mem_cons, List.mem_singleton, List.not_mem_nil, or_false] at hmem
    rcases hmem with h | h | h | h | h
    · rw [h]; cases w.conn_begin_transaction be.trace <;> rfl
    · rw [h]; cases w.conn_begin_transaction be.trace <;> rfl
    · rw [hbegin h, h]; rfl
    · rw [h]; cases w.conn_begin_transaction be.trace <;> rfl
    · rw [h]; cases w.conn_begin_transaction be.trace <;> rfl
  · intro book
    constructor
    · intro hreg
      obtain ⟨pbook, _, preg⟩ := sync_all_prepare_fields w be book
      obtain ⟨r, hr⟩ := sync_all_steps_total w book _ pbook (by rw [preg]; exact hreg)
      exact ⟨sync_all_finish w book r, by rw [sync_all_eq_run_steps, hr]; rfl⟩
    · intro final h
      obtain ⟨added, htrace, hcases⟩ := sync_all_transactions w be book final h
      refine ⟨added, htrace, ?_, ?_⟩
      · simp only [List.mem_cons, List.mem_singleton, List.not_mem_nil, or_false]
        exact hcases
      · rcases hcases with h | h | h <;> rw [h] <;> rfl

theorem transactions_one_deep_witness :
    sync_backends_registered engine_full.m_backend_registry ∧
    ∃ final, sync_all world_ok engine_full (some book_small) = some final :=
  ⟨⟨by decide, by decide, by decide, by decide, by decide⟩,
   ((transactions_one_deep world_ok engine_full).2.2 book_small).1
     ⟨by decide, by decide, by decide, by decide, by decide⟩⟩

/-- Three runs: a full save that succeeds, a full save whose account commit
fails, and a single commit whose BEGIN fails. -/
theorem transactions_scenario :
    (sync_all world_ok engine_full (some book_small)).map
        (fun be => transaction_events be.trace) =
      some [Event.begin_transaction, Event.commit_transaction] ∧
    (sync_all world_account_fails engine_full (some book_small)).map
        (fun be => transaction_events be.trace) =
      some [Event.begin_transaction, Event.rollback_transaction] ∧
    transaction_events
        (commit_edit world_commit_fails engine_account inst_dirty).1.trace =
      [Event.begin_transaction, Event.rollback_transaction] := by
  decide

/-! ## COMMIT in the single-instance commit -/

/-- C24: in `commit_edit` the result of COMMIT is ignored.  For a dirty
instance (not the price database) whose registered backend commits
successfully, with the engine not loading, the book writable and BEGIN
successful, the calls added are BEGIN, the backend commit, COMMIT, mark
session saved, mark instance clean, whatever COMMIT answers: the instance ends
clean and no ROLLBACK is issued. -/
theorem commit_edit_ignores_commit_result (w : World) (be : GncSqlBackend) (inst : QofInstance) (obe : OBEEntry)
    (hdirty : inst.dirty = true)
    (hreg : get_object_backend be.m_backend_registry inst.e_type = some obe)
    (hprice : inst.e_type ≠ "PriceDB")
    (hload : be.m_loading = false)
    (hro : w.qof_book_is_readonly be.m_book = false)
    (hbegin : w.conn_begin_transaction be.trace = true)
    (hcommit : w.obe_commit (be.trace ++ [Event.begin_transaction]) obe inst = true) :
    commit_edit w be inst =
      ({ be with trace := be.trace ++
          [Event.begin_transaction, Event.obe_commit obe.1 obe.2.id inst,
           Event.commit_transaction,
           Event.qof_book_mark_session_saved (be.m_book.map (fun b => b.id)),
           Event.qof_instance_mark_clean inst.id] },
       { inst with dirty := false }) ∧
    Event.rollback_transaction ∉ (commit_edit w be inst).1.trace.drop be.trace.length ∧
    (commit_edit w be inst).2.dirty = false := by
  have heq : commit_edit w be inst =
      ({ be with trace := be.trace ++
          [Event.begin_transaction, Event.obe_commit obe.1 obe.2.id inst,
           Event.commit_transaction,
           Event.qof_book_mark_session_saved (be.m_book.map (fun b => b.id)),
           Event.qof_instance_mark_clean inst.id] },
       { inst with dirty := false }) := by
    simp [commit_edit, hro, hload, hprice, hdirty, conn_begin_transaction, hbegin, hreg,
      conn_commit_transaction, obe_commit, hcommit, qof_book_mark_session_saved,
      qof_instance_mark_clean, GncSqlBackend.emit]
  refine ⟨heq, ?_, ?_⟩ <;> simp [heq]

theorem commit_edit_ignores_commit_result_witness :
    world_commit_transaction_fails.conn_commit_transaction
        [Event.begin_transaction, Event.obe_commit GNC_ID_ACCOUNT 1 inst_dirty] = false ∧
    (commit_edit world_commit_transaction_fails engine_account inst_dirty).1.trace =
      [Event.begin_transaction, Event.obe_commit GNC_ID_ACCOUNT 1 inst_dirty,
       Event.commit_transaction, Event.qof_book_mark_session_saved none,
       Event.qof_instance_mark_clean 7] ∧
    (commit_edit world_commit_transaction_fails engine_account inst_dirty).2.dirty = false :=
  ⟨rfl,
   congrArg (fun r => r.1.trace)
     (commit_edit_ignores_commit_result world_commit_transaction_fails engine_account
       inst_dirty (GNC_ID_ACCOUNT, ⟨1, true⟩) rfl (by decide) (by decide) rfl rfl rfl rfl).1,
   by decide⟩

/-! ## Ledger update when the statement fails -/

/-- C23, as refuted: on a ledger holding `("accounts", 0)` the call
`set_table_version ("accounts", 1)` whose INSERT fails returns false, and
`get_table_version ("accounts")` afterwards is 0, the value it had before the
call, not 1: the entry appended by the call is hidden behind the first one. -/
theorem set_table_version_failure_counterexample :
    engine_zero_version.m_is_pristine_db = false ∧
    get_table_version engine_zero_version "accounts" = 0 ∧
    world_sql_fails.conn_execute_nonselect_statement engine_zero_version.trace
      (insert_version_sql "accounts" 1) = -1 ∧
    (set_table_version world_sql_fails engine_zero_version "accounts" 1).2 = false ∧
    (set_table_version world_sql_fails engine_zero_version "accounts" 1).1.m_versions =
      [("accounts", 0), ("accounts", 1)] ∧
    get_table_version
      (set_table_version world_sql_fails engine_zero_version "accounts" 1).1 "accounts" = 0 := by
  decide

/-- C23, amended: `set_table_version` is not atomic on SQL failure.  Outside
the pristine state, for a version `v > 0` that differs from the one
`get_table_version` gives, on a ledger whose entry for the table (if any)
stores a non-zero version: when the statement fails the call returns false,
records the server error (once by the statement execution, once by the call
itself), has sent one statement (INSERT when the table had no entry, UPDATE
otherwise), and `get_table_version` afterwards gives `v`, not the value it
gave before. -/
theorem set_table_version_not_atomic (w : World) (be : GncSqlBackend) (t : String) (v : Nat)
    (hv : 0 < v)
    (hpristine : be.m_is_pristine_db = false)
    (hdiff : get_table_version be t ≠ v)
    (hstored : ∀ ver, find_version be.m_versions t = some ver → ver.2 ≠ 0)
    (hfail : ∀ sql, w.conn_execute_nonselect_statement be.trace sql = -1) :
    (set_table_version w be t v).2 = false ∧
    (set_table_version w be t v).1.qof_be_errors =
      be.qof_be_errors ++ [QofBackendError.ERR_BACKEND_SERVER_ERR,
        QofBackendError.ERR_BACKEND_SERVER_ERR] ∧
    sql_statements (set_table_version w be t v).1.trace =
      sql_statements be.trace ++
        [if find_version be.m_versions t = none then insert_version_sql t v
         else update_version_sql t v] ∧
    get_table_version (set_table_version w be t v).1 t = v ∧
    get_table_version (set_table_version w be t v).1 t ≠ get_table_version be t := by
  have hv' : ¬ ¬ v > 0 := fun h => h hv
  have hv0 : ¬ (0 = v) := by omega
  have hsql : ∀ a b : List Event, sql_statements (a ++ b) =
      sql_statements a ++ sql_statements b := by
    intro a b; simp [sql_statements, List.filterMap_append]
  cases hf : find_version be.m_versions t with
  | none =>
    have hnone := (find_version_eq_none_iff _ _).mp hf
    have hres : set_table_version w be t v =
        ({ be with
            m_versions := be.m_versions ++ [(t, v)],
            qof_be_errors := be.qof_be_errors ++ [QofBackendError.ERR_BACKEND_SERVER_ERR,
              QofBackendError.ERR_BACKEND_SERVER_ERR],
            trace := be.trace ++
              [Event.execute_nonselect_statement (insert_version_sql t v),
               Event.qof_backend_set_error QofBackendError.ERR_BACKEND_SERVER_ERR,
               Event.qof_backend_set_error QofBackendError.ERR_BACKEND_SERVER_ERR] },
         false) := by
      simp [set_table_version, hv', hf, hv0, execute_nonselect_statement_eq, hfail,
        qof_backend_set_error, GncSqlBackend.emit]
    have hget : get_table_version (set_table_version w be t v).1 t = v := by
      rw [hres]
      simp [get_table_version, hpristine, find_version_first _ [] t v hnone]
    refine ⟨by rw [hres], by rw [hres], ?_, hget, by rw [hget]; exact Ne.symm hdiff⟩
    rw [hres]
    simp [hsql, sql_statements]
  | some ver =>
    obtain ⟨_, pre, post, hl, hpre⟩ := find_version_eq_some _ t ver hf
    have h0 : ver.2 ≠ 0 := hstored ver hf
    have hne : ver.2 ≠ v := by
      intro h
      apply hdiff
      simp [get_table_version, hpristine, hf, h]
    have hres : set_table_version w be t v =
        ({ be with
            m_versions := assign_version be.m_versions t v,
            qof_be_errors := be.qof_be_errors ++ [QofBackendError.ERR_BACKEND_SERVER_ERR,
              QofBackendError.ERR_BACKEND_SERVER_ERR],
            trace := be.trace ++
              [Event.execute_nonselect_statement (update_version_sql t v),
               Event.qof_backend_set_error QofBackendError.ERR_BACKEND_SERVER_ERR,
               Event.qof_backend_set_error QofBackendError.ERR_BACKEND_SERVER_ERR] },
         false) := by
      simp [set_table_version, hv', hf, h0, hne, execute_nonselect_statement_eq, hfail,
        qof_backend_set_error, GncSqlBackend.emit]
    have hget : get_table_version (set_table_version w be t v).1 t = v := by
      rw [hres]
      simp only [get_table_version, hpristine, Bool.false_eq_true, if_false]
      rw [hl, assign_version_first pre post t ver.2 v hpre,
        find_version_first pre post t v hpre]
    refine ⟨by rw [hres], by rw [hres], ?_, hget, by rw [hget]; exact Ne.symm hdiff⟩
    rw [hres]
    simp [hsql, sql_statements]

theorem set_table_version_not_atomic_witness :
    get_table_version engine_ledger "splits" = 3 ∧
    (set_table_version world_sql_fails engine_ledger "splits" 4).2 = false ∧
    get_table_version (set_table_version world_sql_fails engine_ledger "splits" 4).1
      "splits" = 4 :=
  ⟨by decide,
   (set_table_version_not_atomic world_sql_fails engine_ledger "splits" 4 (by decide) rfl
     (by decide)
     (fun ver h => by
       have hf : find_version engine_ledger.m_versions "splits" = some ("splits", 3) := by
         decide
       rw [hf] at h
       cases h
       decide)
     (fun _ => rfl)).1,
   (set_table_version_not_atomic world_sql_fails engine_ledger "splits" 4 (by decide) rfl
     (by decide)
     (fun ver h => by
       have hf : find_version engine_ledger.m_versions "splits" = some ("splits", 3) := by
         decide
       rw [hf] at h
       cases h
       decide)
     (fun _ => rfl)).2.2.2.1⟩

end GncSql

namespace GncDbi

/-! ## Reconnection -/

/-- Five failed attempts from the counter at 1, and a driver that connects
at its third attempt: the connection is healthy and the counter is reset. -/
theorem retry_connection_scenario :
    (retry_connection driver_down 6 conn_counted_retry).map
        (fun r => (connect_attempts r.1.trace, r.2, r.1.m_conn_ok)) =
      some (5, false, false) ∧
    (retry_connection driver_third_attempt 6 conn_counted_retry).map
        (fun r => (connect_attempts r.1.trace, r.2, r.1.m_conn_ok, r.1.m_error_repeat)) =
      some (3, true, true, 0) := by
  decide

/-! ## Queries and the retry loop -/

theorem queries_append (a b : List DbiEvent) :
    queries (a ++ b) = queries a ++ queries b := by
  simp [queries, List.filterMap_append]

theorem apply_handler_trace (c : GncDbiSqlConnection) (h : Option ErrorState) :
    (apply_handler c h).trace = c.trace := by
  cases h <;> rfl

theorem dbi_conn_query_trace (q : Libdbi) (c : GncDbiSqlConnection) (sql : String) :
    (dbi_conn_query q c sql).1.trace = c.trace ++ [DbiEvent.dbi_conn_query sql] := by
  simp [dbi_conn_query, apply_handler_trace, GncDbiSqlConnection.emit]

theorem dbi_conn_query_queries (q : Libdbi) (c : GncDbiSqlConnection) (sql : String) :
    queries (dbi_conn_query q c sql).1.trace = queries c.trace ++ [sql] := by
  rw [dbi_conn_query_trace, queries_append]
  rfl

theorem qof_backend_set_error_queries (c : GncDbiSqlConnection) :
    queries (qof_backend_set_error c).trace = queries c.trace ∧
    (qof_backend_set_error c).m_retry = c.m_retry := by
  simp [qof_backend_set_error, GncDbiSqlConnection.emit, queries_append, queries]

theorem dbi_result_free_queries (q : Libdbi) (c : GncDbiSqlConnection)
    (result : Option DbiResult) :
    queries (dbi_result_free q c result).trace = queries c.trace ∧
    (dbi_result_free q c result).m_retry = c.m_retry := by
  unfold dbi_result_free
  dsimp only
  split
  · exact qof_backend_set_error_queries c
  · exact ⟨rfl, rfl⟩

theorem attempt_queries (q : Libdbi) (sql : String) (c : GncDbiSqlConnection) :
    queries (attempt q sql c).1.trace = queries c.trace ++ [sql] := by
  unfold attempt
  rw [dbi_conn_query_queries]
  rfl

theorem query_retry_loop_succ (q : Libdbi) (sql : String) (fuel : Nat)
    (c : GncDbiSqlConnection) :
    query_retry_loop q sql (fuel + 1) c =
      if (attempt q sql c).1.m_retry then query_retry_loop q sql fuel (attempt q sql c).1
      else some (attempt q sql c) := rfl

/-- When the retry loop returns, it has sent the query again and again until
an attempt ended with the retry flag clear. -/
theorem query_retry_loop_retried (q : Libdbi) (sql : String) (fuel : Nat)
    (c c' : GncDbiSqlConnection) (result : Option DbiResult)
    (h : query_retry_loop q sql fuel c = some (c', result)) :
    retried q sql c c' result := by
  induction fuel generalizing c with
  | zero => simp [query_retry_loop] at h
  | succ f ih =>
    rw [query_retry_loop_succ] at h
    by_cases hr : (attempt q sql c).1.m_retry = true
    · rw [if_pos hr] at h
      obtain ⟨n, hq, hset, hclear, hret, hres⟩ := ih _ h
      refine ⟨n + 1, ?_, ?_, hclear, hret, hres⟩
      · rw [hq, attempt_queries, List.append_assoc]
        rfl
      · intro k hk
        cases k with
        | zero => exact hr
        | succ j => exact hset j (by omega)
    · rw [if_neg hr] at h
      have hr' : (attempt q sql c).1.m_retry = false := by simpa using hr
      have hc : c' = (attempt q sql c).1 := by
        have := congrArg Prod.fst (Option.some.inj h); exact this.symm
      have hres : result = (attempt q sql c).2 := by
        have := congrArg Prod.snd (Option.some.inj h); exact this.symm
      refine ⟨0, ?_, ?_, hr', ?_, hres⟩
      · rw [hc, attempt_queries]; rfl
      · intro k hk; omega
      · rw [hc]; exact hr'

/-- The retry loop returns as soon as the fuel outlasts the attempts that
end with the retry flag set. -/
theorem query_retry_loop_returns (q : Libdbi) (sql : String) (n fuel : Nat)
    (c : GncDbiSqlConnection) (hfuel : n < fuel)
    (hclear : (after_attempts q sql (n + 1) c).m_retry = false) :
    ∃ r, query_retry_loop q sql fuel c = some r := by
  induction n generalizing c fuel with
  | zero =>
    obtain ⟨f, rfl⟩ : ∃ f, fuel = f + 1 := ⟨fuel - 1, by omega⟩
    rw [query_retry_loop_succ]
    have : (attempt q sql c).1.m_retry = false := hclear
    rw [this]
    exact ⟨_, rfl⟩
  | succ m ih =>
    obtain ⟨f, rfl⟩ : ∃ f, fuel = f + 1 := ⟨fuel - 1, by omega⟩
    rw [query_retry_loop_succ]
    by_cases hr : (attempt q sql c).1.m_retry = true
    · rw [if_pos hr]
      exact ih f (attempt q sql c).1 (by omega) hclear
    · rw [if_neg hr]
      exact ⟨_, rfl⟩


theorem transaction_command_queries (q : Libdbi) (c : GncDbiSqlConnection)
    (command : String) :
    queries (transaction_command q c command).1.trace = queries c.trace ++ [command] := by
  unfold transaction_command
  dsimp only
  split
  · rw [(qof_backend_set_error_queries _).1, (dbi_result_free_queries q _ _).1,
      dbi_conn_query_queries]
  · rw [(dbi_result_free_queries q _ _).1, dbi_conn_query_queries]

theorem send_ddl_queries (q : Libdbi) (c : GncDbiSqlConnection) (ddl : String) :
    queries (send_ddl q c ddl).1.trace =
      queries c.trace ++ (if ddl = "" then [] else [ddl]) := by
  unfold send_ddl
  by_cases h : ddl = ""
  · simp [h]
  · simp only [h, if_false]
    rw [(dbi_result_free_queries q _ _).1, dbi_conn_query_queries]

/-- C18, as refuted: the error handler sets the retry flag during the only
attempt of `commit_transaction`; the query is sent once and not again, and
the operation returns with the flag still set. -/
theorem commit_transaction_no_retry_counterexample :
    queries (commit_transaction libdbi_retry_always conn_ok).1.trace = ["COMMIT"] ∧
    (commit_transaction libdbi_retry_always conn_ok).1.m_retry = true ∧
    (commit_transaction libdbi_retry_always conn_ok).2 = false := by
  decide

/-- C18, amended: `execute_select_statement`, `execute_nonselect_statement`
and `begin_transaction` (once `verify` has passed) route their query through
the retry loop: when they return, the same query was sent again after every
attempt that ended with the retry flag set, and the last attempt ended with
the flag clear; they return as soon as the fuel outlasts the attempts that
ask for a retry.  `commit_transaction`, `rollback_transaction`,
`create_table`, `create_index`, `add_columns_to_table` and
`table_manage_backup` send their query exactly once (DDL only when it is not
empty), whatever the error handler does to the retry flag. -/
theorem retry_loop_operations (q : Libdbi) (c : GncDbiSqlConnection) :
    (∀ fuel stmt c' result,
      execute_select_statement q fuel c stmt = some (c', result) →
      retried q stmt.m_sql (c.emit DbiEvent.gnc_push_locale) c' result) ∧
    (∀ fuel stmt c' rv,
      execute_nonselect_statement q fuel c stmt = some (c', rv) →
      ∃ result, retried q stmt.m_sql c c' result) ∧
    (∀ fuel c' ok,
      begin_transaction q fuel c = some (c', ok) →
      ((verify q c).2 = false ∧ ok = false ∧ queries c'.trace = queries c.trace) ∨
      ((verify q c).2 = true ∧ ∃ result, retried q "BEGIN" (verify q c).1 c' result)) ∧
    (∀ stmt n fuel, n < fuel →
      (after_attempts q stmt.m_sql (n + 1) (c.emit DbiEvent.gnc_push_locale)).m_retry = false →
      ∃ r, execute_select_statement q fuel c stmt = some r) ∧
    (∀ stmt n fuel, n < fuel →
      (after_attempts q stmt.m_sql (n + 1) c).m_retry = false →
      ∃ r, execute_nonselect_statement q fuel c stmt = some r) ∧
    (∀ n fuel, n < fuel →
      (after_attempts q "BEGIN" (n + 1) (verify q c).1).m_retry = false →
      ∃ r, begin_transaction q fuel c = some r) ∧
    queries (commit_transaction q c).1.trace = queries c.trace ++ ["COMMIT"] ∧
    queries (rollback_transaction q c).1.trace = queries c.trace ++ ["ROLLBACK"] ∧
    (∀ table_name info_vec,
      queries (create_table q c table_name info_vec).1.trace =
        queries c.trace ++
          (if q.create_table_ddl table_name info_vec = "" then []
           else [q.create_table_ddl table_name info_vec])) ∧
    (∀ index_name table_name col_table,
      queries (create_index q c index_name table_name col_table).1.trace =
        queries c.trace ++
          (if create_index_ddl index_name table_name col_table = "" then []
           else [create_index_ddl index_name table_name col_table])) ∧
    (∀ table_name info_vec,
      queries (add_columns_to_table q c table_name info_vec).1.trace =
        queries c.trace ++
          (if q.add_columns_ddl table_name info_vec = "" then []
           else [q.add_columns_ddl table_name info_vec])) ∧
    (∀ table_name,
      queries (table_manage_backup q c table_name TableOpType.backup).1.trace =
        queries c.trace ++
          ["ALTER TABLE " ++ table_name ++ " RENAME TO " ++ (table_name ++ "_back")] ∧
      queries (table_manage_backup q c table_name TableOpType.rollback).1.trace =
        queries c.trace ++
          ["ALTER TABLE " ++ (table_name ++ "_back") ++ " RENAME TO " ++ table_name] ∧
      queries (table_manage_backup q c table_name TableOpType.drop_backup).1.trace =
        queries c.trace ++ ["DROP TABLE " ++ (table_name ++ "_back")]) := by
  refine ⟨?_, ?_, ?_, ?_, ?_, ?_, transaction_command_queries q c "COMMIT",
    transaction_command_queries q c "ROLLBACK",
    fun _ _ => send_ddl_queries q c _, fun _ _ _ => send_ddl_queries q c _,
    fun _ _ => send_ddl_queries q c _,
    fun _ => ⟨dbi_conn_query_queries q c _, dbi_conn_query_queries q c _,
      dbi_conn_query_queries q c _⟩⟩
  · intro fuel stmt c' result h
    unfold execute_select_statement at h
    dsimp only at h
    cases hl : query_retry_loop q stmt.to_sql fuel (c.emit DbiEvent.gnc_push_locale) with
    | none => simp [hl] at h
    | some r =>
      obtain ⟨c1, r1⟩ := r
      simp only [hl, Option.some.injEq, Prod.mk.injEq] at h
      obtain ⟨hc, hr⟩ := h
      subst hc hr
      obtain ⟨n, hq, hset, hclear, hret, hres⟩ := query_retry_loop_retried q _ fuel _ c1 r1 hl
      refine ⟨n, ?_, hset, hclear, hret, hres⟩
      have hpop : queries (c1.emit DbiEvent.gnc_pop_locale).trace = queries c1.trace := by
        simp [GncDbiSqlConnection.emit, queries_append, queries]
      rw [hpop]
      exact hq
  · intro fuel stmt c' rv h
    unfold execute_nonselect_statement at h
    cases hl : query_retry_loop q stmt.to_sql fuel c with
    | none => simp [hl] at h
    | some r =>
      obtain ⟨c1, r1⟩ := r
      obtain ⟨n, hq, hset, hclear, hret, hres⟩ := query_retry_loop_retried q _ fuel _ c1 r1 hl
      simp only [hl] at h
      split at h
      · simp only [Option.some.injEq, Prod.mk.injEq] at h
        rw [← h.1]
        exact ⟨r1, n, hq, hset, hclear, hret, hres⟩
      · split at h
        · simp only [Option.some.injEq, Prod.mk.injEq] at h
          rw [← h.1]
          exact ⟨none, n, hq, hset, hclear, hret, hres⟩
        · rename_i r2 _
          simp only [Option.some.injEq, Prod.mk.injEq] at h
          rw [← h.1]
          refine ⟨some r2, n, ?_, hset, hclear, ?_, hres⟩
          · rw [(dbi_result_free_queries q c1 _).1]; exact hq
          · rw [(dbi_result_free_queries q c1 _).2]; exact hret
  · intro fuel c' ok h
    unfold begin_transaction at h
    cases hv : verify q c with
    | mk c0 vok =>
      simp only [hv] at h ⊢
      cases vok with
      | false =>
        simp only [Bool.not_false, if_true, Option.some.injEq, Prod.mk.injEq] at h
        left
        refine ⟨rfl, h.2.symm, ?_⟩
        rw [← h.1, (qof_backend_set_error_queries c0).1]
        have hc0 : queries c0.trace = queries c.trace := by
          have : c0 = (verify q c).1 := by rw [hv]
          rw [this]
          unfold verify
          split
          · rfl
          · simp [apply_handler_trace, GncDbiSqlConnection.emit, init_error,
              queries_append, queries]
        exact hc0
      | true =>
        simp only [Bool.not_true, Bool.false_eq_true, if_false] at h
        right
        refine ⟨rfl, ?_⟩
        cases hl : query_retry_loop q "BEGIN" fuel c0 with
        | none => simp [hl] at h
        | some r =>
          obtain ⟨c1, r1⟩ := r
          obtain ⟨n, hq, hset, hclear, hret, hres⟩ :=
            query_retry_loop_retried q _ fuel _ c1 r1 hl
          simp only [hl, Option.some.injEq, Prod.mk.injEq] at h
          rw [← h.1]
          refine ⟨r1, n, ?_, hset, hclear, ?_, hres⟩
          · split
            · rw [(qof_backend_set_error_queries _).1, (dbi_result_free_queries q c1 _).1]
              exact hq
            · rw [(dbi_result_free_queries q c1 _).1]; exact hq
          · split
            · rw [(qof_backend_set_error_queries _).2, (dbi_result_free_queries q c1 _).2]
              exact hret
            · rw [(dbi_result_free_queries q c1 _).2]; exact hret
  · intro stmt n fuel hfuel hclear
    obtain ⟨⟨c1, r1⟩, hl⟩ := query_retry_loop_returns q stmt.m_sql n fuel _ hfuel hclear
    unfold execute_select_statement
    dsimp only
    rw [show stmt.to_sql = stmt.m_sql from rfl, hl]
    exact ⟨_, rfl⟩
  · intro stmt n fuel hfuel hclear
    obtain ⟨⟨c1, r1⟩, hl⟩ := query_retry_loop_returns q stmt.m_sql n fuel _ hfuel hclear
    unfold execute_nonselect_statement
    rw [show stmt.to_sql = stmt.m_sql from rfl, hl]
    dsimp only
    split
    · exact ⟨_, rfl⟩
    · split <;> exact ⟨_, rfl⟩
  · intro n fuel hfuel hclear
    unfold begin_transaction
    cases hv : verify q c with
    | mk c0 vok =>
      rw [hv] at hclear
      cases vok with
      | false => exact ⟨_, rfl⟩
      | true =>
        obtain ⟨⟨c1, r1⟩, hl⟩ := query_retry_loop_returns q "BEGIN" n fuel _ hfuel hclear
        simp only [Bool.not_true, Bool.false_eq_true, if_false, hl]
        exact ⟨_, rfl⟩


theorem retry_loop_operations_witness :
    ∃ r, execute_nonselect_statement libdbi_retry_once 5 conn_ok ⟨"DELETE FROM t"⟩ = some r :=
  (retry_loop_operations libdbi_retry_once conn_ok).2.2.2.2.1 ⟨"DELETE FROM t"⟩ 1 5
    (by decide) (by decide)

/-- A retry requested once: the statement is sent twice. -/
theorem execute_nonselect_statement_retry_scenario :
    (execute_nonselect_statement libdbi_retry_once 5 conn_ok ⟨"DELETE FROM t"⟩).map
        (fun r => (queries r.1.trace, r.2)) =
      some (["DELETE FROM t", "DELETE FROM t"], 1) := by
  decide

/-! ## Return value of `execute_nonselect_statement` -/

theorem to_gint_small (n : Nat) (h : n < 2 ^ 31) : to_gint n = (n : Int) := by
  unfold to_gint
  have h1 : n % 2 ^ 32 = n := Nat.mod_eq_of_lt (by omega)
  rw [h1, if_pos h]

/-- C16, as refuted: the driver returns a result whose affected-row count is
4294967295; the conversion to `gint` makes `execute_nonselect_statement`
return -1 although a result was returned. -/
theorem execute_nonselect_statement_wrapped_count_counterexample :
    (query_retry_loop libdbi_big_count "DELETE FROM t" 1 conn_ok).map (fun r => r.2) =
      some (some ⟨4294967295, 0⟩) ∧
    (execute_nonselect_statement libdbi_big_count 1 conn_ok ⟨"DELETE FROM t"⟩).map
      (fun r => r.2) = some (-1) := by
  decide

/-- C16, amended: when the retry loop ends with state `c1` and the driver's
last `result`, `execute_nonselect_statement` returns; the value is -1 when
there is no result and the last error is set, 0 when there is no result and
no error is set, and otherwise the affected-row count converted to `gint`,
which is the count itself when it is below `2 ^ 31`; for such counts -1 is
returned exactly when there is no result and the last error is set. -/
theorem execute_nonselect_statement_value (q : Libdbi) (fuel : Nat) (c : GncDbiSqlConnection)
    (stmt : GncDbiSqlStatement) (c1 : GncDbiSqlConnection) (result : Option DbiResult)
    (hloop : query_retry_loop q stmt.m_sql fuel c = some (c1, result)) :
    ∃ c' rv, execute_nonselect_statement q fuel c stmt = some (c', rv) ∧
      (result = none → c1.m_last_error ≠ 0 → rv = -1) ∧
      (result = none → c1.m_last_error = 0 → rv = 0) ∧
      (∀ r, result = some r → rv = to_gint r.numrows_affected) ∧
      (∀ r, result = some r → r.numrows_affected < 2 ^ 31 →
        rv = (r.numrows_affected : Int)) ∧
      ((∀ r, result = some r → r.numrows_affected < 2 ^ 31) →
        (rv = -1 ↔ (result = none ∧ c1.m_last_error ≠ 0))) := by
  unfold execute_nonselect_statement
  rw [show stmt.to_sql = stmt.m_sql from rfl, hloop]
  dsimp only
  cases result with
  | none =>
    by_cases he : c1.m_last_error = 0
    · refine ⟨c1, 0, by simp [he], ?_, ?_, ?_, ?_, ?_⟩ <;> simp [he]
    · refine ⟨c1, -1, by simp [he], ?_, ?_, ?_, ?_, ?_⟩ <;> simp [he]
  | some r =>
    refine ⟨dbi_result_free q c1 (some r), to_gint r.numrows_affected, by simp,
      ?_, ?_, ?_, ?_, ?_⟩
    · intro h; simp at h
    · intro h; simp at h
    · intro r' hr'
      rw [Option.some.inj hr']
    · intro r' hr' hsmall
      rw [← Option.some.inj hr'] at hsmall
      rw [to_gint_small _ hsmall, Option.some.inj hr']
    · intro hsmall
      have hs := hsmall r rfl
      rw [to_gint_small _ hs]
      constructor
      · intro h
        omega
      · intro h
        simp at h

theorem execute_nonselect_statement_value_witness :
    ∃ c' rv, execute_nonselect_statement libdbi_ok 1 conn_ok ⟨"DELETE FROM t"⟩ =
        some (c', rv) ∧ rv = 1 := by
  obtain ⟨c', rv, h, _, _, _, h4, _⟩ :=
    execute_nonselect_statement_value libdbi_ok 1 conn_ok ⟨"DELETE FROM t"⟩
      ⟨true, 0, 0, false, [DbiEvent.dbi_conn_query "DELETE FROM t"]⟩ (some ⟨1, 0⟩)
      (by decide)
  exact ⟨c', rv, h, h4 ⟨1, 0⟩ rfl (by decide)⟩

/-! ## DDL -/

/-- C19: `create_table` and `add_columns_to_table` return false exactly when
the DDL generated for their arguments is the empty string, and exactly then
they send nothing to the driver; when the DDL is not empty they return true
and send it once. -/
theorem empty_ddl_is_failure (q : Libdbi) (c : GncDbiSqlConnection) (table_name : String)
    (info_vec : ColVec) :
    ((create_table q c table_name info_vec).2 = false ↔
      q.create_table_ddl table_name info_vec = "") ∧
    (queries (create_table q c table_name info_vec).1.trace = queries c.trace ↔
      q.create_table_ddl table_name info_vec = "") ∧
    (q.create_table_ddl table_name info_vec ≠ "" →
      (create_table q c table_name info_vec).2 = true ∧
      queries (create_table q c table_name info_vec).1.trace =
        queries c.trace ++ [q.create_table_ddl table_name info_vec]) ∧
    ((add_columns_to_table q c table_name info_vec).2 = false ↔
      q.add_columns_ddl table_name info_vec = "") ∧
    (queries (add_columns_to_table q c table_name info_vec).1.trace = queries c.trace ↔
      q.add_columns_ddl table_name info_vec = "") ∧
    (q.add_columns_ddl table_name info_vec ≠ "" →
      (add_columns_to_table q c table_name info_vec).2 = true ∧
      queries (add_columns_to_table q c table_name info_vec).1.trace =
        queries c.trace ++ [q.add_columns_ddl table_name info_vec]) := by
  have key : ∀ ddl : String,
      ((send_ddl q c ddl).2 = false ↔ ddl = "") ∧
      (queries (send_ddl q c ddl).1.trace = queries c.trace ↔ ddl = "") ∧
      (ddl ≠ "" → (send_ddl q c ddl).2 = true ∧
        queries (send_ddl q c ddl).1.trace = queries c.trace ++ [ddl]) := by
    intro ddl
    have hq := send_ddl_queries q c ddl
    by_cases h : ddl = ""
    · simp [send_ddl, h]
    · rw [if_neg h] at hq
      refine ⟨?_, ?_, ?_⟩
      · simp [send_ddl, h]
      · rw [hq]; simp [h]
      · intro _
        exact ⟨by simp [send_ddl, h], hq⟩
  obtain ⟨a1, a2, a3⟩ := key (q.create_table_ddl table_name info_vec)
  obtain ⟨b1, b2, b3⟩ := key (q.add_columns_ddl table_name info_vec)
  exact ⟨a1, a2, a3, b1, b2, b3⟩

theorem empty_ddl_is_failure_witness :
    (add_columns_to_table libdbi_ok conn_ok "accts" []).2 = false ∧
    (create_table libdbi_ok conn_ok "accts" []).2 = true ∧
    queries (create_table libdbi_ok conn_ok "accts" []).1.trace =
      queries conn_ok.trace ++ [libdbi_ok.create_table_ddl "accts" []] :=
  ⟨(empty_ddl_is_failure libdbi_ok conn_ok "accts" []).2.2.2.1.mpr rfl,
   ((empty_ddl_is_failure libdbi_ok conn_ok "accts" []).2.2.1 (by decide)).1,
   ((empty_ddl_is_failure libdbi_ok conn_ok "accts" []).2.2.1 (by decide)).2⟩

/-- C14, the code at the failing input: for the two distinct columns `guid`
and `name` the statement `ddl =+ ", "` replaces the text built so far, so the
DDL is `, name)` and that is what `create_index` sends to the driver; with
the single column `guid` the DDL is the expected one. -/
theorem create_index_ddl_loses_prefix :
    create_index_ddl "idx" "tbl" [entry_guid, entry_name] = ", name)" ∧
    queries (create_index libdbi_ok conn_ok "idx" "tbl" [entry_guid, entry_name]).1.trace =
      [", name)"] ∧
    create_index_ddl "idx" "tbl" [entry_guid] = "CREATE INDEX idx ON tbl(guid)" := by
  decide

/-! ## WHERE clause -/

/-- C15, the code at the failing input: the second pair equals the first, so
the comparison with `*col_values.begin ()` takes it for the first and no
`" AND "` is put before it; with two different pairs the text is the
expected one. -/
theorem add_where_cond_repeated_first_pair :
    (GncDbiSqlStatement.add_where_cond libdbi_ok ⟨"SELECT * FROM t"⟩
        [("guid", "x"), ("guid", "x")]).to_sql =
      "SELECT * FROM t WHERE guid = 'x'guid = 'x'" ∧
    (GncDbiSqlStatement.add_where_cond libdbi_ok ⟨"SELECT * FROM t"⟩
        [("guid", "x"), ("name", "y")]).to_sql =
      "SELECT * FROM t WHERE guid = 'x' AND name = 'y'" := by
  decide

/-! ## Backoff of the reconnection -/

/-- The delays of failed attempts from the counter at 1, in microseconds and
(on Windows) in milliseconds, and of a call entered with the counter at 4. -/
theorem retry_connection_backoff_scenario :
    (retry_connection driver_down 6 conn_counted_retry).map
        (fun r => sleep_delays r.1.trace) =
      some [8000, 16000, 32000, 64000, 128000] ∧
    (retry_connection driver_down_win32 6 conn_counted_retry).map
        (fun r => sleep_delays r.1.trace) =
      some [8, 16, 32, 64, 128] ∧
    (retry_connection driver_down 6 { conn_fresh_retry with m_error_repeat := 4 }).map
        (fun r => sleep_delays r.1.trace) =
      some [64000, 128000] := by
  decide

end GncDbi
